import Mathlib

/-!
# Export-table resolver of `Hook.cpp`

A shallow embedding of `Hook::GetProcAddress` and `Hook::CheckExportAddress`
(`External/Hooking/Hook.cpp`) over a byte-addressed, partial 32-bit memory.

* Pointers, `DWORD`s and `WORD`s are natural numbers; pointer arithmetic wraps
  modulo `2^32` (the code casts pointers to `DWORD`, so it is a 32-bit build).
* A memory read that raises an access violation is a read returning `none`;
  the `__try` block is a computation in `Option`, and the `__except` handler is
  the `none` branch of the caller.
* `::GetProcAddress` (the operating system's lookup) is an oracle
  `native : Nat → Nat → Nat` from handle and identifier to an address, `0`
  being the null pointer.
* `Logging::LogFormat` records the format string and its raw arguments.
* `GetProcAddress.exec` runs `Hook::GetProcAddress` statement by statement in a
  world (the memory and the log sink), with the reads of the identifier that
  lie outside the `__try` statement; `GetProcAddress` is the same call as a
  function of the memory, for the calls that return.

The namespace `Remix` embeds the class `RemixAPIManager` of `ddraw/RemixAPI.h`
as a state machine: each method takes the manager and the platform at the time
of the call, and returns the new manager with the outside calls it made.
-/

namespace Hook

/-! ## Memory -/

/-- Byte-addressed memory: `none` at an address means that reading it raises an
access violation. -/
abbrev Mem := Nat → Option Nat

/-- Pointer plus offset in 32-bit address arithmetic. -/
def ptrAdd (p off : Nat) : Nat := (p + off) % 2 ^ 32

/-- Read one byte; addresses beyond the 32-bit address space are not mapped. -/
def readBYTE (m : Mem) (a : Nat) : Option Nat :=
  if a < 2 ^ 32 then (m a).map (fun b => b % 256) else none

/-- Read a little-endian 16-bit `WORD`. -/
def readWORD (m : Mem) (a : Nat) : Option Nat :=
  match readBYTE m a, readBYTE m (a + 1) with
  | some b0, some b1 => some (b0 + 256 * b1)
  | _, _ => none

/-- Read a little-endian 32-bit `DWORD`. -/
def readDWORD (m : Mem) (a : Nat) : Option Nat :=
  match readWORD m a, readWORD m (a + 2) with
  | some w0, some w1 => some (w0 + 65536 * w1)
  | _, _ => none

/-- The C `strcmp` loop, at most `k` characters long: compares the bytes at `a`
and `b` as unsigned characters until they differ or both are the terminator.
A pointer that leaves the address space faults. -/
def strcmpFrom (m : Mem) : Nat → Nat → Nat → Option Int
  | 0, _, _ => none
  | k + 1, a, b =>
    match readBYTE m a, readBYTE m b with
    | some c1, some c2 =>
      if c1 = c2 then
        if c1 = 0 then some 0 else strcmpFrom m k (a + 1) (b + 1)
      else if c1 < c2 then some (-1) else some 1
    | _, _ => none

/-- `strcmp(a, b)` on two pointers into memory; `none` when it faults. After
`2 ^ 32` characters both pointers have left the address space. -/
def strcmp (m : Mem) (a b : Nat) : Option Int :=
  strcmpFrom m (2 ^ 32) a b

/-- The NUL-terminated byte string at `a` (terminator excluded), of fewer than
`k` characters. -/
def cstrFrom (m : Mem) : Nat → Nat → Option (List Nat)
  | 0, _ => none
  | k + 1, a =>
    match readBYTE m a with
    | none => none
    | some c =>
      if c = 0 then some []
      else match cstrFrom m k (a + 1) with
        | none => none
        | some s => some (c :: s)

/-- The NUL-terminated byte string a pointer designates, `none` when reading it
faults before a terminator is met. -/
def cstr (m : Mem) (a : Nat) : Option (List Nat) :=
  cstrFrom m (2 ^ 32) a

/-! ## Platform macros and the PE layout -/

/-- The `HIWORD` macro of `minwindef.h`. -/
def HIWORD (x : Nat) : Nat := (x / 65536) % 65536

/-- The `LOWORD` macro of `minwindef.h`. -/
def LOWORD (x : Nat) : Nat := x % 65536

/-- Value of `static_cast<WORD>` on a `DWORD`. -/
def toWORD (x : Nat) : Nat := x % 65536

/-- Value of the cast `(int)` on a `DWORD`: two's complement reinterpretation. -/
def toInt32 (x : Nat) : Int :=
  if x % 2 ^ 32 < 2 ^ 31 then ((x % 2 ^ 32 : Nat) : Int) else ((x % 2 ^ 32 : Nat) : Int) - 2 ^ 32

/-- Modelled from the spec: `winnt.h` is not among the sources; section 6 fixes
the layout to the standard Portable Executable format, whose DOS signature is
the word `MZ`. -/
def IMAGE_DOS_SIGNATURE : Nat := 0x5A4D

/-- Modelled from the spec: `winnt.h` is not among the sources; the NT signature
of the standard Portable Executable format is the double word `PE\0\0`. -/
def IMAGE_NT_SIGNATURE : Nat := 0x00004550

/-- Modelled from the spec: offset of `e_lfanew` in `IMAGE_DOS_HEADER`. -/
def off_e_lfanew : Nat := 60

/-- Modelled from the spec: offset, in the 32-bit `IMAGE_NT_HEADERS`, of
`OptionalHeader.DataDirectory[IMAGE_DIRECTORY_ENTRY_EXPORT].VirtualAddress`. -/
def off_ExportVA : Nat := 120

/-- Modelled from the spec: offset, in the 32-bit `IMAGE_NT_HEADERS`, of
`OptionalHeader.DataDirectory[IMAGE_DIRECTORY_ENTRY_EXPORT].Size`. -/
def off_ExportSize : Nat := 124

/-- Modelled from the spec: offset of `Base` in `IMAGE_EXPORT_DIRECTORY`. -/
def off_Base : Nat := 16

/-- Modelled from the spec: offset of `NumberOfFunctions` in
`IMAGE_EXPORT_DIRECTORY`. -/
def off_NumberOfFunctions : Nat := 20

/-- Modelled from the spec: offset of `NumberOfNames` in
`IMAGE_EXPORT_DIRECTORY`. -/
def off_NumberOfNames : Nat := 24

/-- Modelled from the spec: offset of `AddressOfFunctions` in
`IMAGE_EXPORT_DIRECTORY`. -/
def off_AddressOfFunctions : Nat := 28

/-- Modelled from the spec: offset of `AddressOfNames` in
`IMAGE_EXPORT_DIRECTORY`. -/
def off_AddressOfNames : Nat := 32

/-- Modelled from the spec: offset of `AddressOfNameOrdinals` in
`IMAGE_EXPORT_DIRECTORY`. -/
def off_AddressOfNameOrdinals : Nat := 36

/-- The code `GetExceptionCode()` reports for an access violation. -/
def EXCEPTION_ACCESS_VIOLATION : Nat := 0xC0000005

/-! ## Diagnostics -/

/-- One call of `Logging::LogFormat`: the format string and its arguments. -/
structure LogLine where
  fmt : String
  args : List Nat
  deriving DecidableEq, Repr

/-- What a call hands back: the returned value and the lines it logged. -/
structure Outcome (α : Type) where
  value : α
  log : List LogLine
  deriving DecidableEq, Repr

/-- How control leaves a `__try` block that did not fault: through one of its
`return` statements, or by reaching its end. -/
inductive TryExit (α : Type) where
  | ret (value : α) (log : List LogLine)
  | fallThrough
  deriving DecidableEq, Repr

/-! ## `Hook::GetProcAddress` -/

/-- The range test of the ordinal branch:
`ordinal < base || (ordinal - base) >= (int)exports->NumberOfFunctions`, on the
two `WORD`s promoted to `int`. -/
def ordinalOutOfRange (ordinal base numberOfFunctions : Nat) : Bool :=
  decide (ordinal < base) || decide (toInt32 numberOfFunctions ≤ (ordinal : Int) - (base : Int))

/-- The `for` loop of the name branch, entered at index `i` with `k` iterations
left (`i + k` is `exports->NumberOfNames`, which the loop cannot change since
nothing writes to memory). -/
def GetProcAddress.nameLoop (m : Mem) (hModule functionName funcAddrs nameAddrs ordinals : Nat) :
    Nat → Nat → Option (TryExit Nat)
  | 0, _ => some TryExit.fallThrough
  | k + 1, i =>
    match readDWORD m (ptrAdd nameAddrs (4 * i)) with
    | none => none
    | some nameRva =>
      match strcmp m functionName (ptrAdd hModule nameRva) with
      | none => none
      | some c =>
        if c = 0 then
          match readWORD m (ptrAdd ordinals (2 * i)) with
          | none => none
          | some ordinal =>
            match readDWORD m (ptrAdd funcAddrs (4 * ordinal)) with
            | none => none
            | some rva => some (TryExit.ret (ptrAdd hModule rva) [])
        else GetProcAddress.nameLoop m hModule functionName funcAddrs nameAddrs ordinals k (i + 1)

/-- The ordinal and name branches (lines 72-112), `exports` being the address of
the export directory. `exports->NumberOfFunctions` is read on both sides of the
short-circuit `||` of line 88 (by the comparison, or else by the arguments of
the log call of line 90), so it is read once, before the test. -/
def GetProcAddress.lookup (m : Mem) (hModule functionName fallback exports : Nat) :
    Option (TryExit Nat) :=
  match readDWORD m (ptrAdd exports off_AddressOfFunctions) with
  | none => none
  | some addressOfFunctions =>
  match readDWORD m (ptrAdd exports off_AddressOfNames) with
  | none => none
  | some addressOfNames =>
  match readDWORD m (ptrAdd exports off_AddressOfNameOrdinals) with
  | none => none
  | some addressOfNameOrdinals =>
    let funcAddrs := ptrAdd hModule addressOfFunctions
    let nameAddrs := ptrAdd hModule addressOfNames
    let ordinals := ptrAdd hModule addressOfNameOrdinals
    if HIWORD functionName = 0 then
      let ordinal := LOWORD functionName
      match readDWORD m (ptrAdd exports off_Base) with
      | none => none
      | some exportBase =>
        let base := toWORD exportBase
        match readDWORD m (ptrAdd exports off_NumberOfFunctions) with
        | none => none
        | some numberOfFunctions =>
          if ordinalOutOfRange ordinal base numberOfFunctions then
            some (TryExit.ret fallback
              [⟨"Hook::GetProcAddress Ordinal %u out of range (Base=%u Count=%u)",
                [ordinal, base, numberOfFunctions]⟩])
          else
            match readDWORD m (ptrAdd funcAddrs (4 * (ordinal - base))) with
            | none => none
            | some rva => some (TryExit.ret (ptrAdd hModule rva) [])
    else
      match readDWORD m (ptrAdd exports off_NumberOfNames) with
      | none => none
      | some numberOfNames =>
        GetProcAddress.nameLoop m hModule functionName funcAddrs nameAddrs ordinals numberOfNames 0

/-- The body of the `__try` block of `Hook::GetProcAddress` (lines 50-112);
`none` when a read raises an access violation. -/
def GetProcAddress.tryBlock (m : Mem) (hModule functionName fallback : Nat) :
    Option (TryExit Nat) :=
  match readWORD m hModule with
  | none => none
  | some e_magic =>
    if e_magic ≠ IMAGE_DOS_SIGNATURE then
      some (TryExit.ret fallback [⟨"Hook::GetProcAddress Not a valid DOS header.", []⟩])
    else
      match readDWORD m (ptrAdd hModule off_e_lfanew) with
      | none => none
      | some e_lfanew =>
        let nt := ptrAdd hModule e_lfanew
        match readDWORD m nt with
        | none => none
        | some signature =>
          if signature ≠ IMAGE_NT_SIGNATURE then
            some (TryExit.ret fallback [⟨"Hook::GetProcAddress Not a valid NT header.", []⟩])
          else
            match readDWORD m (ptrAdd nt off_ExportVA) with
            | none => none
            | some virtualAddress =>
              if virtualAddress = 0 then
                some (TryExit.ret fallback
                  [⟨"Hook::GetProcAddress No export directory present.", []⟩])
              else
                match readDWORD m (ptrAdd nt off_ExportSize) with
                | none => none
                | some size =>
                  if size = 0 then
                    some (TryExit.ret fallback
                      [⟨"Hook::GetProcAddress No export directory present.", []⟩])
                  else
                    GetProcAddress.lookup m hModule functionName fallback
                      (ptrAdd hModule virtualAddress)

/-- The line logged when the native lookup found nothing (lines 36-46). -/
def GetProcAddress.nativeMissLog (functionName fallback : Nat) : List LogLine :=
  if fallback = 0 then
    if HIWORD functionName = 0 then
      [⟨"Hook::GetProcAddress Windows API couldn't find ordinal %u", [LOWORD functionName]⟩]
    else
      [⟨"Hook::GetProcAddress Windows API couldn't find %s", [functionName]⟩]
  else []

/-- The line logged after the `__try` statement (lines 119-126). -/
def GetProcAddress.notFoundLog (functionName : Nat) : LogLine :=
  if HIWORD functionName = 0 then
    ⟨"Hook::GetProcAddress Ordinal %u not found in export table.", [LOWORD functionName]⟩
  else
    ⟨"Hook::GetProcAddress %s not found in export table.", [functionName]⟩

/-- `FARPROC Hook::GetProcAddress(HMODULE hModule, LPCSTR functionName)` as a
function of the memory: the address returned and the lines logged by a call
that returns. The reads of the identifier outside the `__try` statement, which
can end the call in an access violation instead, are those of
`GetProcAddress.exec`, the call run statement by statement in a world; for an
identifier that is an ordinal or a readable string the two agree
(`exec_of_readable`). -/
def GetProcAddress (native : Nat → Nat → Nat) (m : Mem) (hModule functionName : Nat) :
    Outcome Nat :=
  if hModule = 0 ∨ functionName = 0 then
    ⟨0, [⟨"Hook::GetProcAddress Invalid module or function name.", []⟩]⟩
  else
    let fallback := native hModule functionName
    let log0 := GetProcAddress.nativeMissLog functionName fallback
    match GetProcAddress.tryBlock m hModule functionName fallback with
    | some (TryExit.ret value log) => ⟨value, log0 ++ log⟩
    | some TryExit.fallThrough =>
      ⟨fallback, log0 ++ [GetProcAddress.notFoundLog functionName]⟩
    | none =>
      ⟨fallback, log0 ++
        [⟨"Hook::GetProcAddress Exception caught while parsing export table. Code=0x%08X",
            [EXCEPTION_ACCESS_VIOLATION]⟩,
          GetProcAddress.notFoundLog functionName]⟩

/-! ## `Hook::CheckExportAddress` -/

/-- The `for` loop of `Hook::CheckExportAddress` (lines 200-206), entered at
index `i` with `k` iterations left. -/
def CheckExportAddress.scan (native : Nat → Nat → Nat) (m : Mem)
    (hModule AddressCheck Address Name Ordinals : Nat) : Nat → Nat → Option (TryExit Bool)
  | 0, _ => some TryExit.fallThrough
  | k + 1, i =>
    match readDWORD m (ptrAdd Name (4 * i)) with
    | none => none
    | some nameRva =>
      if native hModule (ptrAdd hModule nameRva) = AddressCheck then
        some (TryExit.ret true [])
      else
        match readWORD m (ptrAdd Ordinals (2 * i)) with
        | none => none
        | some ordinal =>
          match readDWORD m (ptrAdd Address (4 * ordinal)) with
          | none => none
          | some rva =>
            if ptrAdd rva hModule = AddressCheck then some (TryExit.ret true [])
            else CheckExportAddress.scan native m hModule AddressCheck Address Name Ordinals
              k (i + 1)

/-- The body of the `__try` block of `Hook::CheckExportAddress` (lines 164-206). -/
def CheckExportAddress.tryBlock (native : Nat → Nat → Nat) (m : Mem)
    (hModule AddressCheck : Nat) : Option (TryExit Bool) :=
  match readWORD m hModule with
  | none => none
  | some e_magic =>
    if e_magic ≠ IMAGE_DOS_SIGNATURE then
      some (TryExit.ret false
        [⟨"Hook::CheckExportAddress Error: Module is not IMAGE_DOS_SIGNATURE.", []⟩])
    else
      match readDWORD m (ptrAdd hModule off_e_lfanew) with
      | none => none
      | some e_lfanew =>
        let pINH := ptrAdd hModule e_lfanew
        match readDWORD m pINH with
        | none => none
        | some signature =>
          if signature ≠ IMAGE_NT_SIGNATURE then
            some (TryExit.ret false
              [⟨"Hook::CheckExportAddress Error: Module is not IMAGE_NT_SIGNATURE.", []⟩])
          else
            match readDWORD m (ptrAdd pINH off_ExportVA) with
            | none => none
            | some virtualAddress =>
              if virtualAddress = 0 then
                some (TryExit.ret false
                  [⟨"Hook::CheckExportAddress Error: Could not get VirtualAddress.", []⟩])
              else
                match readDWORD m (ptrAdd pINH off_ExportSize) with
                | none => none
                | some size =>
                  if size = 0 then
                    some (TryExit.ret false
                      [⟨"Hook::CheckExportAddress Error: Could not get VirtualAddress.", []⟩])
                  else
                    let pIED := ptrAdd hModule virtualAddress
                    match readDWORD m (ptrAdd pIED off_NumberOfFunctions) with
                    | none => none
                    | some numberOfFunctions =>
                      if numberOfFunctions = 0 then
                        some (TryExit.ret false
                          [⟨"Hook::CheckExportAddress Error: No export functions in the module.",
                            []⟩])
                      else
                        match readDWORD m (ptrAdd pIED off_AddressOfFunctions) with
                        | none => none
                        | some addressOfFunctions =>
                        match readDWORD m (ptrAdd pIED off_AddressOfNames) with
                        | none => none
                        | some addressOfNames =>
                        match readDWORD m (ptrAdd pIED off_AddressOfNameOrdinals) with
                        | none => none
                        | some addressOfNameOrdinals =>
                        match readDWORD m (ptrAdd pIED off_NumberOfNames) with
                        | none => none
                        | some numberOfNames =>
                          CheckExportAddress.scan native m hModule AddressCheck
                            (ptrAdd hModule addressOfFunctions)
                            (ptrAdd hModule addressOfNames)
                            (ptrAdd hModule addressOfNameOrdinals) numberOfNames 0

/-- `bool Hook::CheckExportAddress(HMODULE hModule, void* AddressCheck)`, release
build (the `_DEBUG` line is compiled out). -/
def CheckExportAddress (native : Nat → Nat → Nat) (m : Mem) (hModule AddressCheck : Nat) :
    Outcome Bool :=
  if hModule = 0 then
    ⟨false, [⟨"Hook::CheckExportAddress NULL module.", []⟩]⟩
  else
    match CheckExportAddress.tryBlock native m hModule AddressCheck with
    | some (TryExit.ret value log) => ⟨value, log⟩
    | some TryExit.fallThrough => ⟨false, []⟩
    | none =>
      ⟨false, [⟨"Hook::CheckExportAddress Error: Exception caught: %x",
        [EXCEPTION_ACCESS_VIOLATION]⟩]⟩

/-! ## A synthetic image -/

/-- Little-endian bytes of a `WORD`. -/
def le16 (x : Nat) : List Nat := [x % 256, (x / 256) % 256]

/-- Little-endian bytes of a `DWORD`. -/
def le32 (x : Nat) : List Nat := le16 (x % 65536) ++ le16 (x / 65536)

/-- A mapped region: `size` bytes from address `start` on, holding `bytes`
followed by zeros. -/
structure Region where
  start : Nat
  size : Nat
  bytes : List Nat
  deriving Repr

/-- The memory that maps the given regions and nothing else. -/
def memOfRegions (rs : List Region) : Mem :=
  fun a =>
    match rs.find? (fun r => decide (r.start ≤ a) && decide (a < r.start + r.size)) with
    | none => none
    | some r => some (r.bytes.getD (a - r.start) 0)

/-- The handle at which the synthetic image is mapped. -/
def sampleHandle : Nat := 0x10000000

/-- A small image of 283 contiguous bytes at `sampleHandle`: DOS header with
`e_lfanew = 64`, NT headers whose export data-directory entry is `(192, 40)`,
an export directory at 192 with the given `Base`, `NumberOfFunctions` and
`NumberOfNames`, three function RVAs at offset 232 (`0x1000`, `0x1010`,
`0x1020`), the two name RVAs `256, 262` at 244, the name ordinals `0, 2` at
252, the names `Alpha` (256) and `Beta` (262), and, after the tables, the
strings `Beta` (267), `Gamma` (272) and `beta` (278) used as identifiers. -/
def sampleRegions (base numberOfFunctions numberOfNames : Nat) : List Region :=
  [ ⟨sampleHandle, 60, [0x4D, 0x5A]⟩,
    ⟨sampleHandle + 60, 4, le32 64⟩,
    ⟨sampleHandle + 64, 120, [0x50, 0x45, 0, 0]⟩,
    ⟨sampleHandle + 184, 8, le32 192 ++ le32 40⟩,
    ⟨sampleHandle + 192, 16, []⟩,
    ⟨sampleHandle + 208, 12, le32 base ++ (le32 numberOfFunctions ++ le32 numberOfNames)⟩,
    ⟨sampleHandle + 220, 12, le32 232 ++ (le32 244 ++ le32 252)⟩,
    ⟨sampleHandle + 232, 12, le32 0x1000 ++ (le32 0x1010 ++ le32 0x1020)⟩,
    ⟨sampleHandle + 244, 8, le32 256 ++ le32 262⟩,
    ⟨sampleHandle + 252, 4, le16 0 ++ le16 2⟩,
    ⟨sampleHandle + 256, 11, [65, 108, 112, 104, 97, 0, 66, 101, 116, 97, 0]⟩,
    ⟨sampleHandle + 267, 16, [66, 101, 116, 97, 0, 71, 97, 109, 109, 97, 0, 98, 101, 116, 97, 0]⟩ ]

/-- The synthetic image mapped at `sampleHandle`. -/
def sampleMem (base numberOfFunctions numberOfNames : Nat) : Mem :=
  memOfRegions (sampleRegions base numberOfFunctions numberOfNames)

/-- A native lookup that finds nothing. -/
def nativeNone : Nat → Nat → Nat := fun _ _ => 0

/-- A native lookup that answers every query with the address `0x7000`. -/
def nativeConst : Nat → Nat → Nat := fun _ _ => 0x7000

/-! ## Images that parse -/

/-- The header and export-directory fields both functions read. -/
structure ImageView where
  e_lfanew : Nat
  VirtualAddress : Nat
  Size : Nat
  Base : Nat
  NumberOfFunctions : Nat
  NumberOfNames : Nat
  AddressOfFunctions : Nat
  AddressOfNames : Nat
  AddressOfNameOrdinals : Nat
  deriving DecidableEq, Repr

/-- The image at `h` is parseable with the fields `v`: the DOS and NT signatures
are valid, the export data-directory entry is non-empty, and every header and
export-directory field is read without a fault. -/
structure Parseable (m : Mem) (h : Nat) (v : ImageView) : Prop where
  dos : readWORD m h = some IMAGE_DOS_SIGNATURE
  lfanew : readDWORD m (ptrAdd h off_e_lfanew) = some v.e_lfanew
  nt : readDWORD m (ptrAdd h v.e_lfanew) = some IMAGE_NT_SIGNATURE
  va : readDWORD m (ptrAdd (ptrAdd h v.e_lfanew) off_ExportVA) = some v.VirtualAddress
  va_ne : v.VirtualAddress ≠ 0
  size : readDWORD m (ptrAdd (ptrAdd h v.e_lfanew) off_ExportSize) = some v.Size
  size_ne : v.Size ≠ 0
  base : readDWORD m (ptrAdd (ptrAdd h v.VirtualAddress) off_Base) = some v.Base
  nof : readDWORD m (ptrAdd (ptrAdd h v.VirtualAddress) off_NumberOfFunctions)
    = some v.NumberOfFunctions
  non : readDWORD m (ptrAdd (ptrAdd h v.VirtualAddress) off_NumberOfNames)
    = some v.NumberOfNames
  aof : readDWORD m (ptrAdd (ptrAdd h v.VirtualAddress) off_AddressOfFunctions)
    = some v.AddressOfFunctions
  aon : readDWORD m (ptrAdd (ptrAdd h v.VirtualAddress) off_AddressOfNames)
    = some v.AddressOfNames
  aono : readDWORD m (ptrAdd (ptrAdd h v.VirtualAddress) off_AddressOfNameOrdinals)
    = some v.AddressOfNameOrdinals

/-- Executable form of `Parseable`. -/
def parsesAs (m : Mem) (h : Nat) (v : ImageView) : Bool :=
  decide (readWORD m h = some IMAGE_DOS_SIGNATURE)
  && decide (readDWORD m (ptrAdd h off_e_lfanew) = some v.e_lfanew)
  && decide (readDWORD m (ptrAdd h v.e_lfanew) = some IMAGE_NT_SIGNATURE)
  && decide (readDWORD m (ptrAdd (ptrAdd h v.e_lfanew) off_ExportVA) = some v.VirtualAddress)
  && decide (v.VirtualAddress ≠ 0)
  && decide (readDWORD m (ptrAdd (ptrAdd h v.e_lfanew) off_ExportSize) = some v.Size)
  && decide (v.Size ≠ 0)
  && decide (readDWORD m (ptrAdd (ptrAdd h v.VirtualAddress) off_Base) = some v.Base)
  && decide (readDWORD m (ptrAdd (ptrAdd h v.VirtualAddress) off_NumberOfFunctions)
      = some v.NumberOfFunctions)
  && decide (readDWORD m (ptrAdd (ptrAdd h v.VirtualAddress) off_NumberOfNames)
      = some v.NumberOfNames)
  && decide (readDWORD m (ptrAdd (ptrAdd h v.VirtualAddress) off_AddressOfFunctions)
      = some v.AddressOfFunctions)
  && decide (readDWORD m (ptrAdd (ptrAdd h v.VirtualAddress) off_AddressOfNames)
      = some v.AddressOfNames)
  && decide (readDWORD m (ptrAdd (ptrAdd h v.VirtualAddress) off_AddressOfNameOrdinals)
      = some v.AddressOfNameOrdinals)

/-- Entry `i` of the function-address array: `functionAddress[i]`. -/
def functionAddress (m : Mem) (h : Nat) (v : ImageView) (i : Nat) : Option Nat :=
  readDWORD m (ptrAdd (ptrAdd h v.AddressOfFunctions) (4 * i))

/-- Entry `i` of the name-ordinal array: `nameOrdinal[i]`. -/
def nameOrdinal (m : Mem) (h : Nat) (v : ImageView) (i : Nat) : Option Nat :=
  readWORD m (ptrAdd (ptrAdd h v.AddressOfNameOrdinals) (2 * i))

/-- Entry `i` of the name array: the RVA of the `i`-th name string. -/
def nameRva (m : Mem) (h : Nat) (v : ImageView) (i : Nat) : Option Nat :=
  readDWORD m (ptrAdd (ptrAdd h v.AddressOfNames) (4 * i))

/-- The `i`-th name of the name table, as a byte string. -/
def exportName (m : Mem) (h : Nat) (v : ImageView) (i : Nat) : Option (List Nat) :=
  match nameRva m h v i with
  | none => none
  | some rva => cstr m (ptrAdd h rva)

/-- The address the export table gives to the `i`-th name:
`imageBase + functionAddress[nameOrdinal[i]]`. -/
def namedAddress (m : Mem) (h : Nat) (v : ImageView) (i : Nat) : Option Nat :=
  match nameOrdinal m h v i with
  | none => none
  | some ordinal =>
    match functionAddress m h v ordinal with
    | none => none
    | some rva => some (ptrAdd h rva)

/-- The fields of the synthetic image. -/
def sampleView (base numberOfFunctions numberOfNames : Nat) : ImageView :=
  ⟨64, 192, 40, base, numberOfFunctions, numberOfNames, 232, 244, 252⟩

/-- The address the native lookup gives to the `i`-th name:
`::GetProcAddress(hModule, (char*)hModule + Name[i])`. -/
def nativeAddress (native : Nat → Nat → Nat) (m : Mem) (h : Nat) (v : ImageView) (i : Nat) :
    Option Nat :=
  match nameRva m h v i with
  | none => none
  | some rva => some (native h (ptrAdd h rva))

/-- The memory `m` truncated at `limit`: reads at `limit` and above fault. -/
def cutMem (m : Mem) (limit : Nat) : Mem :=
  fun a => if a < limit then m a else none

/-- The memory `m'` is `m` in which some addresses were made to fault. -/
def FaultsMore (m' m : Mem) : Prop :=
  ∀ a, m' a = none ∨ m' a = m a

/-! ## Images that do not parse -/

/-- The first 16-bit word of the image at `h` is readable and is not the DOS
signature. -/
def DosMismatch (m : Mem) (h : Nat) : Prop :=
  ∃ e, readWORD m h = some e ∧ e ≠ IMAGE_DOS_SIGNATURE

/-- The DOS header of the image at `h` is well formed, with the NT headers at
offset `l`. -/
def DosHeader (m : Mem) (h l : Nat) : Prop :=
  readWORD m h = some IMAGE_DOS_SIGNATURE ∧ readDWORD m (ptrAdd h off_e_lfanew) = some l

/-- The DOS signature of the image at `h` is valid and the signature at offset
`e_lfanew` is readable and is not the NT signature. -/
def NtMismatch (m : Mem) (h : Nat) : Prop :=
  ∃ l s, DosHeader m h l ∧ readDWORD m (ptrAdd h l) = some s ∧ s ≠ IMAGE_NT_SIGNATURE

/-- The DOS and NT headers of the image at `h` are well formed, with the NT
headers at offset `l`. -/
def ValidHeaders (m : Mem) (h l : Nat) : Prop :=
  DosHeader m h l ∧ readDWORD m (ptrAdd h l) = some IMAGE_NT_SIGNATURE

/-- The headers of the image at `h` are well formed and its export
data-directory entry has `VirtualAddress == 0` or `Size == 0`. -/
def DirectoryMissing (m : Mem) (h : Nat) : Prop :=
  ∃ l va, ValidHeaders m h l ∧ readDWORD m (ptrAdd (ptrAdd h l) off_ExportVA) = some va ∧
    (va = 0 ∨ readDWORD m (ptrAdd (ptrAdd h l) off_ExportSize) = some 0)

/-- The headers of the image at `h` are well formed, its export data-directory
entry is non-empty, and the export directory has `NumberOfFunctions == 0`. -/
def NoFunctions (m : Mem) (h : Nat) : Prop :=
  ∃ l va sz, ValidHeaders m h l ∧
    readDWORD m (ptrAdd (ptrAdd h l) off_ExportVA) = some va ∧ va ≠ 0 ∧
    readDWORD m (ptrAdd (ptrAdd h l) off_ExportSize) = some sz ∧ sz ≠ 0 ∧
    readDWORD m (ptrAdd (ptrAdd h va) off_NumberOfFunctions) = some 0

/-- The synthetic image with the bytes of the region `r` written over it. -/
def samplePatched (r : Region) (base numberOfFunctions numberOfNames : Nat) : Mem :=
  memOfRegions (r :: sampleRegions base numberOfFunctions numberOfNames)

/-! ## The call in a world -/

/-- The two memories hold the same bytes at every address of the 32-bit address
space, and fault at the same addresses. -/
def SameBytes (m m' : Mem) : Prop :=
  ∀ a, a < 2 ^ 32 → (m a).map (fun b => b % 256) = (m' a).map (fun b => b % 256)

/-- What a call can observe or change: the memory of the process, which holds
the image as well as every global and static variable, and the log sink. -/
structure World where
  mem : Mem
  sink : List LogLine

/-- A call of `Logging::LogFormat` whose arguments are numbers, with logging
enabled (`EnableLogging` is initialised to `true`): the line goes to the log
sink. The string it formats into is a local object. -/
def LogFormat (line : LogLine) (w : World) : World :=
  ⟨w.mem, w.sink ++ [line]⟩

/-- A call of `Logging::LogFormat` with one `%s` argument, with logging enabled:
`vsnprintf` reads the string at `str` up to its terminator to size the line,
before anything goes to the sink. The result is `none` when that read raises an
access violation. -/
def LogFormatString (fmt : String) (str : Nat) (w : World) : Option World :=
  match cstr w.mem str with
  | none => none
  | some _ => some ⟨w.mem, w.sink ++ [⟨fmt, [str]⟩]⟩

/-- The `for` loop of the name branch run in a world, entered at index `i` with
`k` iterations left. The first component is `none` when a read raises an access
violation, `some (some address)` when the loop returns from the function, and
`some none` when the loop ends. -/
def GetProcAddress.exec.nameLoop (hModule functionName funcAddrs nameAddrs ordinals : Nat) :
    Nat → Nat → World → Option (Option Nat) × World
  | 0, _, w => (some none, w)
  | k + 1, i, w =>
    match readDWORD w.mem (ptrAdd nameAddrs (4 * i)) with
    | none => (none, w)
    | some nameRva =>
      match strcmp w.mem functionName (ptrAdd hModule nameRva) with
      | none => (none, w)
      | some c =>
        if c = 0 then
          match readWORD w.mem (ptrAdd ordinals (2 * i)) with
          | none => (none, w)
          | some ordinal =>
            match readDWORD w.mem (ptrAdd funcAddrs (4 * ordinal)) with
            | none => (none, w)
            | some rva => (some (some (ptrAdd hModule rva)), w)
        else
          GetProcAddress.exec.nameLoop hModule functionName funcAddrs nameAddrs ordinals
            k (i + 1) w

/-- The ordinal and name branches (lines 72-112) run in a world. -/
def GetProcAddress.exec.lookup (hModule functionName fallback exports : Nat) (w : World) :
    Option (Option Nat) × World :=
  match readDWORD w.mem (ptrAdd exports off_AddressOfFunctions) with
  | none => (none, w)
  | some addressOfFunctions =>
  match readDWORD w.mem (ptrAdd exports off_AddressOfNames) with
  | none => (none, w)
  | some addressOfNames =>
  match readDWORD w.mem (ptrAdd exports off_AddressOfNameOrdinals) with
  | none => (none, w)
  | some addressOfNameOrdinals =>
    let funcAddrs := ptrAdd hModule addressOfFunctions
    let nameAddrs := ptrAdd hModule addressOfNames
    let ordinals := ptrAdd hModule addressOfNameOrdinals
    if HIWORD functionName = 0 then
      let ordinal := LOWORD functionName
      match readDWORD w.mem (ptrAdd exports off_Base) with
      | none => (none, w)
      | some exportBase =>
        let base := toWORD exportBase
        match readDWORD w.mem (ptrAdd exports off_NumberOfFunctions) with
        | none => (none, w)
        | some numberOfFunctions =>
          if ordinalOutOfRange ordinal base numberOfFunctions then
            (some (some fallback),
              LogFormat ⟨"Hook::GetProcAddress Ordinal %u out of range (Base=%u Count=%u)",
                [ordinal, base, numberOfFunctions]⟩ w)
          else
            match readDWORD w.mem (ptrAdd funcAddrs (4 * (ordinal - base))) with
            | none => (none, w)
            | some rva => (some (some (ptrAdd hModule rva)), w)
    else
      match readDWORD w.mem (ptrAdd exports off_NumberOfNames) with
      | none => (none, w)
      | some numberOfNames =>
        GetProcAddress.exec.nameLoop hModule functionName funcAddrs nameAddrs ordinals
          numberOfNames 0 w

/-- The body of the `__try` block of `Hook::GetProcAddress` (lines 50-112) run
in a world. -/
def GetProcAddress.exec.tryBlock (hModule functionName fallback : Nat) (w : World) :
    Option (Option Nat) × World :=
  match readWORD w.mem hModule with
  | none => (none, w)
  | some e_magic =>
    if e_magic ≠ IMAGE_DOS_SIGNATURE then
      (some (some fallback), LogFormat ⟨"Hook::GetProcAddress Not a valid DOS header.", []⟩ w)
    else
      match readDWORD w.mem (ptrAdd hModule off_e_lfanew) with
      | none => (none, w)
      | some e_lfanew =>
        let nt := ptrAdd hModule e_lfanew
        match readDWORD w.mem nt with
        | none => (none, w)
        | some signature =>
          if signature ≠ IMAGE_NT_SIGNATURE then
            (some (some fallback),
              LogFormat ⟨"Hook::GetProcAddress Not a valid NT header.", []⟩ w)
          else
            match readDWORD w.mem (ptrAdd nt off_ExportVA) with
            | none => (none, w)
            | some virtualAddress =>
              if virtualAddress = 0 then
                (some (some fallback),
                  LogFormat ⟨"Hook::GetProcAddress No export directory present.", []⟩ w)
              else
                match readDWORD w.mem (ptrAdd nt off_ExportSize) with
                | none => (none, w)
                | some size =>
                  if size = 0 then
                    (some (some fallback),
                      LogFormat ⟨"Hook::GetProcAddress No export directory present.", []⟩ w)
                  else
                    GetProcAddress.exec.lookup hModule functionName fallback
                      (ptrAdd hModule virtualAddress) w

/-- The diagnostics of lines 36-46, after the native lookup answered
`fallback`; `none` when the `%s` line raises an access violation. -/
def GetProcAddress.exec.nativeMiss (functionName fallback : Nat) (w : World) : Option World :=
  if fallback = 0 then
    if HIWORD functionName = 0 then
      some (LogFormat
        ⟨"Hook::GetProcAddress Windows API couldn't find ordinal %u", [LOWORD functionName]⟩ w)
    else
      LogFormatString "Hook::GetProcAddress Windows API couldn't find %s" functionName w
  else some w

/-- The `__try` statement with its `__except` handler (lines 48-117): the
address when the block returns from the function, `none` when control goes on
after the statement, which is the case when the block ends and when the handler
has caught an access violation and logged its code. -/
def GetProcAddress.exec.tryStatement (hModule functionName fallback : Nat) (w : World) :
    Option Nat × World :=
  match GetProcAddress.exec.tryBlock hModule functionName fallback w with
  | (some (some value), w1) => (some value, w1)
  | (some none, w1) => (none, w1)
  | (none, w1) =>
    (none, LogFormat
      ⟨"Hook::GetProcAddress Exception caught while parsing export table. Code=0x%08X",
        [EXCEPTION_ACCESS_VIOLATION]⟩ w1)

/-- The diagnostics after the `__try` statement (lines 119-126); `none` when
the `%s` line raises an access violation. -/
def GetProcAddress.exec.notFound (functionName : Nat) (w : World) : Option World :=
  if HIWORD functionName = 0 then
    some (LogFormat
      ⟨"Hook::GetProcAddress Ordinal %u not found in export table.", [LOWORD functionName]⟩ w)
  else
    LogFormatString "Hook::GetProcAddress %s not found in export table." functionName w

/-- A call of `Hook::GetProcAddress` in a world, statement by statement: the
first component is the returned address, or `none` when an access violation is
raised outside the `__try` statement and reaches the caller; the second is the
world the call leaves. Only the reads inside the `__try` block are covered by
the handler: the identifier is also read by the `%s` diagnostics of lines 44
and 125, and by the operating system's lookup of line 35. That lookup is not
among the sources: `native` gives its answer, and `nativeReads` tells whether
it reads the string of a name identifier itself, in which case an unreadable
string raises the access violation already there. -/
def GetProcAddress.exec (native : Nat → Nat → Nat) (nativeReads : Bool)
    (hModule functionName : Nat) (w : World) : Option Nat × World :=
  if hModule = 0 ∨ functionName = 0 then
    (some 0, LogFormat ⟨"Hook::GetProcAddress Invalid module or function name.", []⟩ w)
  else if nativeReads = true ∧ HIWORD functionName ≠ 0 ∧ cstr w.mem functionName = none then
    (none, w)
  else
    let fallback := native hModule functionName
    match GetProcAddress.exec.nativeMiss functionName fallback w with
    | none => (none, w)
    | some w1 =>
      match GetProcAddress.exec.tryStatement hModule functionName fallback w1 with
      | (some value, w2) => (some value, w2)
      | (none, w2) =>
        match GetProcAddress.exec.notFound functionName w2 with
        | none => (none, w2)
        | some w3 => (some fallback, w3)

/-! ## `Hook::funcPtrToStr` -/

/-- What the operating system and the C++ stream library answer to
`Hook::funcPtrToStr`. -/
structure LoaderEnv where
  /-- The module `GetModuleHandleExA` stores for an address, with the flag
  `GET_MODULE_HANDLE_EX_FLAG_FROM_ADDRESS`; `0` when it finds none. -/
  moduleFromAddress : Nat → Nat
  /-- The string `GetModuleFileNameA` leaves in the zero-initialised `path`. -/
  moduleFileName : Nat → String
  /-- The text `operator<<` writes for a `const void*`, which the
  implementation defines. -/
  formatPointer : Nat → String

/-- Difference of two `DWORD`s, in 32-bit arithmetic. -/
def subDWORD (a b : Nat) : Nat :=
  (a % 2 ^ 32 + (2 ^ 32 - b % 2 ^ 32)) % 2 ^ 32

/-- The hexadecimal digits of `n`, most significant first, on at most `k`
digits. -/
def hexDigitsFrom : Nat → Nat → List Char
  | 0, _ => []
  | k + 1, n =>
    if n < 16 then [Nat.digitChar n]
    else hexDigitsFrom k (n / 16) ++ [Nat.digitChar (n % 16)]

/-- Modelled from the spec: the text the stream writes for a `DWORD` under
`std::hex` (the library is not among the sources), which the spec gives as the
offset after `+0x`: lowercase hexadecimal digits without prefix or padding. A
`DWORD` has at most 8 digits. -/
def hexLower (n : Nat) : String :=
  String.mk (hexDigitsFrom 8 n)

/-- `std::string Hook::funcPtrToStr(const void* funcPtr)`. -/
def funcPtrToStr (env : LoaderEnv) (funcPtr : Nat) : String :=
  let hmodule := env.moduleFromAddress funcPtr
  if hmodule ≠ 0 then
    env.moduleFileName hmodule ++ "+0x" ++ hexLower (subDWORD funcPtr hmodule)
  else
    env.formatPointer funcPtr

/-- The value of a lowercase hexadecimal digit. -/
def hexDigitValue (c : Char) : Nat :=
  if c.toNat < 58 then c.toNat - 48 else c.toNat - 87

/-- The number a string of hexadecimal digits denotes. -/
def hexValue (s : List Char) : Nat :=
  s.foldl (fun acc c => 16 * acc + hexDigitValue c) 0

/-- A loader that knows one module, mapped at `0x10000000` on `0x10000` bytes. -/
def sampleLoader : LoaderEnv where
  moduleFromAddress := fun p => if 0x10000000 ≤ p ∧ p < 0x10010000 then 0x10000000 else 0
  moduleFileName := fun _ => "C:/game/d3d9.dll"
  formatPointer := fun _ => "00001A2F"

/-! ## `Hook::GetModuleHandle` -/

/-- What the operating system answers to `Hook::GetModuleHandle`. -/
structure ProcessEnv where
  /-- The handle `OpenProcess` returns, `0` when it fails. -/
  hProcess : Nat
  /-- The module handles of the process in enumeration order, `none` when
  `EnumProcessModules` fails. The call stores the first 1024 of them in `hMods`
  and sets `cbNeeded` to the bytes needed to store them all. -/
  modules : Option (List Nat)
  /-- What lies in memory past the end of `hMods`, at the place of `hMods[i]`
  for `i >= 1024`. -/
  stackPast : Nat → Nat
  /-- The string `GetModuleFileNameExA` writes to `szModName` for a module
  handle, `none` when it returns 0. -/
  moduleFileName : Nat → Option String

/-- The number of entries of `HMODULE hMods[1024]`. -/
def hModsCount : Nat := 1024

/-- The value of `sizeof(HMODULE)` in the 32-bit build. -/
def sizeofHMODULE : Nat := 4

/-- The value `EnumProcessModules` stores in `cbNeeded`. -/
def cbNeeded (mods : List Nat) : Nat := sizeofHMODULE * mods.length

/-- The value the loop reads at `hMods[i]`. -/
def hModsAt (env : ProcessEnv) (mods : List Nat) (i : Nat) : Nat :=
  if i < hModsCount then mods.getD i 0 else env.stackPast i

/-- Modelled from the spec: `_stricmp` of the C runtime (not among the sources),
the case-insensitive comparison of section 4.4: the two strings are compared
character by character after conversion to lowercase. -/
def stricmp : List Char → List Char → Int
  | [], [] => 0
  | [], _ :: _ => -1
  | _ :: _, [] => 1
  | a :: s, b :: t =>
    if a.toLower = b.toLower then stricmp s t
    else if a.toLower < b.toLower then -1 else 1

/-- What a call of `Hook::GetModuleHandle` hands back: the returned handle,
the lines it logged, and the indexes at which it read `hMods`, in order. -/
structure ModuleLookup where
  value : Nat
  log : List LogLine
  examined : List Nat
  deriving DecidableEq, Repr

/-- The `for` loop of `Hook::GetModuleHandle` (lines 247-265), entered at index
`i` with `k` iterations left: the handle returned from inside the loop, if any,
and the indexes of `hMods` it read. -/
def GetModuleHandle.scan (env : ProcessEnv) (mods : List Nat) (ProcName : String) :
    Nat → Nat → Option Nat × List Nat
  | 0, _ => (none, [])
  | k + 1, i =>
    match env.moduleFileName (hModsAt env mods i) with
    | some szModName =>
      if stricmp ProcName.toList szModName.toList = 0 then (some (hModsAt env mods i), [i])
      else
        ((GetModuleHandle.scan env mods ProcName k (i + 1)).1,
          i :: (GetModuleHandle.scan env mods ProcName k (i + 1)).2)
    | none =>
      ((GetModuleHandle.scan env mods ProcName k (i + 1)).1,
        i :: (GetModuleHandle.scan env mods ProcName k (i + 1)).2)

/-- `HMODULE Hook::GetModuleHandle(char* ProcName)`, release build; a null
`ProcName` is `none`. The text a `Logging::Log()` statement streams is recorded
as one line. -/
def GetModuleHandle (env : ProcessEnv) (ProcName : Option String) : ModuleLookup :=
  match ProcName with
  | none => ⟨0, [⟨"Hook::GetModuleHandle Error: NULL process name.", []⟩], []⟩
  | some name =>
    if env.hProcess = 0 then
      ⟨0, [⟨"Hook::GetModuleHandle Error: Could not open process.", []⟩], []⟩
    else
      match env.modules with
      | some mods =>
        match GetModuleHandle.scan env mods name (cbNeeded mods / sizeofHMODULE) 0 with
        | (some hMod, examined) => ⟨hMod, [], examined⟩
        | (none, examined) =>
          ⟨0, [⟨"Hook::GetModuleHandle Error: Could not file module " ++ name ++ ".", []⟩],
            examined⟩
      | none =>
        ⟨0, [⟨"Hook::GetModuleHandle Error: Could not file module " ++ name ++ ".", []⟩], []⟩

/-- The two paths are equal under case-insensitive comparison. -/
def sameIgnoringCase (a b : String) : Bool :=
  a.toList.map Char.toLower == b.toList.map Char.toLower

/-- The first module of the list whose file path could be retrieved and equals
`path` under case-insensitive comparison; `0` (null) when there is none. -/
def firstModuleWithPath (env : ProcessEnv) (path : String) : List Nat → Nat
  | [] => 0
  | hMod :: rest =>
    match env.moduleFileName hMod with
    | some p => if sameIgnoringCase path p then hMod else firstModuleWithPath env path rest
    | none => firstModuleWithPath env path rest

/-- A process whose modules have the handles in `mods`; the file path of the
module `0x10000000` is `C:/game/d3d9.dll`, that of `0x400000` is
`C:/game/game.exe`, and no other path can be retrieved. -/
def sampleProcess (mods : List Nat) : ProcessEnv where
  hProcess := 0x1234
  modules := some mods
  stackPast := fun _ => 0xCCCCCCCC
  moduleFileName := fun hMod =>
    if hMod = 0x10000000 then some "C:/game/d3d9.dll"
    else if hMod = 0x400000 then some "C:/game/game.exe"
    else none

/-- The module list of a process with 1025 modules: 1024 modules whose file
path cannot be retrieved, then the module `0x10000000`. -/
def manyModules : List Nat := List.replicate 1024 0x77000000 ++ [0x10000000]

/-- The module list of a process with 1025 modules, none of which has a file
path that can be retrieved. -/
def namelessModules : List Nat := List.replicate 1025 0x77000000

/-- A process that can be opened but whose modules cannot be enumerated. -/
def sampleProcessNoEnum : ProcessEnv where
  hProcess := 0x1234
  modules := none
  stackPast := fun _ => 0xCCCCCCCC
  moduleFileName := fun _ => none

/-- A process that cannot be opened. -/
def sampleProcessClosed : ProcessEnv where
  hProcess := 0
  modules := none
  stackPast := fun _ => 0xCCCCCCCC
  moduleFileName := fun _ => none

end Hook

namespace Remix

/-! ## `ddraw/RemixAPI.h`: the manager of the Remix API

`RemixAPIManager` holds two flags, the interface table filled by the library,
the cached address of `remixapi_InitializeLibrary` and the last error code.
Pointers are numbers, 0 is the null pointer. What the process offers at the
time of a call (the loaded `d3d9.dll`, its exports, the behaviour of the code
behind a function pointer) is a `Platform`; every call records the outside
calls it made. -/

/-- The error code `REMIXAPI_ERROR_CODE_SUCCESS` of `remixapi_ErrorCode`. -/
def REMIXAPI_ERROR_CODE_SUCCESS : Nat := 0

/-- The error code `REMIXAPI_ERROR_CODE_NOT_INITIALIZED` of
`remixapi_ErrorCode`. -/
def REMIXAPI_ERROR_CODE_NOT_INITIALIZED : Nat := 11

/-- The table `remixapi_Interface` of function pointers, in the order of the
header. -/
structure remixapi_Interface where
  Shutdown : Nat
  CreateMaterial : Nat
  DestroyMaterial : Nat
  CreateMesh : Nat
  DestroyMesh : Nat
  SetupCamera : Nat
  DrawInstance : Nat
  CreateLight : Nat
  DestroyLight : Nat
  DrawLightInstance : Nat
  SetConfigVariable : Nat
  dxvk_CreateD3D9 : Nat
  dxvk_RegisterD3D9Device : Nat
  dxvk_GetExternalSwapchain : Nat
  dxvk_GetVkImage : Nat
  dxvk_CopyRenderingOutput : Nat
  dxvk_SetDefaultOutput : Nat
  pick_RequestObjectPicking : Nat
  pick_HighlightObjects : Nat
  Startup : Nat
  Present : Nat
deriving DecidableEq, Repr

/-- The table after `memset(&m_interface, 0, sizeof(m_interface))`. -/
def remixapi_Interface.zeroed : remixapi_Interface :=
  ⟨0, 0, 0, 0, 0, 0, 0, 0, 0, 0, 0, 0, 0, 0, 0, 0, 0, 0, 0, 0, 0⟩

/-- The data members of `RemixAPIManager`. -/
structure RemixAPIManager where
  m_initialized : Bool
  m_initAttempted : Bool
  m_interface : remixapi_Interface
  m_pfnInitialize : Nat
  m_lastError : Nat
deriving DecidableEq, Repr

/-- The manager as its constructor leaves it: both flags false, the table
zeroed, no cached address, and `m_lastError` at its default member initializer
`REMIXAPI_ERROR_CODE_SUCCESS`. -/
def RemixAPIManager.ctor : RemixAPIManager where
  m_initialized := false
  m_initAttempted := false
  m_interface := remixapi_Interface.zeroed
  m_pfnInitialize := 0
  m_lastError := REMIXAPI_ERROR_CODE_SUCCESS

/-- What the process offers at the time of one call: the handle that
`GetModuleHandleA("d3d9.dll")` returns (0 when the module is not loaded), the
address that `GetProcAddress(hD3D9, "remixapi_InitializeLibrary")` returns, and
the behaviour of the code behind the three kinds of function pointer the
manager calls through. The library's initialize function returns a code and
may write the table it is handed. -/
structure Platform where
  GetModuleHandleA : Nat
  GetProcAddress : Nat → Nat
  callInitializeLibrary : Nat → remixapi_Interface → Nat × remixapi_Interface
  callSetupCamera : Nat → Nat → Nat
  callSetConfigVariable : Nat → Nat → Nat → Nat

/-- One call out of the manager, with the code a called function returned. -/
inductive Call where
  | GetModuleHandleA : Call
  | GetProcAddress (hD3D9 : Nat) : Call
  | InitializeLibrary (pfn result : Nat) : Call
  | SetupCamera (fn info result : Nat) : Call
  | SetConfigVariable (fn var value result : Nat) : Call
deriving DecidableEq, Repr

/-- What a call of `Initialize` leaves: the returned flag, the manager, the
string written to `*outError` if one was written, and the outside calls made,
in order. -/
structure InitializeResult where
  ret : Bool
  state : RemixAPIManager
  outError : Option String
  calls : List Call
deriving DecidableEq, Repr

/-- The statement `if (outError) *outError = msg;`. -/
def writeError (outError : Bool) (msg : String) : Option String :=
  if outError then some msg else none

/-- The tail of `RemixAPIManager::Initialize`, from the call of
`m_pfnInitialize(&initInfo, &m_interface)` on; `calls` are the calls made
before it. -/
def RemixAPIManager.Initialize.invoke (p : Platform) (s : RemixAPIManager) (outError : Bool)
    (calls : List Call) : InitializeResult :=
  let r := p.callInitializeLibrary s.m_pfnInitialize s.m_interface
  let result := r.1
  let s1 : RemixAPIManager := { s with m_interface := r.2 }
  let calls1 := calls ++ [Call.InitializeLibrary s.m_pfnInitialize result]
  if result ≠ REMIXAPI_ERROR_CODE_SUCCESS then
    let s2 : RemixAPIManager := { s1 with m_lastError := result }
    let s3 : RemixAPIManager :=
      if result ≠ REMIXAPI_ERROR_CODE_NOT_INITIALIZED then
        { s2 with m_initAttempted := true }
      else s2
    ⟨false, s3, writeError outError "remixapi_InitializeLibrary failed", calls1⟩
  else
    ⟨true, { s1 with m_initialized := true, m_initAttempted := true }, none, calls1⟩

/-- The method `RemixAPIManager::Initialize(const char** outError)`; the
argument `outError` tells whether the pointer is non-null. -/
def RemixAPIManager.Initialize (p : Platform) (s : RemixAPIManager) (outError : Bool) :
    InitializeResult :=
  if s.m_initialized then
    ⟨true, s, none, []⟩
  else if s.m_initAttempted && s.m_lastError != REMIXAPI_ERROR_CODE_NOT_INITIALIZED then
    ⟨false, s, none, []⟩
  else
    let hD3D9 := p.GetModuleHandleA
    if hD3D9 = 0 then
      ⟨false, { s with m_initAttempted := true },
        writeError outError "GetModuleHandleA(d3d9.dll) returned NULL", [Call.GetModuleHandleA]⟩
    else if s.m_pfnInitialize = 0 then
      let pfn := p.GetProcAddress hD3D9
      if pfn = 0 then
        ⟨false, { s with m_pfnInitialize := pfn, m_initAttempted := true },
          writeError outError "GetProcAddress(remixapi_InitializeLibrary) returned NULL",
          [Call.GetModuleHandleA, Call.GetProcAddress hD3D9]⟩
      else
        RemixAPIManager.Initialize.invoke p { s with m_pfnInitialize := pfn } outError
          [Call.GetModuleHandleA, Call.GetProcAddress hD3D9]
    else
      RemixAPIManager.Initialize.invoke p s outError [Call.GetModuleHandleA]

/-- What a call through the table leaves: the returned code, the manager, and
the outside calls made. -/
structure CallResult where
  ret : Nat
  state : RemixAPIManager
  calls : List Call
deriving DecidableEq, Repr

/-- The method `RemixAPIManager::SetupCamera(const remixapi_CameraInfo* info)`. -/
def RemixAPIManager.SetupCamera (p : Platform) (s : RemixAPIManager) (info : Nat) : CallResult :=
  if !s.m_initialized || s.m_interface.SetupCamera = 0 then
    ⟨REMIXAPI_ERROR_CODE_NOT_INITIALIZED, s, []⟩
  else
    let result := p.callSetupCamera s.m_interface.SetupCamera info
    ⟨result, s, [Call.SetupCamera s.m_interface.SetupCamera info result]⟩

/-- The method `RemixAPIManager::SetConfigVariable(const char* var,
const char* value)`. -/
def RemixAPIManager.SetConfigVariable (p : Platform) (s : RemixAPIManager) (var value : Nat) :
    CallResult :=
  if !s.m_initialized || s.m_interface.SetConfigVariable = 0 then
    ⟨REMIXAPI_ERROR_CODE_NOT_INITIALIZED, s, []⟩
  else
    let result := p.callSetConfigVariable s.m_interface.SetConfigVariable var value
    ⟨result, s, [Call.SetConfigVariable s.m_interface.SetConfigVariable var value result]⟩

/-- One call of a method of the manager, with the platform at the time of the
call. -/
inductive Op where
  | Initialize (p : Platform) (outError : Bool) : Op
  | SetupCamera (p : Platform) (info : Nat) : Op
  | SetConfigVariable (p : Platform) (var value : Nat) : Op

/-- Whether the operation is a call of `Initialize`. -/
def Op.isInitialize : Op → Bool
  | Op.Initialize _ _ => true
  | _ => false

/-- The manager after one operation. -/
def step (s : RemixAPIManager) : Op → RemixAPIManager
  | Op.Initialize p outError => (RemixAPIManager.Initialize p s outError).state
  | Op.SetupCamera p info => (RemixAPIManager.SetupCamera p s info).state
  | Op.SetConfigVariable p var value => (RemixAPIManager.SetConfigVariable p s var value).state

/-- The manager after a sequence of operations. -/
def run (s : RemixAPIManager) : List Op → RemixAPIManager
  | [] => s
  | op :: ops => run (step s op) ops

/-- Whether some call of `Initialize` in the sequence, started in `s`, returned
true. -/
def initializeSucceeded (s : RemixAPIManager) : List Op → Bool
  | [] => false
  | op :: ops =>
    (match op with
      | Op.Initialize p outError => (RemixAPIManager.Initialize p s outError).ret
      | _ => false)
    || initializeSucceeded (step s op) ops

/-- The outside calls one operation makes. -/
def stepCalls (s : RemixAPIManager) : Op → List Call
  | Op.Initialize p outError => (RemixAPIManager.Initialize p s outError).calls
  | Op.SetupCamera p info => (RemixAPIManager.SetupCamera p s info).calls
  | Op.SetConfigVariable p var value => (RemixAPIManager.SetConfigVariable p s var value).calls

/-- The outside calls a sequence of operations makes, in order. -/
def runCalls (s : RemixAPIManager) : List Op → List Call
  | [] => []
  | op :: ops => stepCalls s op ++ runCalls (step s op) ops

/-- A platform with `d3d9.dll` loaded at `0x10000000`, exporting
`remixapi_InitializeLibrary` at `0x7000`; the library answers `code` and, on
success, fills the two slots of the table the manager calls through. The
camera function answers 0 and the configuration function 3. -/
def samplePlatform (code : Nat) : Platform where
  GetModuleHandleA := 0x10000000
  GetProcAddress := fun _ => 0x7000
  callInitializeLibrary := fun _ t =>
    (code, if code = 0 then { t with SetupCamera := 0x7100, SetConfigVariable := 0x7200 } else t)
  callSetupCamera := fun _ _ => 0
  callSetConfigVariable := fun _ _ _ => 3

/-- The sample platform without `d3d9.dll`. -/
def samplePlatformNoModule : Platform :=
  { samplePlatform 0 with GetModuleHandleA := 0 }

/-- The sample platform whose `d3d9.dll` does not export
`remixapi_InitializeLibrary`. -/
def samplePlatformNoExport : Platform :=
  { samplePlatform 0 with GetProcAddress := fun _ => 0 }

/-- A library that succeeds and leaves the table zeroed. -/
def samplePlatformEmptyTable : Platform :=
  { samplePlatform 0 with callInitializeLibrary := fun _ t => (0, t) }

end Remix

namespace Hook

/-! ## Arithmetic of identifiers and of the range test -/

theorem ptrAdd_comm (a b : Nat) : ptrAdd a b = ptrAdd b a := by
  simp [ptrAdd, Nat.add_comm]

theorem HIWORD_of_lt {o : Nat} (ho : o < 65536) : HIWORD o = 0 := by
  simp [HIWORD, Nat.div_eq_of_lt ho]

theorem LOWORD_of_lt {o : Nat} (ho : o < 65536) : LOWORD o = o := by
  simp [LOWORD, Nat.mod_eq_of_lt ho]

theorem ne_zero_of_HIWORD {x : Nat} (hx : HIWORD x ≠ 0) : x ≠ 0 := by
  rintro rfl
  simp [HIWORD] at hx

theorem toWORD_of_lt {b : Nat} (hb : b < 2 ^ 16) : toWORD b = b := by
  simp [toWORD]
  omega

theorem toInt32_of_lt {n : Nat} (hn : n < 2 ^ 31) : toInt32 n = (n : Int) := by
  have h1 : n % 2 ^ 32 = n := Nat.mod_eq_of_lt (by omega)
  unfold toInt32
  rw [h1, if_pos hn]

theorem ordinalOutOfRange_iff {o b n : Nat} (hb : b < 2 ^ 16) (hn : n < 2 ^ 31) :
    ordinalOutOfRange o (toWORD b) n = true ↔ (o < b ∨ n ≤ o - b) := by
  simp only [ordinalOutOfRange, toWORD_of_lt hb, toInt32_of_lt hn, Bool.or_eq_true,
    decide_eq_true_eq]
  omega

/-! ## `strcmp` and the strings it compares -/

theorem strcmpFrom_of_cstrFrom (m : Mem) :
    ∀ (k a b : Nat) (s t : List Nat), cstrFrom m k a = some s → cstrFrom m k b = some t →
      ∃ c, strcmpFrom m k a b = some c ∧ (c = 0 ↔ s = t) := by
  intro k
  induction k with
  | zero => intro a b s t hs; simp [cstrFrom] at hs
  | succ k ih =>
    intro a b s t hs ht
    simp only [cstrFrom] at hs ht
    simp only [strcmpFrom]
    cases ha : readBYTE m a with
    | none => simp [ha] at hs
    | some c1 =>
      cases hb : readBYTE m b with
      | none => simp [hb] at ht
      | some c2 =>
        simp only [ha] at hs
        simp only [hb] at ht
        by_cases h1 : c1 = 0
        · by_cases h2 : c2 = 0
          · simp [h1, h2] at hs ht ⊢
            rw [hs, ht]
          · simp only [h1, if_true, Option.some.injEq] at hs
            simp only [h2, if_false] at ht
            cases hr : cstrFrom m k (b + 1) with
            | none => simp [hr] at ht
            | some t' =>
              simp only [hr, Option.some.injEq] at ht
              have : (0 : Nat) ≠ c2 := fun h => h2 h.symm
              have hlt : 0 < c2 := Nat.pos_of_ne_zero h2
              simp [h1, this, hlt, ← hs, ← ht]
        · simp only [h1, if_false] at hs
          cases hr : cstrFrom m k (a + 1) with
          | none => simp [hr] at hs
          | some s' =>
            simp only [hr, Option.some.injEq] at hs
            by_cases h2 : c2 = 0
            · simp only [h2, if_true, Option.some.injEq] at ht
              have hne : c1 ≠ 0 := h1
              simp [h2, hne, ← hs, ← ht]
            · simp only [h2, if_false] at ht
              cases hr2 : cstrFrom m k (b + 1) with
              | none => simp [hr2] at ht
              | some t' =>
                simp only [hr2, Option.some.injEq] at ht
                by_cases h12 : c1 = c2
                · obtain ⟨c, hc, hiff⟩ := ih (a + 1) (b + 1) s' t' hr hr2
                  refine ⟨c, ?_, ?_⟩
                  · simp [h12, h2, hc]
                  · rw [hiff, ← hs, ← ht, h12]
                    simp
                · by_cases hlt : c1 < c2
                  · refine ⟨-1, by simp [h12, hlt], ?_⟩
                    rw [← hs, ← ht]
                    simp [h12]
                  · refine ⟨1, by simp [h12, hlt], ?_⟩
                    rw [← hs, ← ht]
                    simp [h12]

theorem cstrFrom_of_strcmpFrom (m : Mem) :
    ∀ (k a b : Nat), strcmpFrom m k a b = some 0 →
      ∃ s, cstrFrom m k a = some s ∧ cstrFrom m k b = some s := by
  intro k
  induction k with
  | zero => intro a b h; simp [strcmpFrom] at h
  | succ k ih =>
    intro a b h
    simp only [strcmpFrom] at h
    simp only [cstrFrom]
    cases ha : readBYTE m a with
    | none => simp [ha] at h
    | some c1 =>
      cases hb : readBYTE m b with
      | none => simp [ha, hb] at h
      | some c2 =>
        simp only [ha, hb] at h
        by_cases h12 : c1 = c2
        · subst h12
          by_cases h1 : c1 = 0
          · exact ⟨[], by simp [h1]⟩
          · simp only [if_true, h1, if_false] at h
            obtain ⟨s, hs, ht⟩ := ih (a + 1) (b + 1) h
            exact ⟨c1 :: s, by simp [h1, hs, ht]⟩
        · simp only [h12, if_false] at h
          split at h <;> simp at h

theorem strcmp_of_cstr {m : Mem} {a b : Nat} {s t : List Nat}
    (hs : cstr m a = some s) (ht : cstr m b = some t) :
    ∃ c, strcmp m a b = some c ∧ (c = 0 ↔ s = t) :=
  strcmpFrom_of_cstrFrom m _ a b s t hs ht

theorem cstr_of_strcmp {m : Mem} {a b : Nat} (h : strcmp m a b = some 0) :
    ∃ s, cstr m a = some s ∧ cstr m b = some s :=
  cstrFrom_of_strcmpFrom m _ a b h

theorem readBYTE_outside (m : Mem) {a : Nat} (ha : 2 ^ 32 ≤ a) : readBYTE m a = none := by
  unfold readBYTE
  rw [if_neg (by omega)]

/-- Once the pointer `a` is bound to leave the address space within `k` steps,
one more step of fuel changes nothing in `strcmpFrom`. -/
theorem strcmpFrom_fuel (m : Mem) :
    ∀ (k a b : Nat), 2 ^ 32 ≤ a + k → strcmpFrom m (k + 1) a b = strcmpFrom m k a b := by
  intro k
  induction k with
  | zero =>
    intro a b ha
    simp only [strcmpFrom, readBYTE_outside m (show 2 ^ 32 ≤ a by omega)]
  | succ k ih =>
    intro a b ha
    rw [strcmpFrom, strcmpFrom.eq_def m (k + 1) a b]
    dsimp only
    cases readBYTE m a with
    | none => rfl
    | some c1 =>
      cases readBYTE m b with
      | none => rfl
      | some c2 =>
        dsimp only
        rw [ih (a + 1) (b + 1) (by omega)]

/-- With at least `2 ^ 32` steps of fuel `strcmpFrom` is `strcmp`: the fuel of
`strcmp` never runs out before a pointer leaves the address space. -/
theorem strcmpFrom_eq_strcmp (m : Mem) (a b : Nat) :
    ∀ (k : Nat), strcmpFrom m (2 ^ 32 + k) a b = strcmp m a b := by
  intro k
  induction k with
  | zero => rfl
  | succ k ih =>
    rw [← ih, ← Nat.add_assoc]
    exact strcmpFrom_fuel m (2 ^ 32 + k) a b (by omega)

/-! ## The header walk on a parseable image -/

theorem tryBlock_of_parseable {m : Mem} {h : Nat} {v : ImageView} (hp : Parseable m h v)
    (fn fb : Nat) :
    GetProcAddress.tryBlock m h fn fb =
      GetProcAddress.lookup m h fn fb (ptrAdd h v.VirtualAddress) := by
  simp [GetProcAddress.tryBlock, hp.dos, hp.lfanew, hp.nt, hp.va, hp.va_ne, hp.size, hp.size_ne]

theorem lookup_ordinal {m : Mem} {h : Nat} {v : ImageView} (hp : Parseable m h v)
    (fn fb : Nat) (hhi : HIWORD fn = 0) :
    GetProcAddress.lookup m h fn fb (ptrAdd h v.VirtualAddress) =
      if ordinalOutOfRange (LOWORD fn) (toWORD v.Base) v.NumberOfFunctions then
        some (TryExit.ret fb
          [⟨"Hook::GetProcAddress Ordinal %u out of range (Base=%u Count=%u)",
            [LOWORD fn, toWORD v.Base, v.NumberOfFunctions]⟩])
      else
        match functionAddress m h v (LOWORD fn - toWORD v.Base) with
        | none => none
        | some rva => some (TryExit.ret (ptrAdd h rva) []) := by
  simp [GetProcAddress.lookup, hp.aof, hp.aon, hp.aono, hp.base, hp.nof, hhi, functionAddress]

theorem lookup_name {m : Mem} {h : Nat} {v : ImageView} (hp : Parseable m h v)
    (fn fb : Nat) (hhi : HIWORD fn ≠ 0) :
    GetProcAddress.lookup m h fn fb (ptrAdd h v.VirtualAddress) =
      GetProcAddress.nameLoop m h fn (ptrAdd h v.AddressOfFunctions)
        (ptrAdd h v.AddressOfNames) (ptrAdd h v.AddressOfNameOrdinals) v.NumberOfNames 0 := by
  simp [GetProcAddress.lookup, hp.aof, hp.aon, hp.aono, hp.non, hhi]

/-- The value `Hook::GetProcAddress` returns, read off the exit of its `__try`
block. -/
theorem GetProcAddress_value (native : Nat → Nat → Nat) (m : Mem) {h fn : Nat}
    (hh : h ≠ 0) (hfn : fn ≠ 0) :
    (GetProcAddress native m h fn).value =
      match GetProcAddress.tryBlock m h fn (native h fn) with
      | some (TryExit.ret value _) => value
      | _ => native h fn := by
  unfold GetProcAddress
  rw [if_neg (by simp [hh, hfn])]
  dsimp only
  cases GetProcAddress.tryBlock m h fn (native h fn) with
  | none => rfl
  | some e => cases e <;> rfl

/-! ## The ordinal branch -/

theorem GetProcAddress_ordinal_value (native : Nat → Nat → Nat) {m : Mem} {h o : Nat}
    {v : ImageView} (hp : Parseable m h v) (hh : h ≠ 0) (ho : 0 < o) (ho16 : o < 65536) :
    (GetProcAddress native m h o).value =
      if ordinalOutOfRange o (toWORD v.Base) v.NumberOfFunctions then native h o
      else match functionAddress m h v (o - toWORD v.Base) with
        | none => native h o
        | some rva => ptrAdd h rva := by
  rw [GetProcAddress_value native m hh (by omega), tryBlock_of_parseable hp,
    lookup_ordinal hp _ _ (HIWORD_of_lt ho16), LOWORD_of_lt ho16]
  by_cases hr : ordinalOutOfRange o (toWORD v.Base) v.NumberOfFunctions = true
  · simp [hr]
  · simp only [hr]
    cases functionAddress m h v (o - toWORD v.Base) <;> simp

/-! ## The name branch -/

theorem nameLoop_found {m : Mem} {h fn : Nat} {v : ImageView} {s : List Nat}
    (hs : cstr m fn = some s) {i a : Nat}
    (hmatch : exportName m h v i = some s) (ha : namedAddress m h v i = some a) :
    ∀ (k i0 : Nat), i0 ≤ i → i < i0 + k →
      (∀ j, i0 ≤ j → j < i → ∃ t, exportName m h v j = some t ∧ t ≠ s) →
      GetProcAddress.nameLoop m h fn (ptrAdd h v.AddressOfFunctions)
        (ptrAdd h v.AddressOfNames) (ptrAdd h v.AddressOfNameOrdinals) k i0
        = some (TryExit.ret a []) := by
  intro k
  induction k with
  | zero => intro i0 h1 h2; omega
  | succ k ih =>
    intro i0 h1 h2 hfirst
    simp only [GetProcAddress.nameLoop]
    by_cases hi : i0 = i
    · subst hi
      simp only [exportName, nameRva] at hmatch
      cases hr : readDWORD m (ptrAdd (ptrAdd h v.AddressOfNames) (4 * i0)) with
      | none => simp [hr] at hmatch
      | some rva =>
        simp only [hr] at hmatch
        obtain ⟨c, hc, hiff⟩ := strcmp_of_cstr hs hmatch
        have hc0 : c = 0 := hiff.mpr rfl
        subst hc0
        simp only [hc, if_true]
        simp only [namedAddress, nameOrdinal, functionAddress] at ha
        cases ho : readWORD m (ptrAdd (ptrAdd h v.AddressOfNameOrdinals) (2 * i0)) with
        | none => simp [ho] at ha
        | some ord =>
          simp only [ho] at ha
          cases hf : readDWORD m (ptrAdd (ptrAdd h v.AddressOfFunctions) (4 * ord)) with
          | none => simp [hf] at ha
          | some rva2 =>
            simp only [hf, Option.some.injEq] at ha
            simp [ho, hf, ha]
    · obtain ⟨t, ht, hne⟩ := hfirst i0 (le_refl _) (by omega)
      simp only [exportName, nameRva] at ht
      cases hr : readDWORD m (ptrAdd (ptrAdd h v.AddressOfNames) (4 * i0)) with
      | none => simp [hr] at ht
      | some rva =>
        simp only [hr] at ht
        obtain ⟨c, hc, hiff⟩ := strcmp_of_cstr hs ht
        have hc0 : c ≠ 0 := fun h0 => hne (hiff.mp h0).symm
        simp only [hc, hc0, if_false]
        exact ih (i0 + 1) (by omega) (by omega) (fun j hj1 hj2 => hfirst j (by omega) hj2)

theorem nameLoop_absent {m : Mem} {h fn : Nat} {v : ImageView} :
    ∀ (k i0 : Nat),
      (∀ j, i0 ≤ j → j < i0 + k → ∀ s, cstr m fn = some s → exportName m h v j ≠ some s) →
      GetProcAddress.nameLoop m h fn (ptrAdd h v.AddressOfFunctions)
          (ptrAdd h v.AddressOfNames) (ptrAdd h v.AddressOfNameOrdinals) k i0 = none ∨
      GetProcAddress.nameLoop m h fn (ptrAdd h v.AddressOfFunctions)
          (ptrAdd h v.AddressOfNames) (ptrAdd h v.AddressOfNameOrdinals) k i0
        = some TryExit.fallThrough := by
  intro k
  induction k with
  | zero => intro i0 _; right; rfl
  | succ k ih =>
    intro i0 hno
    simp only [GetProcAddress.nameLoop]
    have h0 := hno i0 (le_refl _) (by omega)
    simp only [exportName, nameRva] at h0
    cases hr : readDWORD m (ptrAdd (ptrAdd h v.AddressOfNames) (4 * i0)) with
    | none => left; rfl
    | some rva =>
      simp only [hr] at h0
      dsimp only
      cases hc : strcmp m fn (ptrAdd h rva) with
      | none => left; rfl
      | some c =>
        have hc0 : c ≠ 0 := by
          rintro rfl
          obtain ⟨t, h1, h2⟩ := cstr_of_strcmp hc
          exact h0 t h1 h2
        dsimp only
        rw [if_neg hc0]
        exact ih (i0 + 1) (fun j hj1 hj2 => hno j (by omega) (by omega))

theorem parseable_of_parsesAs {m : Mem} {h : Nat} {v : ImageView}
    (hc : parsesAs m h v = true) : Parseable m h v := by
  simp only [parsesAs, Bool.and_eq_true, decide_eq_true_eq] at hc
  obtain ⟨⟨⟨⟨⟨⟨⟨⟨⟨⟨⟨⟨h1, h2⟩, h3⟩, h4⟩, h5⟩, h6⟩, h7⟩, h8⟩, h9⟩, h10⟩, h11⟩, h12⟩, h13⟩ := hc
  exact ⟨h1, h2, h3, h4, h5, h6, h7, h8, h9, h10, h11, h12, h13⟩

/-! ## The synthetic images parse -/

set_option maxRecDepth 1000000

theorem sample_parseable : Parseable (sampleMem 1 3 2) sampleHandle (sampleView 1 3 2) :=
  parseable_of_parsesAs (by decide)

theorem sample_parseable_wideBase :
    Parseable (sampleMem 0x10001 3 2) sampleHandle (sampleView 0x10001 3 2) :=
  parseable_of_parsesAs (by decide)

theorem sample_parseable_hugeCount :
    Parseable (sampleMem 1 (2 ^ 31) 2) sampleHandle (sampleView 1 (2 ^ 31) 2) :=
  parseable_of_parsesAs (by decide)

theorem sample_parseable_zeroBase : Parseable (sampleMem 0 3 2) sampleHandle (sampleView 0 3 2) :=
  parseable_of_parsesAs (by decide)

/-! ## Claims on the ordinal branch -/

/-- C1, as stated, fails on the code at three inputs. With `Base = 0x10001` the
code truncates the base to `1`, so ordinal `1`, which is below `Base`, gets the
address of slot 0 and not the fallback. With `NumberOfFunctions = 2^31` the
count cast to `int` is negative, so ordinal `1 = Base`, which is in range, gets
the fallback and not the address of slot 0. With `Base = 0` the identifier of
ordinal `0` is the null identifier, so the in-range ordinal `0` gets the null
address and not the address of slot 0. -/
theorem GetProcAddress_ordinal_counterexample :
    (Parseable (sampleMem 0x10001 3 2) sampleHandle (sampleView 0x10001 3 2)
      ∧ HIWORD 1 = 0 ∧ 1 < (sampleView 0x10001 3 2).Base
      ∧ (GetProcAddress nativeNone (sampleMem 0x10001 3 2) sampleHandle 1).value
          ≠ nativeNone sampleHandle 1)
    ∧ (Parseable (sampleMem 1 (2 ^ 31) 2) sampleHandle (sampleView 1 (2 ^ 31) 2)
      ∧ HIWORD 1 = 0
      ∧ ¬ (1 < (sampleView 1 (2 ^ 31) 2).Base
            ∨ (sampleView 1 (2 ^ 31) 2).NumberOfFunctions ≤ 1 - (sampleView 1 (2 ^ 31) 2).Base)
      ∧ functionAddress (sampleMem 1 (2 ^ 31) 2) sampleHandle (sampleView 1 (2 ^ 31) 2) (1 - 1)
          = some 0x1000
      ∧ (GetProcAddress nativeNone (sampleMem 1 (2 ^ 31) 2) sampleHandle 1).value
          ≠ ptrAdd sampleHandle 0x1000)
    ∧ (Parseable (sampleMem 0 3 2) sampleHandle (sampleView 0 3 2)
      ∧ HIWORD 0 = 0
      ∧ ¬ (0 < (sampleView 0 3 2).Base
            ∨ (sampleView 0 3 2).NumberOfFunctions ≤ 0 - (sampleView 0 3 2).Base)
      ∧ functionAddress (sampleMem 0 3 2) sampleHandle (sampleView 0 3 2) (0 - 0) = some 0x1000
      ∧ (GetProcAddress nativeNone (sampleMem 0 3 2) sampleHandle 0).value
          ≠ ptrAdd sampleHandle 0x1000) :=
  ⟨⟨sample_parseable_wideBase, by decide, by decide, by decide⟩,
   ⟨sample_parseable_hugeCount, by decide, by decide, by decide, by decide⟩,
   ⟨sample_parseable_zeroBase, by decide, by decide, by decide, by decide⟩⟩

/-- C1, amended: on a parseable image whose export `Base` is below `2^16` and
whose `NumberOfFunctions` is below `2^31`, for every non-zero ordinal
identifier `o`, `Hook::GetProcAddress` returns the native fallback candidate
when `o < Base` or `o - Base >= NumberOfFunctions`, and otherwise returns
`imageBase + functionAddress[o - Base]` (the slot being readable). -/
theorem GetProcAddress_ordinal (native : Nat → Nat → Nat) {m : Mem} {h o : Nat}
    {v : ImageView} (hp : Parseable m h v) (hh : h ≠ 0) (ho : 0 < o) (ho16 : o < 65536)
    (hb : v.Base < 2 ^ 16) (hn : v.NumberOfFunctions < 2 ^ 31) :
    ((o < v.Base ∨ v.NumberOfFunctions ≤ o - v.Base) →
      (GetProcAddress native m h o).value = native h o)
    ∧ (¬ (o < v.Base ∨ v.NumberOfFunctions ≤ o - v.Base) →
      ∀ rva, functionAddress m h v (o - v.Base) = some rva →
        (GetProcAddress native m h o).value = ptrAdd h rva) := by
  rw [GetProcAddress_ordinal_value native hp hh ho ho16]
  constructor
  · intro hout
    rw [if_pos ((ordinalOutOfRange_iff hb hn).mpr hout)]
  · intro hin rva hrva
    rw [if_neg (fun hc => hin ((ordinalOutOfRange_iff hb hn).mp hc)), toWORD_of_lt hb, hrva]

/-- The scenario of the specification: `Base = 1`, three functions; ordinal `2`
resolves to slot 1 and ordinal `4` to the fallback. -/
theorem GetProcAddress_ordinal_witness :
    (GetProcAddress nativeConst (sampleMem 1 3 2) sampleHandle 2).value
        = ptrAdd sampleHandle 0x1010
    ∧ (GetProcAddress nativeConst (sampleMem 1 3 2) sampleHandle 4).value
        = nativeConst sampleHandle 4 :=
  ⟨(GetProcAddress_ordinal nativeConst sample_parseable
      (by decide) (by decide) (by decide) (by decide) (by decide)).2
      (by decide) 0x1010 (by decide),
   (GetProcAddress_ordinal nativeConst sample_parseable
      (by decide) (by decide) (by decide) (by decide) (by decide)).1 (by decide)⟩

/-! ## Claims on the name branch -/

/-- C2: on a valid image, for a name identifier whose string `s` occurs in the
name table, `Hook::GetProcAddress` returns
`imageBase + functionAddress[nameOrdinal[i]]` for the first index `i` below
`NumberOfNames` whose name is byte-for-byte `s`, whatever the native lookup
returned. -/
theorem GetProcAddress_name (native : Nat → Nat → Nat) {m : Mem} {h fn : Nat} {v : ImageView}
    {s : List Nat} {i a : Nat} (hp : Parseable m h v) (hh : h ≠ 0) (hhi : HIWORD fn ≠ 0)
    (hs : cstr m fn = some s) (hi : i < v.NumberOfNames)
    (hmatch : exportName m h v i = some s)
    (hfirst : ∀ j, j < i → ∃ t, exportName m h v j = some t ∧ t ≠ s)
    (ha : namedAddress m h v i = some a) :
    (GetProcAddress native m h fn).value = a := by
  rw [GetProcAddress_value native m hh (ne_zero_of_HIWORD hhi), tryBlock_of_parseable hp,
    lookup_name hp _ _ hhi,
    nameLoop_found hs hmatch ha v.NumberOfNames 0 (Nat.zero_le _) (by omega)
      (fun j _ hj => hfirst j hj)]

/-- The scenario of the specification: `Beta` is the second name, its ordinal
entry is 2, and it resolves to slot 2 although the native lookup answers with
another address. -/
theorem GetProcAddress_name_witness :
    (GetProcAddress nativeConst (sampleMem 1 3 2) sampleHandle (sampleHandle + 267)).value
      = 0x10001020 :=
  GetProcAddress_name nativeConst (s := [66, 101, 116, 97]) (i := 1) sample_parseable
    (by decide) (by decide) (by decide) (by decide) (by decide)
    (fun j hj => by
      have hj0 : j = 0 := by omega
      subst hj0
      exact ⟨[65, 108, 112, 104, 97], by decide, by decide⟩)
    (by decide)

theorem sample_parseable_base2 : Parseable (sampleMem 2 3 2) sampleHandle (sampleView 2 3 2) :=
  parseable_of_parsesAs (by decide)

/-! ## Claims on the boundaries of the ordinal range and on the fallback -/

/-- C4, as stated, fails on the code. With `Base = 0` the identifier
`Ordinal(Base)` is the null identifier and the result is the null address, not
`imageBase + functionAddress[0]`; with `NumberOfFunctions = 2^31` the result for
`Ordinal(Base)` is the fallback candidate. -/
theorem GetProcAddress_ordinal_base_counterexample :
    (Parseable (sampleMem 0 3 2) sampleHandle (sampleView 0 3 2)
      ∧ functionAddress (sampleMem 0 3 2) sampleHandle (sampleView 0 3 2) 0 = some 0x1000
      ∧ (GetProcAddress nativeConst (sampleMem 0 3 2) sampleHandle
            (sampleView 0 3 2).Base).value ≠ ptrAdd sampleHandle 0x1000)
    ∧ (Parseable (sampleMem 1 (2 ^ 31) 2) sampleHandle (sampleView 1 (2 ^ 31) 2)
      ∧ functionAddress (sampleMem 1 (2 ^ 31) 2) sampleHandle (sampleView 1 (2 ^ 31) 2) 0
          = some 0x1000
      ∧ (GetProcAddress nativeConst (sampleMem 1 (2 ^ 31) 2) sampleHandle
            (sampleView 1 (2 ^ 31) 2).Base).value ≠ ptrAdd sampleHandle 0x1000) :=
  ⟨⟨sample_parseable_zeroBase, by decide, by decide⟩,
   ⟨sample_parseable_hugeCount, by decide, by decide⟩⟩

/-- C4, amended: on a valid image whose export `Base` is non-zero and below
`2^16` and whose `NumberOfFunctions` is non-zero and below `2^31`,
`Hook::GetProcAddress(handle, Ordinal(Base))` returns
`imageBase + functionAddress[0]`. -/
theorem GetProcAddress_ordinal_base (native : Nat → Nat → Nat) {m : Mem} {h : Nat}
    {v : ImageView} (hp : Parseable m h v) (hh : h ≠ 0)
    (hb0 : 0 < v.Base) (hb : v.Base < 2 ^ 16)
    (hn0 : 0 < v.NumberOfFunctions) (hn : v.NumberOfFunctions < 2 ^ 31)
    {r : Nat} (hrva : functionAddress m h v 0 = some r) :
    (GetProcAddress native m h v.Base).value = ptrAdd h r := by
  rw [GetProcAddress_ordinal_value native hp hh hb0 (by simpa using hb),
    if_neg (fun hc => by
      have := (ordinalOutOfRange_iff hb hn).mp hc
      omega),
    toWORD_of_lt hb, Nat.sub_self, hrva]

/-- On the synthetic image `Ordinal(1)` resolves to slot 0. -/
theorem GetProcAddress_ordinal_base_witness :
    (GetProcAddress nativeConst (sampleMem 1 3 2) sampleHandle 1).value = 0x10001000 :=
  GetProcAddress_ordinal_base nativeConst (r := 0x1000) sample_parseable
    (by decide) (by decide) (by decide) (by decide) (by decide) (by decide)

/-- C5, as stated, fails on the code: with `Base = 2` and three functions, the
ordinals `Base - 1 = 1` and `Base + NumberOfFunctions = 5` get the fallback
candidate, which is not the null address when the native lookup answered. -/
theorem GetProcAddress_ordinal_boundary_counterexample :
    Parseable (sampleMem 2 3 2) sampleHandle (sampleView 2 3 2)
    ∧ (GetProcAddress nativeConst (sampleMem 2 3 2) sampleHandle
          ((sampleView 2 3 2).Base - 1)).value ≠ 0
    ∧ (GetProcAddress nativeConst (sampleMem 2 3 2) sampleHandle
          ((sampleView 2 3 2).Base + (sampleView 2 3 2).NumberOfFunctions)).value ≠ 0 :=
  ⟨sample_parseable_base2, by decide, by decide⟩

/-- C5, amended: on a valid image with `0 < Base`, `NumberOfFunctions < 2^31`
and `Base + NumberOfFunctions < 2^16`, `Hook::GetProcAddress` returns for
`Ordinal(Base - 1)` and for `Ordinal(Base + NumberOfFunctions)` the fallback
candidate, that is the result of the native lookup (for `Base = 1` the
identifier `Base - 1` is the null identifier and the result is null); both are
the null address when the native lookup failed. -/
theorem GetProcAddress_ordinal_boundary (native : Nat → Nat → Nat) {m : Mem} {h : Nat}
    {v : ImageView} (hp : Parseable m h v) (hh : h ≠ 0) (hb0 : 0 < v.Base)
    (hn : v.NumberOfFunctions < 2 ^ 31) (hsum : v.Base + v.NumberOfFunctions < 2 ^ 16) :
    (GetProcAddress native m h (v.Base - 1)).value
        = (if v.Base = 1 then 0 else native h (v.Base - 1))
    ∧ (GetProcAddress native m h (v.Base + v.NumberOfFunctions)).value
        = native h (v.Base + v.NumberOfFunctions)
    ∧ (native h (v.Base - 1) = 0 → (GetProcAddress native m h (v.Base - 1)).value = 0)
    ∧ (native h (v.Base + v.NumberOfFunctions) = 0 →
        (GetProcAddress native m h (v.Base + v.NumberOfFunctions)).value = 0) := by
  have hb : v.Base < 2 ^ 16 := by omega
  have hlow : (GetProcAddress native m h (v.Base - 1)).value
      = (if v.Base = 1 then 0 else native h (v.Base - 1)) := by
    by_cases h1 : v.Base = 1
    · rw [if_pos h1, h1]
      simp [GetProcAddress]
    · rw [if_neg h1, GetProcAddress_ordinal_value native hp hh (by omega) (by omega),
        if_pos ((ordinalOutOfRange_iff hb hn).mpr (Or.inl (by omega)))]
  have hhigh : (GetProcAddress native m h (v.Base + v.NumberOfFunctions)).value
      = native h (v.Base + v.NumberOfFunctions) := by
    rw [GetProcAddress_ordinal_value native hp hh (by omega) (by omega),
      if_pos ((ordinalOutOfRange_iff hb hn).mpr (Or.inr (by omega)))]
  refine ⟨hlow, hhigh, ?_, ?_⟩
  · intro h0
    rw [hlow, h0]
    simp
  · intro h0
    rw [hhigh, h0]

/-- With `Base = 2` and three functions, ordinals 1 and 5 get what the native
lookup answered. -/
theorem GetProcAddress_ordinal_boundary_witness :
    (GetProcAddress nativeConst (sampleMem 2 3 2) sampleHandle 1).value = 0x7000
    ∧ (GetProcAddress nativeConst (sampleMem 2 3 2) sampleHandle 5).value = 0x7000
    ∧ (GetProcAddress nativeNone (sampleMem 2 3 2) sampleHandle 1).value = 0
    ∧ (GetProcAddress nativeNone (sampleMem 2 3 2) sampleHandle 5).value = 0 :=
  ⟨(GetProcAddress_ordinal_boundary nativeConst sample_parseable_base2
      (by decide) (by decide) (by decide) (by decide)).1,
   (GetProcAddress_ordinal_boundary nativeConst sample_parseable_base2
      (by decide) (by decide) (by decide) (by decide)).2.1,
   (GetProcAddress_ordinal_boundary nativeNone sample_parseable_base2
      (by decide) (by decide) (by decide) (by decide)).2.2.1 (by decide),
   (GetProcAddress_ordinal_boundary nativeNone sample_parseable_base2
      (by decide) (by decide) (by decide) (by decide)).2.2.2 (by decide)⟩

theorem checkTryBlock_of_parseable (native : Nat → Nat → Nat) {m : Mem} {h : Nat}
    {v : ImageView} (hp : Parseable m h v) (hn : v.NumberOfFunctions ≠ 0) (a : Nat) :
    CheckExportAddress.tryBlock native m h a =
      CheckExportAddress.scan native m h a (ptrAdd h v.AddressOfFunctions)
        (ptrAdd h v.AddressOfNames) (ptrAdd h v.AddressOfNameOrdinals) v.NumberOfNames 0 := by
  simp [CheckExportAddress.tryBlock, hp.dos, hp.lfanew, hp.nt, hp.va, hp.va_ne, hp.size,
    hp.size_ne, hp.nof, hn, hp.aof, hp.aon, hp.aono, hp.non]

theorem checkTryBlock_no_functions (native : Nat → Nat → Nat) {m : Mem} {h : Nat}
    {v : ImageView} (hp : Parseable m h v) (hn : v.NumberOfFunctions = 0) (a : Nat) :
    CheckExportAddress.tryBlock native m h a =
      some (TryExit.ret false
        [⟨"Hook::CheckExportAddress Error: No export functions in the module.", []⟩]) := by
  simp [CheckExportAddress.tryBlock, hp.dos, hp.lfanew, hp.nt, hp.va, hp.va_ne, hp.size,
    hp.size_ne, hp.nof, hn]

/-- The value `Hook::CheckExportAddress` returns, read off the exit of its
`__try` block. -/
theorem CheckExportAddress_value (native : Nat → Nat → Nat) (m : Mem) {h : Nat} (hh : h ≠ 0)
    (a : Nat) :
    (CheckExportAddress native m h a).value =
      match CheckExportAddress.tryBlock native m h a with
      | some (TryExit.ret value _) => value
      | _ => false := by
  unfold CheckExportAddress
  rw [if_neg hh]
  cases CheckExportAddress.tryBlock native m h a with
  | none => rfl
  | some e => cases e <;> rfl

/-- Whatever the scan returns, it is `true`, and some index matched. -/
theorem scan_sound (native : Nat → Nat → Nat) {m : Mem} {h a : Nat} {v : ImageView} :
    ∀ (k i0 : Nat) (b : Bool) (lg : List LogLine),
      CheckExportAddress.scan native m h a (ptrAdd h v.AddressOfFunctions)
        (ptrAdd h v.AddressOfNames) (ptrAdd h v.AddressOfNameOrdinals) k i0
        = some (TryExit.ret b lg) →
      b = true ∧ ∃ i, i0 ≤ i ∧ i < i0 + k ∧
        (nativeAddress native m h v i = some a ∨ namedAddress m h v i = some a) := by
  intro k
  induction k with
  | zero => intro i0 b lg hs; simp [CheckExportAddress.scan] at hs
  | succ k ih =>
    intro i0 b lg hs
    simp only [CheckExportAddress.scan] at hs
    cases hr : readDWORD m (ptrAdd (ptrAdd h v.AddressOfNames) (4 * i0)) with
    | none => simp [hr] at hs
    | some rva =>
      simp only [hr] at hs
      by_cases hnat : native h (ptrAdd h rva) = a
      · simp only [hnat, if_true, Option.some.injEq, TryExit.ret.injEq] at hs
        exact ⟨hs.1.symm, i0, le_refl _, by omega, Or.inl (by simp [nativeAddress, nameRva, hr, hnat])⟩
      · simp only [hnat, if_false] at hs
        cases ho : readWORD m (ptrAdd (ptrAdd h v.AddressOfNameOrdinals) (2 * i0)) with
        | none => simp [ho] at hs
        | some ord =>
          simp only [ho] at hs
          cases hf : readDWORD m (ptrAdd (ptrAdd h v.AddressOfFunctions) (4 * ord)) with
          | none => simp [hf] at hs
          | some rva2 =>
            simp only [hf] at hs
            by_cases hman : ptrAdd rva2 h = a
            · simp only [hman, if_true, Option.some.injEq, TryExit.ret.injEq] at hs
              refine ⟨hs.1.symm, i0, le_refl _, by omega, Or.inr ?_⟩
              simp [namedAddress, nameOrdinal, functionAddress, ho, hf, ptrAdd_comm h rva2, hman]
            · simp only [hman, if_false] at hs
              obtain ⟨hb, i, h1, h2, h3⟩ := ih (i0 + 1) b lg hs
              exact ⟨hb, i, by omega, by omega, h3⟩

/-- The scan returns `true` at the first matching index when the entries before
it are readable. -/
theorem scan_complete (native : Nat → Nat → Nat) {m : Mem} {h a : Nat} {v : ImageView} {i : Nat}
    (hname : (nameRva m h v i).isSome = true)
    (hmatch : nativeAddress native m h v i = some a ∨ namedAddress m h v i = some a) :
    ∀ (k i0 : Nat), i0 ≤ i → i < i0 + k →
      (∀ j, i0 ≤ j → j < i →
        (nameRva m h v j).isSome = true ∧ (namedAddress m h v j).isSome = true) →
      CheckExportAddress.scan native m h a (ptrAdd h v.AddressOfFunctions)
        (ptrAdd h v.AddressOfNames) (ptrAdd h v.AddressOfNameOrdinals) k i0
        = some (TryExit.ret true []) := by
  intro k
  induction k with
  | zero => intro i0 h1 h2; omega
  | succ k ih =>
    intro i0 h1 h2 hread
    simp only [CheckExportAddress.scan]
    have hrd : (nameRva m h v i0).isSome = true ∧
        (i0 < i → (namedAddress m h v i0).isSome = true) := by
      by_cases hi : i0 = i
      · subst hi
        exact ⟨hname, fun hlt => absurd hlt (lt_irrefl _)⟩
      · exact ⟨(hread i0 (le_refl _) (by omega)).1, fun _ => (hread i0 (le_refl _) (by omega)).2⟩
    obtain ⟨hrd1, hrd2⟩ := hrd
    simp only [nameRva] at hrd1
    cases hr : readDWORD m (ptrAdd (ptrAdd h v.AddressOfNames) (4 * i0)) with
    | none => simp [hr] at hrd1
    | some rva =>
      dsimp only
      by_cases hnat : native h (ptrAdd h rva) = a
      · rw [if_pos hnat]
      · rw [if_neg hnat]
        have hnamed : (namedAddress m h v i0).isSome = true := by
          by_cases hi : i0 = i
          · subst hi
            rcases hmatch with hm | hm
            · simp [nativeAddress, nameRva, hr] at hm
              exact absurd hm hnat
            · simp [hm]
          · exact hrd2 (by omega)
        simp only [namedAddress, nameOrdinal, functionAddress] at hnamed
        cases ho : readWORD m (ptrAdd (ptrAdd h v.AddressOfNameOrdinals) (2 * i0)) with
        | none => simp [ho] at hnamed
        | some ord =>
          simp only [ho] at hnamed
          dsimp only
          cases hf : readDWORD m (ptrAdd (ptrAdd h v.AddressOfFunctions) (4 * ord)) with
          | none => simp [hf] at hnamed
          | some rva2 =>
            dsimp only
            by_cases hman : ptrAdd rva2 h = a
            · rw [if_pos hman]
            · rw [if_neg hman]
              have hne : i0 ≠ i := by
                rintro rfl
                rcases hmatch with hm | hm
                · simp [nativeAddress, nameRva, hr] at hm
                  exact hnat hm
                · simp [namedAddress, nameOrdinal, functionAddress, ho, hf] at hm
                  exact hman (by rw [ptrAdd_comm]; exact hm)
              exact ih (i0 + 1) (by omega) (by omega)
                (fun j hj1 hj2 => hread j (by omega) hj2)

theorem sample_parseable_noFunctions :
    Parseable (sampleMem 1 0 2) sampleHandle (sampleView 1 0 2) :=
  parseable_of_parsesAs (by decide)

/-! ## Claims on the validator -/

/-- C7: for a non-null handle whose image is parseable, has
`NumberOfFunctions != 0` and whose name, name-ordinal and function-address
entries of the named exports read without fault,
`Hook::CheckExportAddress(handle, a)` is true exactly when some index `i` below
`NumberOfNames` has its native resolution equal to `a` or has
`imageBase + functionAddress[nameOrdinal[i]]` equal to `a`. -/
theorem CheckExportAddress_iff (native : Nat → Nat → Nat) {m : Mem} {h : Nat} {v : ImageView}
    (a : Nat) (hp : Parseable m h v) (hh : h ≠ 0) (hn : v.NumberOfFunctions ≠ 0)
    (hread : ∀ i, i < v.NumberOfNames →
      (nameRva m h v i).isSome = true ∧ (namedAddress m h v i).isSome = true) :
    (CheckExportAddress native m h a).value = true ↔
      ∃ i, i < v.NumberOfNames ∧
        (nativeAddress native m h v i = some a ∨ namedAddress m h v i = some a) := by
  rw [CheckExportAddress_value native m hh a, checkTryBlock_of_parseable native hp hn a]
  constructor
  · intro hv
    cases hs : CheckExportAddress.scan native m h a (ptrAdd h v.AddressOfFunctions)
        (ptrAdd h v.AddressOfNames) (ptrAdd h v.AddressOfNameOrdinals) v.NumberOfNames 0 with
    | none => rw [hs] at hv; cases hv
    | some e =>
      cases e with
      | fallThrough => rw [hs] at hv; cases hv
      | ret b lg =>
        obtain ⟨_, i, _, hi, hm⟩ := scan_sound native v.NumberOfNames 0 b lg hs
        exact ⟨i, by omega, hm⟩
  · rintro ⟨i, hi, hm⟩
    rw [scan_complete native (hread i hi).1 hm v.NumberOfNames 0 (Nat.zero_le _) (by omega)
      (fun j _ hj => hread j (by omega))]

/-- On the synthetic image the address of slot 2, which the name `Beta` owns, is
confirmed, and the address of slot 1, which no name owns and the native lookup
does not return, is not. -/
theorem CheckExportAddress_iff_witness :
    (CheckExportAddress nativeNone (sampleMem 1 3 2) sampleHandle 0x10001020).value = true
    ∧ (CheckExportAddress nativeNone (sampleMem 1 3 2) sampleHandle 0x10001010).value ≠ true :=
  ⟨(CheckExportAddress_iff nativeNone 0x10001020 sample_parseable (by decide) (by decide)
      (fun i hi => by
        have hi2 : i < 2 := hi
        interval_cases i <;> decide)).mpr ⟨1, by decide, Or.inr (by decide)⟩,
   fun hv => by
    obtain ⟨i, hi, hm⟩ :=
      (CheckExportAddress_iff nativeNone 0x10001010 sample_parseable (by decide) (by decide)
        (fun i hi => by
          have hi2 : i < 2 := hi
          interval_cases i <;> decide)).mp hv
    have hi2 : i < 2 := hi
    interval_cases i <;> revert hm <;> decide⟩

/-- C8, as stated, fails on the code: in the image with `NumberOfFunctions = 0`
and two names, `Beta` is the second name of the name table and
`Hook::GetProcAddress` resolves it through the table, but
`Hook::CheckExportAddress` leaves at its `NumberOfFunctions == 0` test and
answers false for that address. -/
theorem CheckExportAddress_resolved_counterexample :
    Parseable (sampleMem 1 0 2) sampleHandle (sampleView 1 0 2)
    ∧ cstr (sampleMem 1 0 2) (sampleHandle + 267) = some [66, 101, 116, 97]
    ∧ exportName (sampleMem 1 0 2) sampleHandle (sampleView 1 0 2) 1 = some [66, 101, 116, 97]
    ∧ (GetProcAddress nativeNone (sampleMem 1 0 2) sampleHandle (sampleHandle + 267)).value
        = 0x10001020
    ∧ (CheckExportAddress nativeNone (sampleMem 1 0 2) sampleHandle
        (GetProcAddress nativeNone (sampleMem 1 0 2) sampleHandle (sampleHandle + 267)).value).value
        = false :=
  ⟨sample_parseable_noFunctions, by decide, by decide, by decide, by decide⟩

/-- C8, amended: on a parseable image with `NumberOfFunctions != 0`, for every
name `n` present in the name table at first index `i`, when the name,
name-ordinal and function-address entries of the indices up to `i` read without
fault, `Hook::CheckExportAddress(handle, Hook::GetProcAddress(handle, n))` is
true. -/
theorem CheckExportAddress_resolved (native : Nat → Nat → Nat) {m : Mem} {h fn : Nat}
    {v : ImageView} {s : List Nat} {i a : Nat} (hp : Parseable m h v) (hh : h ≠ 0)
    (hn : v.NumberOfFunctions ≠ 0) (hhi : HIWORD fn ≠ 0)
    (hs : cstr m fn = some s) (hi : i < v.NumberOfNames)
    (hmatch : exportName m h v i = some s)
    (hfirst : ∀ j, j < i → ∃ t, exportName m h v j = some t ∧ t ≠ s)
    (hread : ∀ j, j < i → (namedAddress m h v j).isSome = true)
    (ha : namedAddress m h v i = some a) :
    (CheckExportAddress native m h (GetProcAddress native m h fn).value).value = true := by
  have hname : ∀ j t, exportName m h v j = some t → (nameRva m h v j).isSome = true := by
    intro j t hj
    simp only [exportName] at hj
    cases hr : nameRva m h v j with
    | none => simp [hr] at hj
    | some r => rfl
  have hval : (GetProcAddress native m h fn).value = a := by
    rw [GetProcAddress_value native m hh (ne_zero_of_HIWORD hhi), tryBlock_of_parseable hp,
      lookup_name hp _ _ hhi,
      nameLoop_found hs hmatch ha v.NumberOfNames 0 (Nat.zero_le _) (by omega)
        (fun j _ hj => hfirst j hj)]
  rw [hval, CheckExportAddress_value native m hh a, checkTryBlock_of_parseable native hp hn a,
    scan_complete native (hname i s hmatch) (Or.inr ha) v.NumberOfNames 0 (Nat.zero_le _)
      (by omega)
      (fun j _ hj => by
        obtain ⟨t, ht, _⟩ := hfirst j hj
        exact ⟨hname j t ht, hread j hj⟩)]

/-- On the synthetic image the address resolved for `Beta` is confirmed. -/
theorem CheckExportAddress_resolved_witness :
    (CheckExportAddress nativeNone (sampleMem 1 3 2) sampleHandle
      (GetProcAddress nativeNone (sampleMem 1 3 2) sampleHandle (sampleHandle + 267)).value).value
      = true :=
  CheckExportAddress_resolved nativeNone (s := [66, 101, 116, 97]) (i := 1) (a := 0x10001020)
    sample_parseable (by decide) (by decide) (by decide) (by decide) (by decide) (by decide)
    (fun j hj => by
      have hj0 : j = 0 := by omega
      subst hj0
      exact ⟨[65, 108, 112, 104, 97], by decide, by decide⟩)
    (fun j hj => by
      have hj0 : j = 0 := by omega
      subst hj0
      decide)
    (by decide)

/-! ## Claims on absent arguments -/

/-- C10: with a null module handle or a null identifier `Hook::GetProcAddress`
returns the null address, and its whole outcome (value and log) is the same
for every memory and every native lookup: it reads nothing and does not call
the native lookup. -/
theorem GetProcAddress_absent_argument (native native' : Nat → Nat → Nat) (m m' : Mem)
    {h fn : Nat} (habs : h = 0 ∨ fn = 0) :
    (GetProcAddress native m h fn).value = 0
    ∧ GetProcAddress native m h fn = GetProcAddress native' m' h fn := by
  simp [GetProcAddress, habs]

/-- A null handle with the identifier `Beta`, and the synthetic image with a
null identifier: null in both cases, also on an empty memory and with a
native lookup that would answer. -/
theorem GetProcAddress_absent_argument_witness :
    ((GetProcAddress nativeConst (sampleMem 1 3 2) 0 (sampleHandle + 267)).value = 0
      ∧ GetProcAddress nativeConst (sampleMem 1 3 2) 0 (sampleHandle + 267)
          = GetProcAddress nativeNone (fun _ => none) 0 (sampleHandle + 267))
    ∧ ((GetProcAddress nativeConst (sampleMem 1 3 2) sampleHandle 0).value = 0
      ∧ GetProcAddress nativeConst (sampleMem 1 3 2) sampleHandle 0
          = GetProcAddress nativeNone (fun _ => none) sampleHandle 0) :=
  ⟨GetProcAddress_absent_argument nativeConst nativeNone (sampleMem 1 3 2) (fun _ => none)
      (Or.inl rfl),
   GetProcAddress_absent_argument nativeConst nativeNone (sampleMem 1 3 2) (fun _ => none)
      (Or.inr rfl)⟩

/-! ## Reads that fault -/

theorem readBYTE_faults {m' m : Mem} (hle : FaultsMore m' m) (a : Nat) :
    readBYTE m' a = none ∨ readBYTE m' a = readBYTE m a := by
  unfold readBYTE
  split
  · rcases hle a with e | e
    · left; rw [e]; rfl
    · right; rw [e]
  · left; rfl

theorem readWORD_faults {m' m : Mem} (hle : FaultsMore m' m) (a : Nat) :
    readWORD m' a = none ∨ readWORD m' a = readWORD m a := by
  unfold readWORD
  rcases readBYTE_faults hle a with e | e
  · left; rw [e]
  · rcases readBYTE_faults hle (a + 1) with e2 | e2
    · left; rw [e2]; cases readBYTE m' a <;> rfl
    · right; rw [e, e2]

theorem readDWORD_faults {m' m : Mem} (hle : FaultsMore m' m) (a : Nat) :
    readDWORD m' a = none ∨ readDWORD m' a = readDWORD m a := by
  unfold readDWORD
  rcases readWORD_faults hle a with e | e
  · left; rw [e]
  · rcases readWORD_faults hle (a + 2) with e2 | e2
    · left; rw [e2]; cases readWORD m' a <;> rfl
    · right; rw [e, e2]

theorem strcmpFrom_faults {m' m : Mem} (hle : FaultsMore m' m) :
    ∀ (k a b : Nat), strcmpFrom m' k a b = none ∨ strcmpFrom m' k a b = strcmpFrom m k a b := by
  intro k
  induction k with
  | zero => intro a b; left; rfl
  | succ k ih =>
    intro a b
    simp only [strcmpFrom]
    rcases readBYTE_faults hle a with e | e
    · left; rw [e]
    · rcases readBYTE_faults hle b with e2 | e2
      · left; rw [e2]; cases readBYTE m' a <;> rfl
      · rw [e, e2]
        cases readBYTE m a with
        | none => left; rfl
        | some c1 =>
          cases readBYTE m b with
          | none => left; rfl
          | some c2 =>
            dsimp only
            split
            · split
              · right; rfl
              · exact ih (a + 1) (b + 1)
            · right; rfl

theorem strcmp_faults {m' m : Mem} (hle : FaultsMore m' m) (a b : Nat) :
    strcmp m' a b = none ∨ strcmp m' a b = strcmp m a b :=
  strcmpFrom_faults hle _ a b

theorem nameLoop_faults {m' m : Mem} (hle : FaultsMore m' m) (h fn fa na oa : Nat) :
    ∀ (k i : Nat), GetProcAddress.nameLoop m' h fn fa na oa k i = none ∨
      GetProcAddress.nameLoop m' h fn fa na oa k i
        = GetProcAddress.nameLoop m h fn fa na oa k i := by
  intro k
  induction k with
  | zero => intro i; right; rfl
  | succ k ih =>
    intro i
    simp only [GetProcAddress.nameLoop]
    rcases readDWORD_faults hle (ptrAdd na (4 * i)) with e | e
    · left; rw [e]
    rw [e]
    cases readDWORD m (ptrAdd na (4 * i)) with
    | none => left; rfl
    | some nameRva =>
      dsimp only
      rcases strcmp_faults hle fn (ptrAdd h nameRva) with e | e
      · left; rw [e]
      rw [e]
      cases strcmp m fn (ptrAdd h nameRva) with
      | none => left; rfl
      | some c =>
        dsimp only
        split
        · rcases readWORD_faults hle (ptrAdd oa (2 * i)) with e | e
          · left; rw [e]
          rw [e]
          cases readWORD m (ptrAdd oa (2 * i)) with
          | none => left; rfl
          | some ordinal =>
            dsimp only
            rcases readDWORD_faults hle (ptrAdd fa (4 * ordinal)) with e | e
            · left; rw [e]
            right; rw [e]
        · exact ih (i + 1)

theorem lookup_faults {m' m : Mem} (hle : FaultsMore m' m) (h fn fb e : Nat) :
    GetProcAddress.lookup m' h fn fb e = none ∨
      GetProcAddress.lookup m' h fn fb e = GetProcAddress.lookup m h fn fb e := by
  unfold GetProcAddress.lookup
  rcases readDWORD_faults hle (ptrAdd e off_AddressOfFunctions) with e1 | e1
  · left; rw [e1]
  rw [e1]
  cases readDWORD m (ptrAdd e off_AddressOfFunctions) with
  | none => left; rfl
  | some aof =>
    dsimp only
    rcases readDWORD_faults hle (ptrAdd e off_AddressOfNames) with e1 | e1
    · left; rw [e1]
    rw [e1]
    cases readDWORD m (ptrAdd e off_AddressOfNames) with
    | none => left; rfl
    | some aon =>
      dsimp only
      rcases readDWORD_faults hle (ptrAdd e off_AddressOfNameOrdinals) with e1 | e1
      · left; rw [e1]
      rw [e1]
      cases readDWORD m (ptrAdd e off_AddressOfNameOrdinals) with
      | none => left; rfl
      | some aono =>
        dsimp only
        split
        · rcases readDWORD_faults hle (ptrAdd e off_Base) with e1 | e1
          · left; rw [e1]
          rw [e1]
          cases readDWORD m (ptrAdd e off_Base) with
          | none => left; rfl
          | some base =>
            dsimp only
            rcases readDWORD_faults hle (ptrAdd e off_NumberOfFunctions) with e1 | e1
            · left; rw [e1]
            rw [e1]
            cases readDWORD m (ptrAdd e off_NumberOfFunctions) with
            | none => left; rfl
            | some nof =>
              dsimp only
              split
              · right; rfl
              · rcases readDWORD_faults hle
                  (ptrAdd (ptrAdd h aof) (4 * (LOWORD fn - toWORD base))) with e1 | e1
                · left; rw [e1]
                right; rw [e1]
        · rcases readDWORD_faults hle (ptrAdd e off_NumberOfNames) with e1 | e1
          · left; rw [e1]
          rw [e1]
          cases readDWORD m (ptrAdd e off_NumberOfNames) with
          | none => left; rfl
          | some non =>
            dsimp only
            exact nameLoop_faults hle _ _ _ _ _ _ _

theorem tryBlock_faults {m' m : Mem} (hle : FaultsMore m' m) (h fn fb : Nat) :
    GetProcAddress.tryBlock m' h fn fb = none ∨
      GetProcAddress.tryBlock m' h fn fb = GetProcAddress.tryBlock m h fn fb := by
  unfold GetProcAddress.tryBlock
  rcases readWORD_faults hle h with e1 | e1
  · left; rw [e1]
  rw [e1]
  cases readWORD m h with
  | none => left; rfl
  | some e_magic =>
    dsimp only
    split
    · right; rfl
    rcases readDWORD_faults hle (ptrAdd h off_e_lfanew) with e1 | e1
    · left; rw [e1]
    rw [e1]
    cases readDWORD m (ptrAdd h off_e_lfanew) with
    | none => left; rfl
    | some e_lfanew =>
      dsimp only
      rcases readDWORD_faults hle (ptrAdd h e_lfanew) with e1 | e1
      · left; rw [e1]
      rw [e1]
      cases readDWORD m (ptrAdd h e_lfanew) with
      | none => left; rfl
      | some signature =>
        dsimp only
        split
        · right; rfl
        rcases readDWORD_faults hle (ptrAdd (ptrAdd h e_lfanew) off_ExportVA) with e1 | e1
        · left; rw [e1]
        rw [e1]
        cases readDWORD m (ptrAdd (ptrAdd h e_lfanew) off_ExportVA) with
        | none => left; rfl
        | some va =>
          dsimp only
          split
          · right; rfl
          rcases readDWORD_faults hle (ptrAdd (ptrAdd h e_lfanew) off_ExportSize) with e1 | e1
          · left; rw [e1]
          rw [e1]
          cases readDWORD m (ptrAdd (ptrAdd h e_lfanew) off_ExportSize) with
          | none => left; rfl
          | some size =>
            dsimp only
            split
            · right; rfl
            exact lookup_faults hle _ _ _ _

theorem scan_faults (native : Nat → Nat → Nat) {m' m : Mem} (hle : FaultsMore m' m)
    (h a fa na oa : Nat) :
    ∀ (k i : Nat), CheckExportAddress.scan native m' h a fa na oa k i = none ∨
      CheckExportAddress.scan native m' h a fa na oa k i
        = CheckExportAddress.scan native m h a fa na oa k i := by
  intro k
  induction k with
  | zero => intro i; right; rfl
  | succ k ih =>
    intro i
    simp only [CheckExportAddress.scan]
    rcases readDWORD_faults hle (ptrAdd na (4 * i)) with e | e
    · left; rw [e]
    rw [e]
    cases readDWORD m (ptrAdd na (4 * i)) with
    | none => left; rfl
    | some nameRva =>
      dsimp only
      split
      · right; rfl
      rcases readWORD_faults hle (ptrAdd oa (2 * i)) with e | e
      · left; rw [e]
      rw [e]
      cases readWORD m (ptrAdd oa (2 * i)) with
      | none => left; rfl
      | some ordinal =>
        dsimp only
        rcases readDWORD_faults hle (ptrAdd fa (4 * ordinal)) with e | e
        · left; rw [e]
        rw [e]
        cases readDWORD m (ptrAdd fa (4 * ordinal)) with
        | none => left; rfl
        | some rva =>
          dsimp only
          split
          · right; rfl
          · exact ih (i + 1)

theorem checkTryBlock_faults (native : Nat → Nat → Nat) {m' m : Mem} (hle : FaultsMore m' m)
    (h a : Nat) :
    CheckExportAddress.tryBlock native m' h a = none ∨
      CheckExportAddress.tryBlock native m' h a = CheckExportAddress.tryBlock native m h a := by
  unfold CheckExportAddress.tryBlock
  rcases readWORD_faults hle h with e1 | e1
  · left; rw [e1]
  rw [e1]
  cases readWORD m h with
  | none => left; rfl
  | some e_magic =>
    dsimp only
    split
    · right; rfl
    rcases readDWORD_faults hle (ptrAdd h off_e_lfanew) with e1 | e1
    · left; rw [e1]
    rw [e1]
    cases readDWORD m (ptrAdd h off_e_lfanew) with
    | none => left; rfl
    | some e_lfanew =>
      dsimp only
      rcases readDWORD_faults hle (ptrAdd h e_lfanew) with e1 | e1
      · left; rw [e1]
      rw [e1]
      cases readDWORD m (ptrAdd h e_lfanew) with
      | none => left; rfl
      | some signature =>
        dsimp only
        split
        · right; rfl
        rcases readDWORD_faults hle (ptrAdd (ptrAdd h e_lfanew) off_ExportVA) with e1 | e1
        · left; rw [e1]
        rw [e1]
        cases readDWORD m (ptrAdd (ptrAdd h e_lfanew) off_ExportVA) with
        | none => left; rfl
        | some va =>
          dsimp only
          split
          · right; rfl
          rcases readDWORD_faults hle (ptrAdd (ptrAdd h e_lfanew) off_ExportSize) with e1 | e1
          · left; rw [e1]
          rw [e1]
          cases readDWORD m (ptrAdd (ptrAdd h e_lfanew) off_ExportSize) with
          | none => left; rfl
          | some size =>
            dsimp only
            split
            · right; rfl
            rcases readDWORD_faults hle (ptrAdd (ptrAdd h va) off_NumberOfFunctions) with e1 | e1
            · left; rw [e1]
            rw [e1]
            cases readDWORD m (ptrAdd (ptrAdd h va) off_NumberOfFunctions) with
            | none => left; rfl
            | some nof =>
              dsimp only
              split
              · right; rfl
              rcases readDWORD_faults hle (ptrAdd (ptrAdd h va) off_AddressOfFunctions)
                with e1 | e1
              · left; rw [e1]
              rw [e1]
              cases readDWORD m (ptrAdd (ptrAdd h va) off_AddressOfFunctions) with
              | none => left; rfl
              | some aof =>
                dsimp only
                rcases readDWORD_faults hle (ptrAdd (ptrAdd h va) off_AddressOfNames)
                  with e1 | e1
                · left; rw [e1]
                rw [e1]
                cases readDWORD m (ptrAdd (ptrAdd h va) off_AddressOfNames) with
                | none => left; rfl
                | some aon =>
                  dsimp only
                  rcases readDWORD_faults hle (ptrAdd (ptrAdd h va) off_AddressOfNameOrdinals)
                    with e1 | e1
                  · left; rw [e1]
                  rw [e1]
                  cases readDWORD m (ptrAdd (ptrAdd h va) off_AddressOfNameOrdinals) with
                  | none => left; rfl
                  | some aono =>
                    dsimp only
                    rcases readDWORD_faults hle (ptrAdd (ptrAdd h va) off_NumberOfNames)
                      with e1 | e1
                    · left; rw [e1]
                    rw [e1]
                    cases readDWORD m (ptrAdd (ptrAdd h va) off_NumberOfNames) with
                    | none => left; rfl
                    | some non =>
                      dsimp only
                      exact scan_faults native hle _ _ _ _ _ _ _

theorem cutMem_faults (m : Mem) (limit : Nat) : FaultsMore (cutMem m limit) m := by
  intro a
  unfold cutMem
  split
  · right; rfl
  · left; rfl

/-! ## Outcomes on images that do not parse -/

/-- The whole outcome of `Hook::GetProcAddress`, read off the exit of its
`__try` block, when both arguments are present. -/
theorem GetProcAddress_outcome (native : Nat → Nat → Nat) (m : Mem) {h fn : Nat}
    (hh : h ≠ 0) (hfn : fn ≠ 0) :
    GetProcAddress native m h fn =
      match GetProcAddress.tryBlock m h fn (native h fn) with
      | some (TryExit.ret value log) =>
        ⟨value, GetProcAddress.nativeMissLog fn (native h fn) ++ log⟩
      | some TryExit.fallThrough =>
        ⟨native h fn, GetProcAddress.nativeMissLog fn (native h fn)
          ++ [GetProcAddress.notFoundLog fn]⟩
      | none =>
        ⟨native h fn, GetProcAddress.nativeMissLog fn (native h fn) ++
          [⟨"Hook::GetProcAddress Exception caught while parsing export table. Code=0x%08X",
              [EXCEPTION_ACCESS_VIOLATION]⟩,
            GetProcAddress.notFoundLog fn]⟩ := by
  unfold GetProcAddress
  rw [if_neg (by simp [hh, hfn])]

/-- The whole outcome of `Hook::CheckExportAddress` for a non-null handle. -/
theorem CheckExportAddress_outcome (native : Nat → Nat → Nat) (m : Mem) {h : Nat} (hh : h ≠ 0)
    (a : Nat) :
    CheckExportAddress native m h a =
      match CheckExportAddress.tryBlock native m h a with
      | some (TryExit.ret value log) => ⟨value, log⟩
      | some TryExit.fallThrough => ⟨false, []⟩
      | none =>
        ⟨false, [⟨"Hook::CheckExportAddress Error: Exception caught: %x",
          [EXCEPTION_ACCESS_VIOLATION]⟩]⟩ := by
  unfold CheckExportAddress
  rw [if_neg hh]

theorem checkTryBlock_dosMismatch (native : Nat → Nat → Nat) {m : Mem} {h : Nat}
    (hd : DosMismatch m h) (a : Nat) :
    CheckExportAddress.tryBlock native m h a =
      some (TryExit.ret false
        [⟨"Hook::CheckExportAddress Error: Module is not IMAGE_DOS_SIGNATURE.", []⟩]) := by
  obtain ⟨e, he, hne⟩ := hd
  simp [CheckExportAddress.tryBlock, he, hne]

theorem checkTryBlock_ntMismatch (native : Nat → Nat → Nat) {m : Mem} {h : Nat}
    (hd : NtMismatch m h) (a : Nat) :
    CheckExportAddress.tryBlock native m h a =
      some (TryExit.ret false
        [⟨"Hook::CheckExportAddress Error: Module is not IMAGE_NT_SIGNATURE.", []⟩]) := by
  obtain ⟨l, s, ⟨h1, h2⟩, h3, hne⟩ := hd
  simp [CheckExportAddress.tryBlock, h1, h2, h3, hne]

theorem checkTryBlock_directoryMissing (native : Nat → Nat → Nat) {m : Mem} {h : Nat}
    (hd : DirectoryMissing m h) (a : Nat) :
    CheckExportAddress.tryBlock native m h a =
      some (TryExit.ret false
        [⟨"Hook::CheckExportAddress Error: Could not get VirtualAddress.", []⟩]) := by
  obtain ⟨l, va, ⟨⟨h1, h2⟩, h3⟩, h4, h5⟩ := hd
  by_cases hva : va = 0
  · simp [CheckExportAddress.tryBlock, h1, h2, h3, h4, hva]
  · rcases h5 with h5 | h5
    · exact absurd h5 hva
    · simp [CheckExportAddress.tryBlock, h1, h2, h3, h4, hva, h5]

theorem checkTryBlock_noFunctions (native : Nat → Nat → Nat) {m : Mem} {h : Nat}
    (hd : NoFunctions m h) (a : Nat) :
    CheckExportAddress.tryBlock native m h a =
      some (TryExit.ret false
        [⟨"Hook::CheckExportAddress Error: No export functions in the module.", []⟩]) := by
  obtain ⟨l, va, sz, ⟨⟨h1, h2⟩, h3⟩, h4, hva, h5, hsz, h6⟩ := hd
  simp [CheckExportAddress.tryBlock, h1, h2, h3, h4, hva, h5, hsz, h6]

theorem sample_dosMismatch :
    DosMismatch (samplePatched ⟨sampleHandle, 2, [0x4D, 0]⟩ 1 3 2) sampleHandle :=
  ⟨0x4D, by decide, by decide⟩

theorem sample_ntMismatch :
    NtMismatch (samplePatched ⟨sampleHandle + 64, 4, [0x50, 0x45, 1, 0]⟩ 1 3 2) sampleHandle :=
  ⟨64, 0x14550, ⟨by decide, by decide⟩, by decide, by decide⟩

theorem sample_directoryMissing_va :
    DirectoryMissing (samplePatched ⟨sampleHandle + 184, 4, le32 0⟩ 1 3 2) sampleHandle :=
  ⟨64, 0, ⟨⟨by decide, by decide⟩, by decide⟩, by decide, Or.inl rfl⟩

theorem sample_noFunctions : NoFunctions (sampleMem 1 0 2) sampleHandle :=
  ⟨64, 192, 40, ⟨⟨by decide, by decide⟩, by decide⟩, by decide, by decide, by decide, by decide,
    by decide⟩

/-! ## Claims on images that do not parse -/

/-- C13: `Hook::CheckExportAddress` returns false for a null handle, with the
same outcome on every memory and every native lookup, and returns false for
every image whose export directory has `NumberOfFunctions == 0`, whatever the
candidate address and the tables; the line logged in that case differs from the
lines logged for a DOS-signature mismatch, an NT-signature mismatch, a missing
export directory and a caught fault. -/
theorem CheckExportAddress_no_functions (native native' : Nat → Nat → Nat)
    {m mDos mNt mDir mFault : Mem} (m' : Mem) {h : Nat} (a a' : Nat) (hh : h ≠ 0)
    (hd : NoFunctions m h) (hDos : DosMismatch mDos h) (hNt : NtMismatch mNt h)
    (hDir : DirectoryMissing mDir h)
    (hFault : CheckExportAddress.tryBlock native mFault h a = none) :
    ((CheckExportAddress native m 0 a).value = false
      ∧ CheckExportAddress native m 0 a = CheckExportAddress native' m' 0 a)
    ∧ (CheckExportAddress native m h a).value = false
    ∧ (CheckExportAddress native' m h a').value = false
    ∧ (CheckExportAddress native m h a).log ≠ (CheckExportAddress native mDos h a).log
    ∧ (CheckExportAddress native m h a).log ≠ (CheckExportAddress native mNt h a).log
    ∧ (CheckExportAddress native m h a).log ≠ (CheckExportAddress native mDir h a).log
    ∧ (CheckExportAddress native m h a).log ≠ (CheckExportAddress native mFault h a).log := by
  refine ⟨⟨by simp [CheckExportAddress], by simp [CheckExportAddress]⟩, ?_⟩
  rw [CheckExportAddress_outcome native m hh a, CheckExportAddress_outcome native' m hh a',
    CheckExportAddress_outcome native mDos hh a, CheckExportAddress_outcome native mNt hh a,
    CheckExportAddress_outcome native mDir hh a, CheckExportAddress_outcome native mFault hh a,
    checkTryBlock_noFunctions native hd, checkTryBlock_noFunctions native' hd,
    checkTryBlock_dosMismatch native hDos, checkTryBlock_ntMismatch native hNt,
    checkTryBlock_directoryMissing native hDir, hFault]
  refine ⟨rfl, rfl, ?_, ?_, ?_, ?_⟩ <;> decide

/-- The synthetic image with `NumberOfFunctions = 0` and two names, against the
images with a wrong signature, with a zeroed directory entry, and an unmapped
memory: the address that the name `Beta` resolves to is not confirmed. -/
theorem CheckExportAddress_no_functions_witness :
    (CheckExportAddress nativeConst (sampleMem 1 0 2) 0 0x10001020).value = false
    ∧ (CheckExportAddress nativeConst (sampleMem 1 0 2) sampleHandle 0x10001020).value = false
    ∧ (CheckExportAddress nativeConst (sampleMem 1 0 2) sampleHandle 0x10001020).log
        ≠ (CheckExportAddress nativeConst (fun _ => none) sampleHandle 0x10001020).log :=
  ⟨(CheckExportAddress_no_functions nativeConst nativeNone (fun _ => none) 0x10001020 0x7000
      (by decide) sample_noFunctions sample_dosMismatch sample_ntMismatch
      sample_directoryMissing_va
      (by decide : CheckExportAddress.tryBlock nativeConst (fun _ => none) sampleHandle
        0x10001020 = none)).1.1,
   (CheckExportAddress_no_functions nativeConst nativeNone (fun _ => none) 0x10001020 0x7000
      (by decide) sample_noFunctions sample_dosMismatch sample_ntMismatch
      sample_directoryMissing_va
      (by decide : CheckExportAddress.tryBlock nativeConst (fun _ => none) sampleHandle
        0x10001020 = none)).2.1,
   (CheckExportAddress_no_functions nativeConst nativeNone (fun _ => none) 0x10001020 0x7000
      (by decide) sample_noFunctions sample_dosMismatch sample_ntMismatch
      sample_directoryMissing_va
      (by decide : CheckExportAddress.tryBlock nativeConst (fun _ => none) sampleHandle
        0x10001020 = none)).2.2.2.2.2.2⟩

/-! ## Memories that hold the same bytes -/

theorem readBYTE_congr {m m' : Mem} (hs : SameBytes m m') (a : Nat) :
    readBYTE m a = readBYTE m' a := by
  unfold readBYTE
  split
  · exact hs a (by assumption)
  · rfl

theorem readWORD_congr {m m' : Mem} (hs : SameBytes m m') (a : Nat) :
    readWORD m a = readWORD m' a := by
  unfold readWORD
  rw [readBYTE_congr hs a, readBYTE_congr hs (a + 1)]

theorem readDWORD_congr {m m' : Mem} (hs : SameBytes m m') (a : Nat) :
    readDWORD m a = readDWORD m' a := by
  unfold readDWORD
  rw [readWORD_congr hs a, readWORD_congr hs (a + 2)]

theorem strcmpFrom_congr {m m' : Mem} (hs : SameBytes m m') :
    ∀ (k a b : Nat), strcmpFrom m k a b = strcmpFrom m' k a b := by
  intro k
  induction k with
  | zero => intro a b; rfl
  | succ k ih =>
    intro a b
    simp only [strcmpFrom, readBYTE_congr hs, ih]

theorem strcmp_congr {m m' : Mem} (hs : SameBytes m m') (a b : Nat) :
    strcmp m a b = strcmp m' a b :=
  strcmpFrom_congr hs _ a b

theorem nameLoop_congr {m m' : Mem} (hs : SameBytes m m') (h fn fa na oa : Nat) :
    ∀ (k i : Nat), GetProcAddress.nameLoop m h fn fa na oa k i
      = GetProcAddress.nameLoop m' h fn fa na oa k i := by
  intro k
  induction k with
  | zero => intro i; rfl
  | succ k ih =>
    intro i
    simp only [GetProcAddress.nameLoop, readDWORD_congr hs, readWORD_congr hs,
      strcmp_congr hs, ih]

theorem lookup_congr {m m' : Mem} (hs : SameBytes m m') (h fn fb e : Nat) :
    GetProcAddress.lookup m h fn fb e = GetProcAddress.lookup m' h fn fb e := by
  simp only [GetProcAddress.lookup, readDWORD_congr hs, nameLoop_congr hs]

theorem tryBlock_congr {m m' : Mem} (hs : SameBytes m m') (h fn fb : Nat) :
    GetProcAddress.tryBlock m h fn fb = GetProcAddress.tryBlock m' h fn fb := by
  simp only [GetProcAddress.tryBlock, readDWORD_congr hs, readWORD_congr hs, lookup_congr hs]

theorem GetProcAddress_congr (native : Nat → Nat → Nat) {m m' : Mem} (hs : SameBytes m m')
    (h fn : Nat) : GetProcAddress native m h fn = GetProcAddress native m' h fn := by
  simp only [GetProcAddress, tryBlock_congr hs]

theorem sample_parseable_emptyName :
    Parseable (samplePatched ⟨sampleHandle + 244, 4, le32 261⟩ 1 3 2) sampleHandle
      (sampleView 1 3 2) :=
  parseable_of_parsesAs (by decide)

/-! ## Claims on the name-ordinal entries and on empty names -/

/-- C14 fails on the code: in the synthetic image whose second name-ordinal
entry is 5, with three functions, the name `Beta` matches at index 1 and
`Hook::GetProcAddress` does not return the fallback candidate (null here): it
returns the image base plus the double word found at `functionAddress + 4 * 5`,
past the end of the function-address array, and `Hook::CheckExportAddress`
confirms that address. -/
theorem nameOrdinal_unchecked :
    nameOrdinal (samplePatched ⟨sampleHandle + 252, 4, le16 0 ++ le16 5⟩ 1 3 2) sampleHandle
        (sampleView 1 3 2) 1 = some 5
    ∧ ¬ (5 < (sampleView 1 3 2).NumberOfFunctions)
    ∧ (GetProcAddress nativeNone (samplePatched ⟨sampleHandle + 252, 4, le16 0 ++ le16 5⟩ 1 3 2)
        sampleHandle (sampleHandle + 267)).value = 0x10050000
    ∧ (GetProcAddress nativeNone (samplePatched ⟨sampleHandle + 252, 4, le16 0 ++ le16 5⟩ 1 3 2)
        sampleHandle (sampleHandle + 267)).value ≠ nativeNone sampleHandle (sampleHandle + 267)
    ∧ (CheckExportAddress nativeNone
        (samplePatched ⟨sampleHandle + 252, 4, le16 0 ++ le16 5⟩ 1 3 2)
        sampleHandle 0x10050000).value = true := by
  decide

/-- C15, as stated, fails on the code: in the synthetic image whose first name
is the empty string, the identifier pointing at an empty string is looked up
like any name and resolves to slot 0, and in the image without an empty name it
gets the answer of the native lookup, which was called. -/
theorem GetProcAddress_empty_name_counterexample :
    cstr (samplePatched ⟨sampleHandle + 244, 4, le32 261⟩ 1 3 2) (sampleHandle + 266) = some []
    ∧ exportName (samplePatched ⟨sampleHandle + 244, 4, le32 261⟩ 1 3 2) sampleHandle
        (sampleView 1 3 2) 0 = some []
    ∧ (GetProcAddress nativeNone (samplePatched ⟨sampleHandle + 244, 4, le32 261⟩ 1 3 2)
        sampleHandle (sampleHandle + 266)).value = 0x10001000
    ∧ (GetProcAddress nativeNone (samplePatched ⟨sampleHandle + 244, 4, le32 261⟩ 1 3 2)
        sampleHandle (sampleHandle + 266)).value ≠ 0
    ∧ cstr (sampleMem 1 3 2) (sampleHandle + 266) = some []
    ∧ (GetProcAddress nativeConst (sampleMem 1 3 2) sampleHandle (sampleHandle + 266)).value
        = 0x7000 := by
  decide

/-- C15, amended: an empty name identifier (a non-null pointer to an empty
string) is not rejected; `Hook::GetProcAddress` looks it up like any other
name. On a parseable image it returns
`imageBase + functionAddress[nameOrdinal[i]]` for the first name-table entry
`i` that is the empty string, and what the native lookup produced when no entry
is the empty string. -/
theorem GetProcAddress_empty_name (native : Nat → Nat → Nat) {m : Mem} {h fn : Nat}
    {v : ImageView} (hp : Parseable m h v) (hh : h ≠ 0) (hhi : HIWORD fn ≠ 0)
    (hs : cstr m fn = some []) :
    (∀ i a, i < v.NumberOfNames → exportName m h v i = some [] →
      (∀ j, j < i → ∃ t, exportName m h v j = some t ∧ t ≠ []) →
      namedAddress m h v i = some a → (GetProcAddress native m h fn).value = a)
    ∧ ((∀ j, j < v.NumberOfNames → exportName m h v j ≠ some []) →
      (GetProcAddress native m h fn).value = native h fn) := by
  constructor
  · intro i a hi hmatch hfirst ha
    rw [GetProcAddress_value native m hh (ne_zero_of_HIWORD hhi), tryBlock_of_parseable hp,
      lookup_name hp _ _ hhi,
      nameLoop_found hs hmatch ha v.NumberOfNames 0 (Nat.zero_le _) (by omega)
        (fun j _ hj => hfirst j hj)]
  · intro hno
    rw [GetProcAddress_value native m hh (ne_zero_of_HIWORD hhi), tryBlock_of_parseable hp,
      lookup_name hp _ _ hhi]
    rcases @nameLoop_absent m h fn v v.NumberOfNames 0
      (fun j _ hj s hs' => by
        rw [hs] at hs'
        cases hs'
        exact hno j (by omega)) with h0 | h0 <;> rw [h0]

/-- In the image whose first name is empty the empty identifier resolves to
slot 0; in the image without an empty name it gets the native answer. -/
theorem GetProcAddress_empty_name_witness :
    (GetProcAddress nativeConst (samplePatched ⟨sampleHandle + 244, 4, le32 261⟩ 1 3 2)
        sampleHandle (sampleHandle + 266)).value = 0x10001000
    ∧ (GetProcAddress nativeConst (sampleMem 1 3 2) sampleHandle (sampleHandle + 266)).value
        = 0x7000 :=
  ⟨(GetProcAddress_empty_name nativeConst sample_parseable_emptyName (by decide) (by decide)
      (by decide)).1 0 0x10001000 (by decide) (by decide)
      (fun j hj => absurd hj (Nat.not_lt_zero j)) (by decide),
   (GetProcAddress_empty_name nativeConst sample_parseable (by decide) (by decide)
      (by decide)).2 (fun j hj => by
        have hj2 : j < 2 := hj
        interval_cases j <;> decide)⟩

/-! ## Claim on the diagnostics of absent arguments -/

/-- C20, as stated, fails on the code: the lines logged for a null module
handle with the identifier `Beta` and for the synthetic image with a null
identifier are the same. -/
theorem GetProcAddress_absent_log_counterexample :
    (GetProcAddress nativeNone (sampleMem 1 3 2) 0 (sampleHandle + 267)).log
      = (GetProcAddress nativeNone (sampleMem 1 3 2) sampleHandle 0).log := by
  decide

/-- C20, amended: when `Hook::GetProcAddress` fails fast on an absent argument
it logs one line, `Invalid module or function name.`, which is the same for a
null module handle and for a null identifier. -/
theorem GetProcAddress_absent_log (native native' : Nat → Nat → Nat) (m m' : Mem) (h fn : Nat) :
    (GetProcAddress native m 0 fn).log
        = [⟨"Hook::GetProcAddress Invalid module or function name.", []⟩]
    ∧ (GetProcAddress native' m' h 0).log
        = [⟨"Hook::GetProcAddress Invalid module or function name.", []⟩]
    ∧ (GetProcAddress native m 0 fn).log = (GetProcAddress native' m' h 0).log := by
  simp [GetProcAddress]

/-! ## Hexadecimal digits -/

theorem hexDigitValue_digitChar {d : Nat} (hd : d < 16) :
    hexDigitValue (Nat.digitChar d) = d := by
  interval_cases d <;> rfl

theorem digitChar_mem_hex {d : Nat} (hd : d < 16) :
    Nat.digitChar d ∈ "0123456789abcdef".toList := by
  interval_cases d <;> decide

theorem digitChar_ne_zero {d : Nat} (hd : d < 16) (h0 : 0 < d) : Nat.digitChar d ≠ '0' := by
  interval_cases d <;> decide

theorem hexValue_append (s : List Char) (c : Char) :
    hexValue (s ++ [c]) = 16 * hexValue s + hexDigitValue c := by
  simp [hexValue, List.foldl_append]

theorem hexValue_hexDigitsFrom :
    ∀ (k n : Nat), n < 16 ^ k → hexValue (hexDigitsFrom k n) = n := by
  intro k
  induction k with
  | zero => intro n hn; simp at hn; subst hn; rfl
  | succ k ih =>
    intro n hn
    simp only [hexDigitsFrom]
    split
    · rename_i h16
      simp [hexValue, hexDigitValue_digitChar h16]
    · rw [hexValue_append, ih (n / 16) (by
        rw [Nat.div_lt_iff_lt_mul (by norm_num)]
        rw [pow_succ] at hn
        exact hn), hexDigitValue_digitChar (Nat.mod_lt _ (by norm_num))]
      omega

theorem hexDigitsFrom_mem_hex :
    ∀ (k n : Nat) (c : Char), c ∈ hexDigitsFrom k n → c ∈ "0123456789abcdef".toList := by
  intro k
  induction k with
  | zero => intro n c hc; simp [hexDigitsFrom] at hc
  | succ k ih =>
    intro n c hc
    simp only [hexDigitsFrom] at hc
    split at hc
    · rename_i h16
      rw [List.mem_singleton] at hc
      subst hc
      exact digitChar_mem_hex h16
    · rw [List.mem_append, List.mem_singleton] at hc
      rcases hc with hc | hc
      · exact ih _ _ hc
      · subst hc
        exact digitChar_mem_hex (Nat.mod_lt _ (by norm_num))

theorem hexDigitsFrom_head :
    ∀ (k n : Nat), 0 < n → n < 16 ^ k →
      ∃ c cs, hexDigitsFrom k n = c :: cs ∧ c ≠ '0' := by
  intro k
  induction k with
  | zero => intro n h0 hn; simp at hn; omega
  | succ k ih =>
    intro n h0 hn
    simp only [hexDigitsFrom]
    split
    · rename_i h16
      exact ⟨_, [], rfl, digitChar_ne_zero h16 h0⟩
    · rename_i h16
      obtain ⟨c, cs, hc, hne⟩ := ih (n / 16) (Nat.div_pos (by omega) (by norm_num)) (by
        rw [Nat.div_lt_iff_lt_mul (by norm_num)]
        rw [pow_succ] at hn
        exact hn)
      exact ⟨c, cs ++ [Nat.digitChar (n % 16)], by rw [hc]; rfl, hne⟩

theorem subDWORD_lt (a b : Nat) : subDWORD a b < 2 ^ 32 :=
  Nat.mod_lt _ (by norm_num)

theorem subDWORD_eq_sub {a b : Nat} (hb : b ≤ a) (ha : a < 2 ^ 32) : subDWORD a b = a - b := by
  unfold subDWORD
  rw [Nat.mod_eq_of_lt ha, Nat.mod_eq_of_lt (show b < 2 ^ 32 by omega)]
  omega

/-! ## Claim on `Hook::funcPtrToStr` -/

/-- C17: when the reverse lookup attributes `p` to a module,
`Hook::funcPtrToStr(p)` is the module's file path, then `+0x`, then the digits
of `p - moduleBase` computed in 32-bit arithmetic: lowercase hexadecimal
digits that denote that number, with no leading zero; when the reverse lookup
finds no module it is the text of the raw address alone. -/
theorem funcPtrToStr_format (env : LoaderEnv) (p : Nat) :
    (env.moduleFromAddress p ≠ 0 →
      funcPtrToStr env p = env.moduleFileName (env.moduleFromAddress p) ++ "+0x"
        ++ hexLower (subDWORD p (env.moduleFromAddress p)))
    ∧ (env.moduleFromAddress p = 0 → funcPtrToStr env p = env.formatPointer p)
    ∧ hexValue (hexLower (subDWORD p (env.moduleFromAddress p))).toList
        = subDWORD p (env.moduleFromAddress p)
    ∧ (∀ c, c ∈ (hexLower (subDWORD p (env.moduleFromAddress p))).toList →
        c ∈ "0123456789abcdef".toList)
    ∧ (0 < subDWORD p (env.moduleFromAddress p) →
        ∃ c cs, (hexLower (subDWORD p (env.moduleFromAddress p))).toList = c :: cs ∧ c ≠ '0')
    ∧ (env.moduleFromAddress p ≤ p → p < 2 ^ 32 →
        subDWORD p (env.moduleFromAddress p) = p - env.moduleFromAddress p) := by
  have hlt : subDWORD p (env.moduleFromAddress p) < 16 ^ 8 := by
    have := subDWORD_lt p (env.moduleFromAddress p)
    norm_num at this ⊢
    exact this
  refine ⟨?_, ?_, ?_, ?_, ?_, ?_⟩
  · intro hm
    simp [funcPtrToStr, hm]
  · intro hm
    simp [funcPtrToStr, hm]
  · exact hexValue_hexDigitsFrom 8 _ hlt
  · intro c hc
    exact hexDigitsFrom_mem_hex 8 _ c hc
  · intro h0
    exact hexDigitsFrom_head 8 _ h0 hlt
  · intro hle hp
    exact subDWORD_eq_sub hle hp

/-- The address `0x10001a2f` lies in the module at `0x10000000`; the address
`0x1a2f` lies in no module. -/
theorem funcPtrToStr_format_witness :
    funcPtrToStr sampleLoader 0x10001a2f = "C:/game/d3d9.dll+0x1a2f"
    ∧ funcPtrToStr sampleLoader 0x1a2f = "00001A2F" :=
  ⟨((funcPtrToStr_format sampleLoader 0x10001a2f).1 (by decide)).trans (by decide),
   ((funcPtrToStr_format sampleLoader 0x1a2f).2.1 (by decide)).trans (by decide)⟩

/-! ## The module scan -/

theorem stricmp_eq_zero_iff :
    ∀ (a b : List Char), stricmp a b = 0 ↔ a.map Char.toLower = b.map Char.toLower := by
  intro a
  induction a with
  | nil =>
    intro b
    cases b with
    | nil => simp [stricmp]
    | cons y t => simp [stricmp]
  | cons x s ih =>
    intro b
    cases b with
    | nil => simp [stricmp]
    | cons y t =>
      simp only [stricmp, List.map_cons, List.cons.injEq]
      by_cases hxy : x.toLower = y.toLower
      · rw [if_pos hxy, ih t]
        simp [hxy]
      · rw [if_neg hxy]
        constructor
        · intro h0
          split at h0 <;> simp at h0
        · intro h0
          exact absurd h0.1 hxy

theorem stricmp_zero_iff_sameIgnoringCase (a b : String) :
    stricmp a.toList b.toList = 0 ↔ sameIgnoringCase a b = true := by
  rw [stricmp_eq_zero_iff]
  simp [sameIgnoringCase]

/-- The loop finds nothing and reads every index when no file path can be
retrieved. -/
theorem scan_none (env : ProcessEnv) (mods : List Nat) (name : String) :
    ∀ (k i : Nat),
      (∀ j, i ≤ j → j < i + k → env.moduleFileName (hModsAt env mods j) = none) →
      GetModuleHandle.scan env mods name k i = (none, List.range' i k) := by
  intro k
  induction k with
  | zero => intro i _; rfl
  | succ k ih =>
    intro i hno
    simp only [GetModuleHandle.scan, hno i (le_refl _) (by omega)]
    rw [ih (i + 1) (fun j h1 h2 => hno j (by omega) (by omega))]
    rfl

/-- The indexes the loop reads are below `i + k`. -/
theorem scan_examined_lt (env : ProcessEnv) (mods : List Nat) (name : String) :
    ∀ (k i j : Nat), j ∈ (GetModuleHandle.scan env mods name k i).2 → j < i + k := by
  intro k
  induction k with
  | zero => intro i j hj; simp [GetModuleHandle.scan] at hj
  | succ k ih =>
    intro i j hj
    simp only [GetModuleHandle.scan] at hj
    split at hj
    · split at hj
      · simp at hj
        omega
      · simp only [List.mem_cons] at hj
        rcases hj with hj | hj
        · omega
        · have := ih (i + 1) j hj
          omega
    · simp only [List.mem_cons] at hj
      rcases hj with hj | hj
      · omega
      · have := ih (i + 1) j hj
        omega

/-- On an enumeration that fits the buffer the loop returns the first module
of the list whose path matches. -/
theorem scan_value (env : ProcessEnv) (mods : List Nat) (name : String)
    (hfit : mods.length ≤ hModsCount) :
    ∀ (k i : Nat), i + k = mods.length →
      (match (GetModuleHandle.scan env mods name k i).1 with
        | some hMod => hMod
        | none => 0) = firstModuleWithPath env name (mods.drop i) := by
  intro k
  induction k with
  | zero =>
    intro i hi
    rw [List.drop_of_length_le (by omega)]
    rfl
  | succ k ih =>
    intro i hi
    have hlt : i < mods.length := by omega
    have hat : hModsAt env mods i = mods[i] := by
      unfold hModsAt
      rw [if_pos (by omega), List.getD_eq_getElem _ _ hlt]
    rw [List.drop_eq_getElem_cons hlt]
    simp only [GetModuleHandle.scan, firstModuleWithPath, hat]
    cases hf : env.moduleFileName mods[i] with
    | none => exact ih (i + 1) (by omega)
    | some p =>
      dsimp only
      by_cases hs : stricmp name.toList p.toList = 0
      · rw [if_pos hs, if_pos ((stricmp_zero_iff_sameIgnoringCase name p).mp hs)]
      · rw [if_neg hs, if_neg (fun hc => hs ((stricmp_zero_iff_sameIgnoringCase name p).mpr hc))]
        exact ih (i + 1) (by omega)

theorem firstModuleWithPath_skip (env : ProcessEnv) (path : String) (l2 : List Nat) :
    ∀ (l1 : List Nat), (∀ x, x ∈ l1 → env.moduleFileName x = none) →
      firstModuleWithPath env path (l1 ++ l2) = firstModuleWithPath env path l2 := by
  intro l1
  induction l1 with
  | nil => intro _; rfl
  | cons x l ih =>
    intro hno
    simp only [List.cons_append, firstModuleWithPath, hno x (List.mem_cons_self _ _)]
    exact ih (fun y hy => hno y (List.mem_cons_of_mem _ hy))

/-- The value and the examined indexes of `Hook::GetModuleHandle`, read off the
loop, when the path is present, the process opened and the enumeration
succeeded. -/
theorem GetModuleHandle_of_scan (env : ProcessEnv) (path : String) (mods : List Nat)
    (hproc : env.hProcess ≠ 0) (hmods : env.modules = some mods) :
    (GetModuleHandle env (some path)).value =
        (match (GetModuleHandle.scan env mods path mods.length 0).1 with
          | some hMod => hMod
          | none => 0)
    ∧ (GetModuleHandle env (some path)).examined
        = (GetModuleHandle.scan env mods path mods.length 0).2 := by
  have hcb : cbNeeded mods / sizeofHMODULE = mods.length := by
    simp [cbNeeded, sizeofHMODULE]
  simp only [GetModuleHandle, if_neg hproc, hmods, hcb]
  rcases hs : GetModuleHandle.scan env mods path mods.length 0 with ⟨r, ex⟩
  cases r <;> exact ⟨rfl, rfl⟩

theorem sampleProcess_nameless (mods : List Nat) {x : Nat} (h1 : x ≠ 0x10000000)
    (h2 : x ≠ 0x400000) : (sampleProcess mods).moduleFileName x = none := by
  simp [sampleProcess, h1, h2]

theorem hModsAt_manyModules (j : Nat) :
    (sampleProcess manyModules).moduleFileName (hModsAt (sampleProcess manyModules) manyModules j)
      = none := by
  unfold hModsAt hModsCount
  by_cases h : j < 1024
  · rw [if_pos h]
    have hx : manyModules.getD j 0 = 0x77000000 := by
      unfold manyModules
      rw [List.getD_append _ _ _ _ (by rw [List.length_replicate]; exact h),
        List.getD_eq_getElem _ _ (by rw [List.length_replicate]; exact h)]
      exact List.getElem_replicate _ _
    rw [hx]
    exact sampleProcess_nameless _ (by decide) (by decide)
  · rw [if_neg h]
    exact sampleProcess_nameless _ (x := 0xCCCCCCCC) (by decide) (by decide)

theorem hModsAt_namelessModules (j : Nat) :
    (sampleProcess namelessModules).moduleFileName
      (hModsAt (sampleProcess namelessModules) namelessModules j) = none := by
  unfold hModsAt hModsCount
  by_cases h : j < 1024
  · rw [if_pos h]
    have hx : namelessModules.getD j 0 = 0x77000000 := by
      unfold namelessModules
      rw [List.getD_eq_getElem _ _ (by rw [List.length_replicate]; omega)]
      exact List.getElem_replicate _ _
    rw [hx]
    exact sampleProcess_nameless _ (by decide) (by decide)
  · rw [if_neg h]
    exact sampleProcess_nameless _ (x := 0xCCCCCCCC) (by decide) (by decide)

/-! ## Claims on `Hook::GetModuleHandle` -/

/-- C18, as stated, fails on the code: in a process with 1025 modules whose
last module is the only one with the path `C:/game/d3d9.dll`, that module is
the first in enumeration order whose path equals the supplied one, and
`Hook::GetModuleHandle` returns null: the snapshot buffer holds the first 1024
handles only. -/
theorem GetModuleHandle_first_match_counterexample :
    (sampleProcess manyModules).hProcess ≠ 0
    ∧ (sampleProcess manyModules).modules = some manyModules
    ∧ firstModuleWithPath (sampleProcess manyModules) "c:/GAME/D3D9.DLL" manyModules
        = 0x10000000
    ∧ (GetModuleHandle (sampleProcess manyModules) (some "c:/GAME/D3D9.DLL")).value = 0 := by
  refine ⟨by decide, rfl, ?_, ?_⟩
  · unfold manyModules
    rw [firstModuleWithPath_skip _ _ _ _ (fun x hx => by
      rw [List.eq_of_mem_replicate hx]
      exact sampleProcess_nameless _ (by decide) (by decide))]
    decide
  · rw [(GetModuleHandle_of_scan (sampleProcess manyModules) "c:/GAME/D3D9.DLL" manyModules
      (by decide) rfl).1,
      scan_none _ _ _ _ _ (fun j _ _ => hModsAt_manyModules j)]

/-- C18, amended: for every non-null path and every enumerated module list of
at most 1024 modules (the size of the snapshot buffer), when the process could
be opened and enumerated, `Hook::GetModuleHandle(path)` returns the handle of
the first module in enumeration order whose file path could be retrieved and
equals the supplied path under case-insensitive comparison, and null if there
is none. -/
theorem GetModuleHandle_first_match (env : ProcessEnv) (path : String) (mods : List Nat)
    (hproc : env.hProcess ≠ 0) (hmods : env.modules = some mods)
    (hfit : mods.length ≤ hModsCount) :
    (GetModuleHandle env (some path)).value = firstModuleWithPath env path mods := by
  rw [(GetModuleHandle_of_scan env path mods hproc hmods).1,
    scan_value env mods path hfit mods.length 0 (by omega)]
  rfl

/-- A process with three modules: the path of the third one matches in another
letter case; a path that no module has gives null. -/
theorem GetModuleHandle_first_match_witness :
    (GetModuleHandle (sampleProcess [0x400000, 0x77000000, 0x10000000])
        (some "c:/GAME/D3D9.DLL")).value = 0x10000000
    ∧ (GetModuleHandle (sampleProcess [0x400000, 0x77000000, 0x10000000])
        (some "C:/game/d3d8.dll")).value = 0 :=
  ⟨(GetModuleHandle_first_match (sampleProcess [0x400000, 0x77000000, 0x10000000])
      "c:/GAME/D3D9.DLL" [0x400000, 0x77000000, 0x10000000] (by decide) rfl
      (by decide)).trans (by decide),
   (GetModuleHandle_first_match (sampleProcess [0x400000, 0x77000000, 0x10000000])
      "C:/game/d3d8.dll" [0x400000, 0x77000000, 0x10000000] (by decide) rfl
      (by decide)).trans (by decide)⟩

/-- C19 fails on the code: in a process with 1025 modules, none of which
matches, `EnumProcessModules` reports `4100` bytes as needed and the loop reads
`hMods` at the indexes `0` to `1024`: 1025 reads, the last one past the end of
the 1024-entry buffer. -/
theorem GetModuleHandle_reads_past_buffer :
    cbNeeded namelessModules = 4100
    ∧ (GetModuleHandle (sampleProcess namelessModules) (some "C:/game/d3d9.dll")).examined
        = List.range' 0 1025
    ∧ 1024 ∈ (GetModuleHandle (sampleProcess namelessModules) (some "C:/game/d3d9.dll")).examined
    ∧ ¬ (∀ i, i ∈ (GetModuleHandle (sampleProcess namelessModules)
          (some "C:/game/d3d9.dll")).examined → i < hModsCount) := by
  have hlen : namelessModules.length = 1025 := by simp [namelessModules]
  have hex : (GetModuleHandle (sampleProcess namelessModules)
      (some "C:/game/d3d9.dll")).examined = List.range' 0 1025 := by
    rw [(GetModuleHandle_of_scan (sampleProcess namelessModules) "C:/game/d3d9.dll"
      namelessModules (by decide) rfl).2,
      scan_none _ _ _ _ _ (fun j _ _ => hModsAt_namelessModules j), hlen]
  have hmem : 1024 ∈ List.range' 0 1025 := by
    rw [List.mem_range']
    exact ⟨1024, by omega, by omega⟩
  refine ⟨by simp [cbNeeded, sizeofHMODULE, hlen], hex, by rw [hex]; exact hmem, ?_⟩
  intro hall
  have := hall 1024 (by rw [hex]; exact hmem)
  simp [hModsCount] at this

/-- On an enumeration that fits the buffer every index the loop reads is below
1024. -/
theorem GetModuleHandle_examined_in_buffer (env : ProcessEnv) (path : String)
    (mods : List Nat) (hproc : env.hProcess ≠ 0) (hmods : env.modules = some mods)
    (hfit : mods.length ≤ hModsCount) :
    ∀ i, i ∈ (GetModuleHandle env (some path)).examined → i < hModsCount := by
  intro i hi
  rw [(GetModuleHandle_of_scan env path mods hproc hmods).2] at hi
  have := scan_examined_lt env mods path mods.length 0 i hi
  omega

/-! ## The failure paths of `Hook::GetModuleHandle` -/

theorem notFound_ne_nullName (name : String) :
    ("Hook::GetModuleHandle Error: Could not file module " ++ name ++ ".")
      ≠ "Hook::GetModuleHandle Error: NULL process name." := by
  intro h
  have h2 := congrArg (fun s => (String.toList s)[29]?) h
  simp only [String.toList, String.data_append] at h2
  rw [List.append_assoc, List.getElem?_append_left (by decide)] at h2
  revert h2
  decide

theorem notFound_ne_openProcess (name : String) :
    ("Hook::GetModuleHandle Error: Could not file module " ++ name ++ ".")
      ≠ "Hook::GetModuleHandle Error: Could not open process." := by
  intro h
  have h2 := congrArg (fun s => (String.toList s)[39]?) h
  simp only [String.toList, String.data_append] at h2
  rw [List.append_assoc, List.getElem?_append_left (by decide)] at h2
  revert h2
  decide

/-- The loop returns nothing when no index it reads holds a module whose path
matches. -/
theorem scan_no_match (env : ProcessEnv) (mods : List Nat) (name : String) :
    ∀ (k i : Nat),
      (∀ j, i ≤ j → j < i + k → ∀ p, env.moduleFileName (hModsAt env mods j) = some p →
        sameIgnoringCase name p = false) →
      (GetModuleHandle.scan env mods name k i).1 = none := by
  intro k
  induction k with
  | zero => intro i _; rfl
  | succ k ih =>
    intro i hno
    simp only [GetModuleHandle.scan]
    cases hf : env.moduleFileName (hModsAt env mods i) with
    | none => exact ih (i + 1) (fun j h1 h2 => hno j (by omega) (by omega))
    | some p =>
      have hp := hno i (le_refl _) (by omega) p hf
      have hs : ¬ stricmp name.toList p.toList = 0 := by
        intro hc
        rw [(stricmp_zero_iff_sameIgnoringCase name p).mp hc] at hp
        cases hp
      dsimp only
      rw [if_neg hs]
      exact ih (i + 1) (fun j h1 h2 => hno j (by omega) (by omega))

/-! ## Claims on the failure paths, on unnamed exports and on the range test -/

/-- C21, as stated, fails on the code: a process whose modules cannot be
enumerated and a process none of whose modules matches log the same line. -/
theorem GetModuleHandle_failure_paths_counterexample :
    (GetModuleHandle sampleProcessNoEnum (some "C:/game/d3d9.dll")).log
      = (GetModuleHandle (sampleProcess [0x400000]) (some "C:/game/d3d9.dll")).log := by
  decide

/-- C21, amended: `Hook::GetModuleHandle` returns null and logs one line when
the path is null, when the process cannot be opened, when the enumeration
fails, and when no module matches. The lines for a null path, for a process
that cannot be opened and for the two last paths are pairwise distinct; the
enumeration failure and the absence of a match log the same line,
`Could not file module <path>.`. -/
theorem GetModuleHandle_failure_paths (env : ProcessEnv) (path : String) (mods : List Nat) :
    ((GetModuleHandle env none).value = 0
      ∧ (GetModuleHandle env none).log
          = [⟨"Hook::GetModuleHandle Error: NULL process name.", []⟩])
    ∧ (env.hProcess = 0 →
        (GetModuleHandle env (some path)).value = 0
        ∧ (GetModuleHandle env (some path)).log
            = [⟨"Hook::GetModuleHandle Error: Could not open process.", []⟩])
    ∧ (env.hProcess ≠ 0 → env.modules = none →
        (GetModuleHandle env (some path)).value = 0
        ∧ (GetModuleHandle env (some path)).log
            = [⟨"Hook::GetModuleHandle Error: Could not file module " ++ path ++ ".", []⟩])
    ∧ (env.hProcess ≠ 0 → env.modules = some mods →
        (∀ j, j < mods.length → ∀ p, env.moduleFileName (hModsAt env mods j) = some p →
          sameIgnoringCase path p = false) →
        (GetModuleHandle env (some path)).value = 0
        ∧ (GetModuleHandle env (some path)).log
            = [⟨"Hook::GetModuleHandle Error: Could not file module " ++ path ++ ".", []⟩])
    ∧ ([(⟨"Hook::GetModuleHandle Error: NULL process name.", []⟩ : LogLine)]
          ≠ [⟨"Hook::GetModuleHandle Error: Could not open process.", []⟩]
      ∧ [(⟨"Hook::GetModuleHandle Error: Could not file module " ++ path ++ ".", []⟩ : LogLine)]
          ≠ [⟨"Hook::GetModuleHandle Error: NULL process name.", []⟩]
      ∧ [(⟨"Hook::GetModuleHandle Error: Could not file module " ++ path ++ ".", []⟩ : LogLine)]
          ≠ [⟨"Hook::GetModuleHandle Error: Could not open process.", []⟩]) := by
  refine ⟨⟨rfl, rfl⟩, ?_, ?_, ?_, ?_, ?_, ?_⟩
  · intro hp
    simp [GetModuleHandle, hp]
  · intro hp hm
    simp [GetModuleHandle, hp, hm]
  · intro hp hm hno
    have hcb : cbNeeded mods / sizeofHMODULE = mods.length := by
      simp [cbNeeded, sizeofHMODULE]
    have hs := scan_no_match env mods path mods.length 0 (fun j _ hj => hno j (by omega))
    simp only [GetModuleHandle, if_neg hp, hm, hcb]
    rcases hsc : GetModuleHandle.scan env mods path mods.length 0 with ⟨r, ex⟩
    rw [hsc] at hs
    dsimp only at hs
    subst hs
    exact ⟨rfl, rfl⟩
  · decide
  · intro h
    simp only [List.cons.injEq, LogLine.mk.injEq, and_true] at h
    exact notFound_ne_nullName path h
  · intro h
    simp only [List.cons.injEq, LogLine.mk.injEq, and_true] at h
    exact notFound_ne_openProcess path h

/-- The four failure paths on concrete processes. -/
theorem GetModuleHandle_failure_paths_witness :
    (GetModuleHandle sampleProcessClosed (some "C:/game/d3d9.dll")).value = 0
    ∧ (GetModuleHandle sampleProcessNoEnum (some "C:/game/d3d9.dll")).value = 0
    ∧ (GetModuleHandle (sampleProcess [0x400000]) (some "C:/game/d3d9.dll")).log
        = [⟨"Hook::GetModuleHandle Error: Could not file module C:/game/d3d9.dll.", []⟩] :=
  ⟨((GetModuleHandle_failure_paths sampleProcessClosed "C:/game/d3d9.dll" []).2.1 rfl).1,
   ((GetModuleHandle_failure_paths sampleProcessNoEnum "C:/game/d3d9.dll" []).2.2.1
      (by decide) rfl).1,
   (((GetModuleHandle_failure_paths (sampleProcess [0x400000]) "C:/game/d3d9.dll"
      [0x400000]).2.2.2.1 (by decide) rfl
      (fun j hj p hp => by
        have hj1 : j < 1 := hj
        have hj0 : j = 0 := by omega
        subst hj0
        have hp2 : p = "C:/game/game.exe" := by
          have h2 : (sampleProcess [0x400000]).moduleFileName
              (hModsAt (sampleProcess [0x400000]) [0x400000] 0) = some "C:/game/game.exe" := by
            decide
          rw [h2] at hp
          exact (Option.some.inj hp).symm
        subst hp2
        decide)).2).trans (by decide)⟩

/-- C23: ordinal 0 is never resolvable. The identifier of ordinal 0 is the null
identifier: `Hook::GetProcAddress(handle, Ordinal(0))` returns the null address
with one and the same outcome for every memory and every native lookup, also
on the synthetic image whose export `Base` is 0 and whose slot 0 holds
`0x1000`. -/
theorem GetProcAddress_ordinal_zero (native native' : Nat → Nat → Nat) (m m' : Mem) (h : Nat) :
    HIWORD 0 = 0
    ∧ (GetProcAddress native m h 0).value = 0
    ∧ GetProcAddress native m h 0 = GetProcAddress native' m' h 0
    ∧ (Parseable (sampleMem 0 3 2) sampleHandle (sampleView 0 3 2)
      ∧ (sampleView 0 3 2).Base = 0
      ∧ functionAddress (sampleMem 0 3 2) sampleHandle (sampleView 0 3 2) 0 = some 0x1000
      ∧ (GetProcAddress native (sampleMem 0 3 2) sampleHandle 0).value = 0) := by
  refine ⟨rfl, ?_, ?_, sample_parseable_zeroBase, rfl, by decide, ?_⟩ <;>
    simp [GetProcAddress]

/-- C24: the range test of `Hook::GetProcAddress`, on the export `Base`
truncated to 16 bits and `NumberOfFunctions` cast to a signed 32-bit integer,
agrees with the exact test `ordinal < Base or ordinal - Base >=
NumberOfFunctions` for every 16-bit ordinal when `Base < 2^16` and
`NumberOfFunctions < 2^31`. Outside these bounds it can disagree:
`Base = 0x10001` is treated as base 1, and with `NumberOfFunctions >= 2^31`
every ordinal is out of range, also the ordinals from `Base` on that the exact
test accepts. -/
theorem ordinal_range_check (o b n : Nat) :
    (o < 2 ^ 16 → b < 2 ^ 16 → n < 2 ^ 31 →
      (ordinalOutOfRange o (toWORD b) n = true ↔ (o < b ∨ n ≤ o - b)))
    ∧ (toWORD 0x10001 = 1 ∧ ordinalOutOfRange 1 (toWORD 0x10001) 3 = false
        ∧ (1 < 0x10001 ∨ 3 ≤ 1 - 0x10001))
    ∧ (o < 2 ^ 16 → 2 ^ 31 ≤ n → n < 2 ^ 32 →
        ordinalOutOfRange o (toWORD b) n = true ∧ (b ≤ o → ¬ (o < b ∨ n ≤ o - b))) := by
  refine ⟨fun _ hb hn => ordinalOutOfRange_iff hb hn, ⟨by decide, by decide, by decide⟩, ?_⟩
  intro ho hn1 hn2
  have h1 : n % 2 ^ 32 = n := Nat.mod_eq_of_lt hn2
  have h3 : toInt32 n = (n : Int) - 2 ^ 32 := by
    unfold toInt32
    rw [h1, if_neg (by omega)]
  refine ⟨?_, fun hb => by omega⟩
  simp only [ordinalOutOfRange, h3, Bool.or_eq_true, decide_eq_true_eq]
  omega

/-- Base 1 with three functions: ordinal 4 is out of range and ordinal 3 is
not; with `2^31` functions ordinal 1 is out of range. -/
theorem ordinal_range_check_witness :
    ordinalOutOfRange 4 (toWORD 1) 3 = true
    ∧ ordinalOutOfRange 3 (toWORD 1) 3 ≠ true
    ∧ ordinalOutOfRange 1 (toWORD 1) (2 ^ 31) = true :=
  ⟨((ordinal_range_check 4 1 3).1 (by decide) (by decide) (by decide)).mpr (by decide),
   fun hc => absurd (((ordinal_range_check 3 1 3).1 (by decide) (by decide) (by decide)).mp hc)
    (by decide),
   ((ordinal_range_check 1 1 (2 ^ 31)).2.2 (by decide) (by decide) (by decide)).1⟩

/-! ## The call in a world and the resolver as a function of the memory -/

theorem exec_nameLoop_eq (h fn fa na oa : Nat) : ∀ (k i : Nat) (w : World),
    GetProcAddress.exec.nameLoop h fn fa na oa k i w =
      match GetProcAddress.nameLoop w.mem h fn fa na oa k i with
      | none => (none, w)
      | some (TryExit.ret v log) => (some (some v), ⟨w.mem, w.sink ++ log⟩)
      | some TryExit.fallThrough => (some none, w) := by
  intro k
  induction k with
  | zero => intro i w; rfl
  | succ k ih =>
    intro i w
    simp only [GetProcAddress.exec.nameLoop, GetProcAddress.nameLoop]
    cases readDWORD w.mem (ptrAdd na (4 * i)) with
    | none => rfl
    | some nameRva =>
      dsimp only
      cases strcmp w.mem fn (ptrAdd h nameRva) with
      | none => rfl
      | some c =>
        dsimp only
        by_cases hc : c = 0
        · rw [if_pos hc, if_pos hc]
          cases readWORD w.mem (ptrAdd oa (2 * i)) with
          | none => rfl
          | some ordinal =>
            dsimp only
            cases readDWORD w.mem (ptrAdd fa (4 * ordinal)) with
            | none => rfl
            | some rva => simp
        · rw [if_neg hc, if_neg hc]
          exact ih (i + 1) w

theorem exec_lookup_eq (h fn fb e : Nat) (w : World) :
    GetProcAddress.exec.lookup h fn fb e w =
      match GetProcAddress.lookup w.mem h fn fb e with
      | none => (none, w)
      | some (TryExit.ret v log) => (some (some v), ⟨w.mem, w.sink ++ log⟩)
      | some TryExit.fallThrough => (some none, w) := by
  simp only [GetProcAddress.exec.lookup, GetProcAddress.lookup]
  cases readDWORD w.mem (ptrAdd e off_AddressOfFunctions) with
  | none => rfl
  | some aof =>
    dsimp only
    cases readDWORD w.mem (ptrAdd e off_AddressOfNames) with
    | none => rfl
    | some aon =>
      dsimp only
      cases readDWORD w.mem (ptrAdd e off_AddressOfNameOrdinals) with
      | none => rfl
      | some aono =>
        dsimp only
        by_cases hhi : HIWORD fn = 0
        · rw [if_pos hhi, if_pos hhi]
          cases readDWORD w.mem (ptrAdd e off_Base) with
          | none => rfl
          | some base =>
            dsimp only
            cases readDWORD w.mem (ptrAdd e off_NumberOfFunctions) with
            | none => rfl
            | some nof =>
              dsimp only
              by_cases hr : ordinalOutOfRange (LOWORD fn) (toWORD base) nof = true
              · rw [if_pos hr, if_pos hr]
                rfl
              · rw [if_neg hr, if_neg hr]
                cases readDWORD w.mem (ptrAdd (ptrAdd h aof) (4 * (LOWORD fn - toWORD base))) with
                | none => rfl
                | some rva => simp
        · rw [if_neg hhi, if_neg hhi]
          cases readDWORD w.mem (ptrAdd e off_NumberOfNames) with
          | none => rfl
          | some non =>
            dsimp only
            exact exec_nameLoop_eq h fn _ _ _ non 0 w

theorem exec_tryBlock_eq (h fn fb : Nat) (w : World) :
    GetProcAddress.exec.tryBlock h fn fb w =
      match GetProcAddress.tryBlock w.mem h fn fb with
      | none => (none, w)
      | some (TryExit.ret v log) => (some (some v), ⟨w.mem, w.sink ++ log⟩)
      | some TryExit.fallThrough => (some none, w) := by
  simp only [GetProcAddress.exec.tryBlock, GetProcAddress.tryBlock]
  cases readWORD w.mem h with
  | none => rfl
  | some e_magic =>
    dsimp only
    by_cases h1 : e_magic ≠ IMAGE_DOS_SIGNATURE
    · rw [if_pos h1, if_pos h1]; rfl
    · rw [if_neg h1, if_neg h1]
      cases readDWORD w.mem (ptrAdd h off_e_lfanew) with
      | none => rfl
      | some e_lfanew =>
        dsimp only
        cases readDWORD w.mem (ptrAdd h e_lfanew) with
        | none => rfl
        | some signature =>
          dsimp only
          by_cases h2 : signature ≠ IMAGE_NT_SIGNATURE
          · rw [if_pos h2, if_pos h2]; rfl
          · rw [if_neg h2, if_neg h2]
            cases readDWORD w.mem (ptrAdd (ptrAdd h e_lfanew) off_ExportVA) with
            | none => rfl
            | some va =>
              dsimp only
              by_cases h3 : va = 0
              · rw [if_pos h3, if_pos h3]; rfl
              · rw [if_neg h3, if_neg h3]
                cases readDWORD w.mem (ptrAdd (ptrAdd h e_lfanew) off_ExportSize) with
                | none => rfl
                | some size =>
                  dsimp only
                  by_cases h4 : size = 0
                  · rw [if_pos h4, if_pos h4]; rfl
                  · rw [if_neg h4, if_neg h4]
                    exact exec_lookup_eq h fn fb _ w

theorem exec_nativeMiss_of_readable (fn fb : Nat) (w : World)
    (hid : HIWORD fn = 0 ∨ cstr w.mem fn ≠ none) :
    GetProcAddress.exec.nativeMiss fn fb w
      = some ⟨w.mem, w.sink ++ GetProcAddress.nativeMissLog fn fb⟩ := by
  unfold GetProcAddress.exec.nativeMiss GetProcAddress.nativeMissLog
  by_cases hfb : fb = 0
  · rw [if_pos hfb, if_pos hfb]
    by_cases hhi : HIWORD fn = 0
    · rw [if_pos hhi, if_pos hhi]; rfl
    · rw [if_neg hhi, if_neg hhi]
      unfold LogFormatString
      have hr : cstr w.mem fn ≠ none := hid.resolve_left hhi
      cases hc : cstr w.mem fn with
      | none => exact absurd hc hr
      | some s => rfl
  · rw [if_neg hfb, if_neg hfb]
    simp

theorem exec_notFound_of_readable (fn : Nat) (m : Mem) (s : List LogLine)
    (hid : HIWORD fn = 0 ∨ cstr m fn ≠ none) :
    GetProcAddress.exec.notFound fn ⟨m, s⟩
      = some ⟨m, s ++ [GetProcAddress.notFoundLog fn]⟩ := by
  unfold GetProcAddress.exec.notFound GetProcAddress.notFoundLog
  by_cases hhi : HIWORD fn = 0
  · rw [if_pos hhi, if_pos hhi]; rfl
  · rw [if_neg hhi, if_neg hhi]
    unfold LogFormatString
    have hr : cstr m fn ≠ none := hid.resolve_left hhi
    cases hc : cstr m fn with
    | none => exact absurd hc hr
    | some t => simp only [hc]

theorem exec_notFound_of_unreadable (fn : Nat) (m : Mem) (s : List LogLine)
    (hhi : HIWORD fn ≠ 0) (hc : cstr m fn = none) :
    GetProcAddress.exec.notFound fn ⟨m, s⟩ = none := by
  unfold GetProcAddress.exec.notFound LogFormatString
  rw [if_neg hhi]
  simp only [hc]

theorem exec_tryStatement_eq (h fn fb : Nat) (w : World) :
    GetProcAddress.exec.tryStatement h fn fb w =
      match GetProcAddress.tryBlock w.mem h fn fb with
      | none =>
        (none, ⟨w.mem, w.sink ++
          [⟨"Hook::GetProcAddress Exception caught while parsing export table. Code=0x%08X",
            [EXCEPTION_ACCESS_VIOLATION]⟩]⟩)
      | some (TryExit.ret v log) => (some v, ⟨w.mem, w.sink ++ log⟩)
      | some TryExit.fallThrough => (none, w) := by
  unfold GetProcAddress.exec.tryStatement
  rw [exec_tryBlock_eq]
  cases GetProcAddress.tryBlock w.mem h fn fb with
  | none => rfl
  | some e => cases e <;> rfl

/-- A call whose identifier is an ordinal or a readable string returns, with
the address and the lines of the resolver as a function of the memory. -/
theorem exec_of_readable (native : Nat → Nat → Nat) (b : Bool) (h fn : Nat) (w : World)
    (hid : HIWORD fn = 0 ∨ cstr w.mem fn ≠ none) :
    GetProcAddress.exec native b h fn w
      = (some (GetProcAddress native w.mem h fn).value,
          ⟨w.mem, w.sink ++ (GetProcAddress native w.mem h fn).log⟩) := by
  by_cases hz : h = 0 ∨ fn = 0
  · unfold GetProcAddress.exec GetProcAddress
    rw [if_pos hz, if_pos hz]
    rfl
  · have hh : h ≠ 0 := fun e => hz (Or.inl e)
    have hfn : fn ≠ 0 := fun e => hz (Or.inr e)
    have hnr : ¬ (b = true ∧ HIWORD fn ≠ 0 ∧ cstr w.mem fn = none) := by
      rintro ⟨_, h1, h2⟩
      rcases hid with e | e
      · exact h1 e
      · exact e h2
    unfold GetProcAddress.exec
    rw [if_neg hz, if_neg hnr]
    dsimp only
    rw [exec_nativeMiss_of_readable fn (native h fn) w hid]
    dsimp only
    rw [exec_tryStatement_eq, GetProcAddress_outcome native w.mem hh hfn]
    cases GetProcAddress.tryBlock w.mem h fn (native h fn) with
    | none =>
      dsimp only
      rw [exec_notFound_of_readable fn w.mem _ hid]
      simp
    | some e =>
      cases e with
      | ret v log => simp
      | fallThrough =>
        dsimp only
        rw [exec_notFound_of_readable fn w.mem _ hid]
        simp

/-- A call whose identifier is a name that cannot be read: the access
violation reaches the caller unless the native lookup found the name without
reading it and the `__try` block returned before comparing it. -/
theorem exec_of_unreadable (native : Nat → Nat → Nat) (b : Bool) (h fn : Nat) (w : World)
    (hh : h ≠ 0) (hfn : fn ≠ 0) (hhi : HIWORD fn ≠ 0) (hc : cstr w.mem fn = none) :
    GetProcAddress.exec native b h fn w =
      if b = true ∨ native h fn = 0 then (none, w)
      else
        match GetProcAddress.tryBlock w.mem h fn (native h fn) with
        | some (TryExit.ret v log) => (some v, ⟨w.mem, w.sink ++ log⟩)
        | some TryExit.fallThrough => (none, w)
        | none =>
          (none, ⟨w.mem, w.sink ++
            [⟨"Hook::GetProcAddress Exception caught while parsing export table. Code=0x%08X",
              [EXCEPTION_ACCESS_VIOLATION]⟩]⟩) := by
  have hz : ¬ (h = 0 ∨ fn = 0) := by simp [hh, hfn]
  unfold GetProcAddress.exec
  rw [if_neg hz]
  by_cases hb : b = true
  · rw [if_pos ⟨hb, hhi, hc⟩, if_pos (Or.inl hb)]
  · rw [if_neg (fun e => hb e.1)]
    dsimp only
    by_cases hfb : native h fn = 0
    · rw [if_pos (Or.inr hfb)]
      unfold GetProcAddress.exec.nativeMiss LogFormatString
      rw [if_pos hfb, if_neg hhi, hc]
    · rw [if_neg (by simp [hb, hfb])]
      unfold GetProcAddress.exec.nativeMiss
      rw [if_neg hfb]
      dsimp only
      rw [exec_tryStatement_eq]
      cases GetProcAddress.tryBlock w.mem h fn (native h fn) with
      | none =>
        dsimp only
        rw [exec_notFound_of_unreadable fn w.mem _ hhi hc]
      | some e =>
        cases e with
        | ret v log => rfl
        | fallThrough =>
          dsimp only
          rw [exec_notFound_of_unreadable fn w.mem _ hhi hc]

theorem exec_of_absent (native : Nat → Nat → Nat) (b : Bool) (h fn : Nat) (w : World)
    (hz : h = 0 ∨ fn = 0) :
    GetProcAddress.exec native b h fn w
      = (some 0, ⟨w.mem, w.sink ++
          [⟨"Hook::GetProcAddress Invalid module or function name.", []⟩]⟩) := by
  unfold GetProcAddress.exec
  rw [if_pos hz]
  rfl

/-- The result of a call and the lines it logs are functions of the memory:
the call leaves the memory as it is and appends its lines to the sink, whatever
the sink holds. -/
theorem exec_shape (native : Nat → Nat → Nat) (b : Bool) (h fn : Nat) (m : Mem) :
    ∃ (r : Option Nat) (lines : List LogLine), ∀ s : List LogLine,
      GetProcAddress.exec native b h fn ⟨m, s⟩ = (r, ⟨m, s ++ lines⟩) := by
  by_cases hid : HIWORD fn = 0 ∨ cstr m fn ≠ none
  · exact ⟨some (GetProcAddress native m h fn).value, (GetProcAddress native m h fn).log,
      fun s => exec_of_readable native b h fn ⟨m, s⟩ hid⟩
  · have hhi : HIWORD fn ≠ 0 := fun e => hid (Or.inl e)
    have hc : cstr m fn = none := by
      by_contra e
      exact hid (Or.inr e)
    by_cases hz : h = 0 ∨ fn = 0
    · exact ⟨some 0, [⟨"Hook::GetProcAddress Invalid module or function name.", []⟩],
        fun s => exec_of_absent native b h fn ⟨m, s⟩ hz⟩
    · have hh : h ≠ 0 := fun e => hz (Or.inl e)
      have hfn : fn ≠ 0 := fun e => hz (Or.inr e)
      by_cases hb : b = true ∨ native h fn = 0
      · refine ⟨none, [], fun s => ?_⟩
        rw [exec_of_unreadable native b h fn ⟨m, s⟩ hh hfn hhi hc, if_pos hb]
        simp
      · cases ht : GetProcAddress.tryBlock m h fn (native h fn) with
        | none =>
          refine ⟨none,
            [⟨"Hook::GetProcAddress Exception caught while parsing export table. Code=0x%08X",
              [EXCEPTION_ACCESS_VIOLATION]⟩], fun s => ?_⟩
          rw [exec_of_unreadable native b h fn ⟨m, s⟩ hh hfn hhi hc, if_neg hb]
          simp only [ht]
        | some e =>
          cases e with
          | ret v log =>
            refine ⟨some v, log, fun s => ?_⟩
            rw [exec_of_unreadable native b h fn ⟨m, s⟩ hh hfn hhi hc, if_neg hb]
            simp only [ht]
          | fallThrough =>
            refine ⟨none, [], fun s => ?_⟩
            rw [exec_of_unreadable native b h fn ⟨m, s⟩ hh hfn hhi hc, if_neg hb]
            simp only [ht]
            simp

/-- The address a call returns is the resolver's. -/
theorem exec_returns (native : Nat → Nat → Nat) (b : Bool) (h fn : Nat) (w : World) (v : Nat)
    (hr : (GetProcAddress.exec native b h fn w).1 = some v) :
    v = (GetProcAddress native w.mem h fn).value := by
  by_cases hid : HIWORD fn = 0 ∨ cstr w.mem fn ≠ none
  · rw [exec_of_readable native b h fn w hid] at hr
    exact (Option.some.inj hr).symm
  · have hhi : HIWORD fn ≠ 0 := fun e => hid (Or.inl e)
    have hc : cstr w.mem fn = none := by
      by_contra e
      exact hid (Or.inr e)
    by_cases hz : h = 0 ∨ fn = 0
    · rw [exec_of_absent native b h fn w hz] at hr
      have hv : v = 0 := (Option.some.inj hr).symm
      rw [hv]
      simp [GetProcAddress, hz]
    · have hh : h ≠ 0 := fun e => hz (Or.inl e)
      have hfn : fn ≠ 0 := fun e => hz (Or.inr e)
      rw [exec_of_unreadable native b h fn w hh hfn hhi hc] at hr
      rw [GetProcAddress_value native w.mem hh hfn]
      by_cases hb : b = true ∨ native h fn = 0
      · rw [if_pos hb] at hr
        cases hr
      · rw [if_neg hb] at hr
        cases ht : GetProcAddress.tryBlock w.mem h fn (native h fn) with
        | none => rw [ht] at hr; cases hr
        | some e =>
          cases e with
          | ret v2 log =>
            rw [ht] at hr
            exact (Option.some.inj hr).symm
          | fallThrough => rw [ht] at hr; cases hr

theorem cstrFrom_congr {m m' : Mem} (hs : SameBytes m m') :
    ∀ (k a : Nat), cstrFrom m k a = cstrFrom m' k a := by
  intro k
  induction k with
  | zero => intro a; rfl
  | succ k ih =>
    intro a
    simp only [cstrFrom, readBYTE_congr hs, ih]

theorem cstr_congr {m m' : Mem} (hs : SameBytes m m') (a : Nat) : cstr m a = cstr m' a :=
  cstrFrom_congr hs _ a

/-- Two worlds whose memories hold the same bytes give a call the same result
and the same lines. -/
theorem exec_congr (native : Nat → Nat → Nat) (b : Bool) (h fn : Nat) {m m' : Mem}
    (hs : SameBytes m m') (s s' : List LogLine) (r : Option Nat) (lines : List LogLine)
    (he : GetProcAddress.exec native b h fn ⟨m, s⟩ = (r, ⟨m, s ++ lines⟩)) :
    GetProcAddress.exec native b h fn ⟨m', s'⟩ = (r, ⟨m', s' ++ lines⟩) := by
  by_cases hid : HIWORD fn = 0 ∨ cstr m fn ≠ none
  · have hid2 : HIWORD fn = 0 ∨ cstr m' fn ≠ none := by
      rw [← cstr_congr hs]; exact hid
    rw [exec_of_readable native b h fn ⟨m, s⟩ hid] at he
    rw [exec_of_readable native b h fn ⟨m', s'⟩ hid2]
    simp only [Prod.mk.injEq, World.mk.injEq, true_and, List.append_cancel_left_eq] at he
    dsimp only
    rw [← GetProcAddress_congr native hs, he.1, he.2]
  · have hhi : HIWORD fn ≠ 0 := fun e => hid (Or.inl e)
    have hc : cstr m fn = none := by
      by_contra e
      exact hid (Or.inr e)
    have hc2 : cstr m' fn = none := by rw [← cstr_congr hs]; exact hc
    by_cases hz : h = 0 ∨ fn = 0
    · rw [exec_of_absent native b h fn ⟨m, s⟩ hz] at he
      rw [exec_of_absent native b h fn ⟨m', s'⟩ hz]
      simp only [Prod.mk.injEq, World.mk.injEq, true_and, List.append_cancel_left_eq] at he
      dsimp only
      rw [he.1, he.2]
    · have hh : h ≠ 0 := fun e => hz (Or.inl e)
      have hfn : fn ≠ 0 := fun e => hz (Or.inr e)
      rw [exec_of_unreadable native b h fn ⟨m, s⟩ hh hfn hhi hc] at he
      rw [exec_of_unreadable native b h fn ⟨m', s'⟩ hh hfn hhi hc2]
      dsimp only at he ⊢
      rw [← tryBlock_congr hs]
      by_cases hb : b = true ∨ native h fn = 0
      · rw [if_pos hb] at he ⊢
        simp only [Prod.mk.injEq, World.mk.injEq, true_and] at he
        have hl : lines = [] := by
          have := he.2
          simpa using this
        rw [← he.1, hl]
        simp
      · rw [if_neg hb] at he ⊢
        cases ht : GetProcAddress.tryBlock m h fn (native h fn) with
        | none =>
          rw [ht] at he
          simp only [Prod.mk.injEq, World.mk.injEq, true_and, List.append_cancel_left_eq] at he
          rw [← he.1, ← he.2]
        | some e =>
          cases e with
          | ret v log =>
            rw [ht] at he
            simp only [Prod.mk.injEq, World.mk.injEq, true_and, List.append_cancel_left_eq] at he
            rw [← he.1, ← he.2]
          | fallThrough =>
            rw [ht] at he
            simp only [Prod.mk.injEq, World.mk.injEq, true_and] at he
            have hl : lines = [] := by
              have := he.2
              simpa using this
            rw [← he.1, hl]
            simp

theorem cstrFrom_faults {m' m : Mem} (hle : FaultsMore m' m) :
    ∀ (k a : Nat), cstrFrom m' k a = none ∨ cstrFrom m' k a = cstrFrom m k a := by
  intro k
  induction k with
  | zero => intro a; left; rfl
  | succ k ih =>
    intro a
    simp only [cstrFrom]
    rcases readBYTE_faults hle a with e | e
    · left; rw [e]
    · rw [e]
      cases readBYTE m a with
      | none => left; rfl
      | some c =>
        dsimp only
        split
        · right; rfl
        · rcases ih (a + 1) with e2 | e2
          · left; rw [e2]
          · right; rw [e2]

theorem cstr_faults {m' m : Mem} (hle : FaultsMore m' m) (a : Nat)
    (hr : cstr m' a ≠ none) : cstr m a ≠ none := by
  rcases cstrFrom_faults hle (2 ^ 32) a with e | e
  · exact absurd e hr
  · intro hc
    apply hr
    unfold cstr at hc ⊢
    rw [e, hc]

/-- Whether the `__try` block run in a world faults does not depend on the
sink, and is read off the block as a function of the memory. -/
theorem exec_tryBlock_faults_iff (h fn fb : Nat) (m : Mem) (s : List LogLine) :
    (GetProcAddress.exec.tryBlock h fn fb ⟨m, s⟩).1 = none
      ↔ GetProcAddress.tryBlock m h fn fb = none := by
  rw [exec_tryBlock_eq]
  cases GetProcAddress.tryBlock m h fn fb with
  | none => simp
  | some e => cases e <;> simp

/-! ## Claims on fault containment and on repeated calls -/

/-- C9, as stated, fails on the code. In the synthetic image truncated before
its tables the read of the first name entry faults inside the `__try` block,
the handler catches it, and the `%s` diagnostic of line 125 then reads the
identifier outside the block: with an identifier whose bytes cannot be read the
call does not return the fallback candidate `0x7000`, the access violation
reaches the caller. The same holds on the whole image when the native lookup
finds nothing (line 44), and whether or not the native lookup reads the
identifier itself. -/
theorem fault_containment_counterexample :
    readDWORD (cutMem (sampleMem 1 3 2) (sampleHandle + 232)) (sampleHandle + 244) = none
    ∧ (GetProcAddress.exec.tryBlock sampleHandle 0x20000000 0x7000
        ⟨cutMem (sampleMem 1 3 2) (sampleHandle + 232), []⟩).1 = none
    ∧ (GetProcAddress.exec nativeConst false sampleHandle 0x20000000
        ⟨cutMem (sampleMem 1 3 2) (sampleHandle + 232), []⟩).1 = none
    ∧ (GetProcAddress.exec nativeConst true sampleHandle 0x20000000
        ⟨cutMem (sampleMem 1 3 2) (sampleHandle + 232), []⟩).1 = none
    ∧ (GetProcAddress.exec nativeNone false sampleHandle 0x20000000
        ⟨sampleMem 1 3 2, []⟩).1 = none
    ∧ (GetProcAddress.exec nativeNone true sampleHandle 0x20000000
        ⟨sampleMem 1 3 2, []⟩).1 = none := by
  decide

/-- C9, amended: fault containment for an identifier that is an ordinal or a
readable string. When a read inside the `__try` block faults,
`Hook::GetProcAddress` returns the fallback candidate computed before the block
and `Hook::CheckExportAddress` returns false. When `m'` is `m` with some
addresses made to fault, each operation returns on `m'` what it returns on `m`,
or else its fault outcome; `Hook::GetProcAddress` returns an address on both
and `Hook::CheckExportAddress` a boolean. A name identifier whose bytes cannot
be read is outside the guarantee: when the native lookup finds nothing, the
access violation of the `%s` diagnostic reaches the caller. -/
theorem fault_containment (native : Nat → Nat → Nat) (nativeReads : Bool) {m' m : Mem}
    (hle : FaultsMore m' m) (h fn a : Nat) (s : List LogLine) :
    (HIWORD fn = 0 ∨ cstr m' fn ≠ none →
      (h ≠ 0 → fn ≠ 0 →
        (GetProcAddress.exec.tryBlock h fn (native h fn) ⟨m', s⟩).1 = none →
        (GetProcAddress.exec native nativeReads h fn ⟨m', s⟩).1 = some (native h fn))
      ∧ ∃ v v', (GetProcAddress.exec native nativeReads h fn ⟨m', s⟩).1 = some v
          ∧ (GetProcAddress.exec native nativeReads h fn ⟨m, s⟩).1 = some v'
          ∧ (v = v' ∨ v = native h fn))
    ∧ (CheckExportAddress.tryBlock native m' h a = none →
        (CheckExportAddress native m' h a).value = false)
    ∧ ((CheckExportAddress native m' h a).value = (CheckExportAddress native m h a).value
        ∨ (CheckExportAddress native m' h a).value = false)
    ∧ (h ≠ 0 → HIWORD fn ≠ 0 → cstr m' fn = none → native h fn = 0 →
        (GetProcAddress.exec native nativeReads h fn ⟨m', s⟩).1 = none) := by
  refine ⟨?_, ?_, ?_, ?_⟩
  · intro hid
    have hid2 : HIWORD fn = 0 ∨ cstr m fn ≠ none := hid.imp id (cstr_faults hle fn)
    rw [exec_of_readable native nativeReads h fn ⟨m', s⟩ hid,
      exec_of_readable native nativeReads h fn ⟨m, s⟩ hid2]
    refine ⟨?_, _, _, rfl, rfl, ?_⟩
    · intro hh hfn hT
      rw [exec_tryBlock_faults_iff] at hT
      dsimp only
      rw [GetProcAddress_value native m' hh hfn, hT]
    · dsimp only
      by_cases hz : h = 0 ∨ fn = 0
      · left
        simp [GetProcAddress, hz]
      · have hh : h ≠ 0 := fun e => hz (Or.inl e)
        have hfn : fn ≠ 0 := fun e => hz (Or.inr e)
        rw [GetProcAddress_value native m' hh hfn, GetProcAddress_value native m hh hfn]
        rcases tryBlock_faults hle h fn (native h fn) with e | e
        · right; rw [e]
        · left; rw [e]
  · intro hT
    by_cases hh : h = 0
    · simp [CheckExportAddress, hh]
    · rw [CheckExportAddress_value native m' hh a, hT]
  · by_cases hh : h = 0
    · left
      simp [CheckExportAddress, hh]
    · rw [CheckExportAddress_value native m' hh a, CheckExportAddress_value native m hh a]
      rcases checkTryBlock_faults native hle h a with e | e
      · right; rw [e]
      · left; rw [e]
  · intro hh hhi hc hn
    have hfn : fn ≠ 0 := by
      intro e
      rw [e] at hhi
      exact hhi (by decide)
    rw [exec_of_unreadable native nativeReads h fn ⟨m', s⟩ hh hfn hhi hc, if_pos (Or.inr hn)]

/-- The synthetic image truncated before its tables (offset 232), with the
ordinal 2: the read of a function address, respectively of a name entry,
faults, and the results are the native answer `0x7000` and false. With the
unreadable identifier `0x20000000` and a native lookup that finds nothing, the
call does not return. -/
theorem fault_containment_witness :
    (GetProcAddress.exec nativeConst false sampleHandle 2
        ⟨cutMem (sampleMem 1 3 2) (sampleHandle + 232), []⟩).1 = some 0x7000
    ∧ (CheckExportAddress nativeNone (cutMem (sampleMem 1 3 2) (sampleHandle + 232))
        sampleHandle 0x10001020).value = false
    ∧ (GetProcAddress.exec nativeNone false sampleHandle 0x20000000
        ⟨cutMem (sampleMem 1 3 2) (sampleHandle + 232), []⟩).1 = none :=
  ⟨((fault_containment nativeConst false (cutMem_faults (sampleMem 1 3 2) (sampleHandle + 232))
      sampleHandle 2 0x10001020 []).1 (Or.inl (by decide))).1 (by decide) (by decide)
      (by decide),
   (fault_containment nativeNone false (cutMem_faults (sampleMem 1 3 2) (sampleHandle + 232))
      sampleHandle 2 0x10001020 []).2.1 (by decide),
   (fault_containment nativeNone false (cutMem_faults (sampleMem 1 3 2) (sampleHandle + 232))
      sampleHandle 0x20000000 0x10001020 []).2.2.2 (by decide) (by decide) (by decide)
      (by decide)⟩

/-- C16: two calls of `Hook::GetProcAddress` with the same handle and
identifier and no modification of the memory in between give identical
results. With the call run statement by statement in a world (the memory, which
holds the image and every variable that outlives a call, and the log sink):
the call leaves the memory as it found it; the second call, made in the world
the first one left, gives the result of the first (the same address, or the
same access violation), leaves the memory as it found it and appends the same
lines again; a call in any world whose memory holds the same bytes, whatever
its log sink holds, gives the same result; and an address the call returns is
the resolver's. -/
theorem GetProcAddress_idempotent (native : Nat → Nat → Nat) (nativeReads : Bool) (w w' : World)
    (h fn : Nat) (hs : SameBytes w.mem w'.mem) :
    (GetProcAddress.exec native nativeReads h fn w).2.mem = w.mem
    ∧ (GetProcAddress.exec native nativeReads h fn
        (GetProcAddress.exec native nativeReads h fn w).2).1
        = (GetProcAddress.exec native nativeReads h fn w).1
    ∧ (GetProcAddress.exec native nativeReads h fn
        (GetProcAddress.exec native nativeReads h fn w).2).2.mem = w.mem
    ∧ (∃ lines, (GetProcAddress.exec native nativeReads h fn w).2.sink = w.sink ++ lines
        ∧ (GetProcAddress.exec native nativeReads h fn
            (GetProcAddress.exec native nativeReads h fn w).2).2.sink
          = w.sink ++ lines ++ lines)
    ∧ (GetProcAddress.exec native nativeReads h fn w').1
        = (GetProcAddress.exec native nativeReads h fn w).1
    ∧ (∀ v, (GetProcAddress.exec native nativeReads h fn w).1 = some v →
        v = (GetProcAddress native w.mem h fn).value) := by
  obtain ⟨r, lines, hshape⟩ := exec_shape native nativeReads h fn w.mem
  have h1 : GetProcAddress.exec native nativeReads h fn w = (r, ⟨w.mem, w.sink ++ lines⟩) :=
    hshape w.sink
  have h2 := exec_congr native nativeReads h fn hs w.sink w'.sink r lines h1
  have h2' : GetProcAddress.exec native nativeReads h fn w' = (r, ⟨w'.mem, w'.sink ++ lines⟩) :=
    h2
  refine ⟨?_, ?_, ?_, ⟨lines, ?_, ?_⟩, ?_, fun v hv => exec_returns native nativeReads h fn w v hv⟩
  · rw [h1]
  · rw [h1, hshape (w.sink ++ lines)]
  · rw [h1, hshape (w.sink ++ lines)]
  · rw [h1]
  · rw [h1, hshape (w.sink ++ lines)]
  · rw [h2', h1]

/-- Two worlds with the synthetic image and different log sinks: `Beta`
resolves to `0x10001020` in both, and again on a second call, which leaves the
sink with the lines of the first call and its own. -/
theorem GetProcAddress_idempotent_witness :
    (GetProcAddress.exec nativeNone false sampleHandle (sampleHandle + 267)
        (GetProcAddress.exec nativeNone false sampleHandle (sampleHandle + 267)
          ⟨sampleMem 1 3 2, []⟩).2).1
      = (GetProcAddress.exec nativeNone false sampleHandle (sampleHandle + 267)
          ⟨sampleMem 1 3 2, []⟩).1
    ∧ (GetProcAddress.exec nativeNone false sampleHandle (sampleHandle + 267)
          ⟨sampleMem 1 3 2, [⟨"earlier line", []⟩]⟩).1
      = (GetProcAddress.exec nativeNone false sampleHandle (sampleHandle + 267)
          ⟨sampleMem 1 3 2, []⟩).1
    ∧ (GetProcAddress.exec nativeNone false sampleHandle (sampleHandle + 267)
          ⟨sampleMem 1 3 2, []⟩).1 = some 0x10001020 :=
  ⟨(GetProcAddress_idempotent nativeNone false ⟨sampleMem 1 3 2, []⟩
      ⟨sampleMem 1 3 2, [⟨"earlier line", []⟩]⟩ sampleHandle (sampleHandle + 267)
      (fun _ _ => rfl)).2.1,
   (GetProcAddress_idempotent nativeNone false ⟨sampleMem 1 3 2, []⟩
      ⟨sampleMem 1 3 2, [⟨"earlier line", []⟩]⟩ sampleHandle (sampleHandle + 267)
      (fun _ _ => rfl)).2.2.2.2.1,
   by decide⟩

end Hook

namespace Remix

/-! ## The state machine of `RemixAPIManager` -/

theorem Initialize_of_initialized (p : Platform) (s : RemixAPIManager) (e : Bool)
    (h : s.m_initialized = true) :
    RemixAPIManager.Initialize p s e = ⟨true, s, none, []⟩ := by
  simp [RemixAPIManager.Initialize, h]

theorem Initialize_of_permanent (p : Platform) (s : RemixAPIManager) (e : Bool)
    (h : s.m_initialized = false) (ha : s.m_initAttempted = true)
    (he : s.m_lastError ≠ REMIXAPI_ERROR_CODE_NOT_INITIALIZED) :
    RemixAPIManager.Initialize p s e = ⟨false, s, none, []⟩ := by
  simp [RemixAPIManager.Initialize, h, ha, he]

/-- `Initialize` returns true exactly when it leaves the manager initialized. -/
theorem Initialize_ret_eq_initialized (p : Platform) (s : RemixAPIManager) (e : Bool) :
    (RemixAPIManager.Initialize p s e).ret
      = (RemixAPIManager.Initialize p s e).state.m_initialized := by
  unfold RemixAPIManager.Initialize RemixAPIManager.Initialize.invoke
  cases hi : s.m_initialized <;> simp only [Bool.false_eq_true, if_true, if_false]
  repeat' split
  all_goals first | rfl | exact hi.symm

theorem SetupCamera_state (p : Platform) (s : RemixAPIManager) (info : Nat) :
    (RemixAPIManager.SetupCamera p s info).state = s := by
  unfold RemixAPIManager.SetupCamera
  split <;> rfl

theorem SetConfigVariable_state (p : Platform) (s : RemixAPIManager) (var value : Nat) :
    (RemixAPIManager.SetConfigVariable p s var value).state = s := by
  unfold RemixAPIManager.SetConfigVariable
  split <;> rfl

theorem step_of_table_call (s : RemixAPIManager) (op : Op) (h : op.isInitialize = false) :
    step s op = s := by
  cases op with
  | Initialize p e => cases h
  | SetupCamera p info => exact SetupCamera_state p s info
  | SetConfigVariable p var value => exact SetConfigVariable_state p s var value

theorem step_of_initialized (s : RemixAPIManager) (op : Op) (h : s.m_initialized = true) :
    step s op = s := by
  cases op with
  | Initialize p e =>
    show (RemixAPIManager.Initialize p s e).state = s
    rw [Initialize_of_initialized p s e h]
  | SetupCamera p info => exact SetupCamera_state p s info
  | SetConfigVariable p var value => exact SetConfigVariable_state p s var value

theorem step_of_permanent (s : RemixAPIManager) (op : Op)
    (h : s.m_initialized = false) (ha : s.m_initAttempted = true)
    (he : s.m_lastError ≠ REMIXAPI_ERROR_CODE_NOT_INITIALIZED) :
    step s op = s := by
  cases op with
  | Initialize p e =>
    show (RemixAPIManager.Initialize p s e).state = s
    rw [Initialize_of_permanent p s e h ha he]
  | SetupCamera p info => exact SetupCamera_state p s info
  | SetConfigVariable p var value => exact SetConfigVariable_state p s var value

theorem run_of_fixed (s : RemixAPIManager) (hfix : ∀ op, step s op = s) (ops : List Op) :
    run s ops = s := by
  induction ops with
  | nil => rfl
  | cons op ops ih =>
    show run (step s op) ops = s
    rw [hfix op]
    exact ih

theorem run_of_initialized (s : RemixAPIManager) (ops : List Op) (h : s.m_initialized = true) :
    run s ops = s :=
  run_of_fixed s (fun op => step_of_initialized s op h) ops

theorem run_of_permanent (s : RemixAPIManager) (ops : List Op)
    (h : s.m_initialized = false) (ha : s.m_initAttempted = true)
    (he : s.m_lastError ≠ REMIXAPI_ERROR_CODE_NOT_INITIALIZED) :
    run s ops = s :=
  run_of_fixed s (fun op => step_of_permanent s op h ha he) ops

theorem run_of_table_calls (s : RemixAPIManager) (ops : List Op)
    (h : ∀ op, op ∈ ops → op.isInitialize = false) :
    run s ops = s := by
  induction ops with
  | nil => rfl
  | cons op ops ih =>
    show run (step s op) ops = s
    rw [step_of_table_call s op (h op (List.mem_cons_self _ _))]
    exact ih (fun o ho => h o (List.mem_cons_of_mem _ ho))

/-- The manager is initialized after a sequence of operations exactly when one
of its calls of `Initialize` returned true. -/
theorem initializeSucceeded_eq (ops : List Op) :
    ∀ s : RemixAPIManager, s.m_initialized = false →
      initializeSucceeded s ops = (run s ops).m_initialized := by
  induction ops with
  | nil => intro s h; exact h.symm
  | cons op ops ih =>
    intro s h
    show ((match op with
      | Op.Initialize p outError => (RemixAPIManager.Initialize p s outError).ret
      | _ => false) || initializeSucceeded (step s op) ops) = (run (step s op) ops).m_initialized
    cases hs : (step s op).m_initialized with
    | false =>
      rw [ih (step s op) hs]
      cases op with
      | Initialize p e =>
        have h1 : (RemixAPIManager.Initialize p s e).ret = false := by
          rw [Initialize_ret_eq_initialized]; exact hs
        simp [h1]
      | SetupCamera p info => simp
      | SetConfigVariable p var value => simp
    | true =>
      rw [run_of_initialized (step s op) ops hs, hs]
      cases op with
      | Initialize p e =>
        have h1 : (RemixAPIManager.Initialize p s e).ret = true := by
          rw [Initialize_ret_eq_initialized]; exact hs
        simp [h1]
      | SetupCamera p info =>
        rw [step_of_table_call s (Op.SetupCamera p info) rfl, h] at hs
        cases hs
      | SetConfigVariable p var value =>
        rw [step_of_table_call s (Op.SetConfigVariable p var value) rfl, h] at hs
        cases hs

/-- The paths through `Initialize`: the two early returns, the two failed
lookups, and the two ways of reaching the call of the library. -/
theorem Initialize_cases (p : Platform) (s : RemixAPIManager) (e : Bool) :
    RemixAPIManager.Initialize p s e = ⟨true, s, none, []⟩
    ∨ RemixAPIManager.Initialize p s e = ⟨false, s, none, []⟩
    ∨ RemixAPIManager.Initialize p s e
        = ⟨false, { s with m_initAttempted := true },
            writeError e "GetModuleHandleA(d3d9.dll) returned NULL", [Call.GetModuleHandleA]⟩
    ∨ RemixAPIManager.Initialize p s e
        = ⟨false, { s with m_pfnInitialize := 0, m_initAttempted := true },
            writeError e "GetProcAddress(remixapi_InitializeLibrary) returned NULL",
            [Call.GetModuleHandleA, Call.GetProcAddress p.GetModuleHandleA]⟩
    ∨ (s.m_initialized = false ∧ p.GetProcAddress p.GetModuleHandleA ≠ 0
        ∧ RemixAPIManager.Initialize p s e
          = RemixAPIManager.Initialize.invoke p
              { s with m_pfnInitialize := p.GetProcAddress p.GetModuleHandleA } e
              [Call.GetModuleHandleA, Call.GetProcAddress p.GetModuleHandleA])
    ∨ (s.m_initialized = false ∧ s.m_pfnInitialize ≠ 0
        ∧ RemixAPIManager.Initialize p s e
          = RemixAPIManager.Initialize.invoke p s e [Call.GetModuleHandleA]) := by
  unfold RemixAPIManager.Initialize
  by_cases h1 : s.m_initialized = true
  · rw [if_pos h1]; exact Or.inl rfl
  · rw [if_neg h1]
    have h1f : s.m_initialized = false := by simpa using h1
    by_cases h2 : (s.m_initAttempted && s.m_lastError != REMIXAPI_ERROR_CODE_NOT_INITIALIZED) = true
    · rw [if_pos h2]; exact Or.inr (Or.inl rfl)
    · rw [if_neg h2]
      dsimp only
      by_cases h3 : p.GetModuleHandleA = 0
      · rw [if_pos h3]; exact Or.inr (Or.inr (Or.inl rfl))
      · rw [if_neg h3]
        by_cases h4 : s.m_pfnInitialize = 0
        · rw [if_pos h4]
          by_cases h5 : p.GetProcAddress p.GetModuleHandleA = 0
          · rw [if_pos h5, h5]; exact Or.inr (Or.inr (Or.inr (Or.inl rfl)))
          · rw [if_neg h5]; exact Or.inr (Or.inr (Or.inr (Or.inr (Or.inl ⟨h1f, h5, rfl⟩))))
        · rw [if_neg h4]; exact Or.inr (Or.inr (Or.inr (Or.inr (Or.inr ⟨h1f, h4, rfl⟩))))

/-- What the call of the library leaves. -/
theorem invoke_spec (p : Platform) (s : RemixAPIManager) (e : Bool) (calls : List Call) :
    (RemixAPIManager.Initialize.invoke p s e calls).calls
        = calls ++ [Call.InitializeLibrary s.m_pfnInitialize
            (p.callInitializeLibrary s.m_pfnInitialize s.m_interface).1]
    ∧ (RemixAPIManager.Initialize.invoke p s e calls).state.m_pfnInitialize = s.m_pfnInitialize
    ∧ ((p.callInitializeLibrary s.m_pfnInitialize s.m_interface).1 = REMIXAPI_ERROR_CODE_SUCCESS →
        (RemixAPIManager.Initialize.invoke p s e calls).state.m_initialized = true)
    ∧ ((p.callInitializeLibrary s.m_pfnInitialize s.m_interface).1 ≠ REMIXAPI_ERROR_CODE_SUCCESS →
        (RemixAPIManager.Initialize.invoke p s e calls).state.m_initialized = s.m_initialized
        ∧ (RemixAPIManager.Initialize.invoke p s e calls).state.m_lastError
            = (p.callInitializeLibrary s.m_pfnInitialize s.m_interface).1
        ∧ ((p.callInitializeLibrary s.m_pfnInitialize s.m_interface).1
              ≠ REMIXAPI_ERROR_CODE_NOT_INITIALIZED →
            (RemixAPIManager.Initialize.invoke p s e calls).state.m_initAttempted = true)) := by
  unfold RemixAPIManager.Initialize.invoke
  dsimp only
  by_cases h1 : (p.callInitializeLibrary s.m_pfnInitialize s.m_interface).1
      = REMIXAPI_ERROR_CODE_SUCCESS
  · rw [if_neg (not_not.mpr h1)]
    exact ⟨rfl, rfl, fun _ => rfl, fun h => absurd h1 h⟩
  · rw [if_pos h1]
    by_cases h2 : (p.callInitializeLibrary s.m_pfnInitialize s.m_interface).1
        = REMIXAPI_ERROR_CODE_NOT_INITIALIZED
    · rw [if_neg (not_not.mpr h2)]
      exact ⟨rfl, rfl, fun h => absurd h h1, fun _ => ⟨rfl, rfl, fun h => absurd h2 h⟩⟩
    · rw [if_pos h2]
      exact ⟨rfl, rfl, fun h => absurd h h1, fun _ => ⟨rfl, rfl, fun _ => rfl⟩⟩

/-- What a call of `Initialize` that reached the library leaves. -/
theorem Initialize_invoked (p : Platform) (s : RemixAPIManager) (e : Bool) (pfn code : Nat)
    (h : Call.InitializeLibrary pfn code ∈ (RemixAPIManager.Initialize p s e).calls) :
    pfn ≠ 0
    ∧ (RemixAPIManager.Initialize p s e).state.m_pfnInitialize = pfn
    ∧ (code = REMIXAPI_ERROR_CODE_SUCCESS →
        (RemixAPIManager.Initialize p s e).state.m_initialized = true)
    ∧ (code ≠ REMIXAPI_ERROR_CODE_SUCCESS →
        (RemixAPIManager.Initialize p s e).state.m_initialized = false
        ∧ (RemixAPIManager.Initialize p s e).state.m_lastError = code
        ∧ (code ≠ REMIXAPI_ERROR_CODE_NOT_INITIALIZED →
            (RemixAPIManager.Initialize p s e).state.m_initAttempted = true)) := by
  rcases Initialize_cases p s e with hc | hc | hc | hc | ⟨hi, hp, hc⟩ | ⟨hi, hp, hc⟩
  · rw [hc] at h; simp at h
  · rw [hc] at h; simp at h
  · rw [hc] at h; simp at h
  · rw [hc] at h; simp at h
  · obtain ⟨h1, h2, h3, h4⟩ := invoke_spec p
      { s with m_pfnInitialize := p.GetProcAddress p.GetModuleHandleA } e
      [Call.GetModuleHandleA, Call.GetProcAddress p.GetModuleHandleA]
    rw [hc] at h ⊢
    rw [h1] at h
    simp at h
    obtain ⟨hpfn, hcode⟩ := h
    subst hpfn hcode
    exact ⟨hp, h2, h3, fun hne => ⟨(h4 hne).1.trans hi, (h4 hne).2⟩⟩
  · obtain ⟨h1, h2, h3, h4⟩ := invoke_spec p s e [Call.GetModuleHandleA]
    rw [hc] at h ⊢
    rw [h1] at h
    simp at h
    obtain ⟨hpfn, hcode⟩ := h
    subst hpfn hcode
    exact ⟨hp, h2, h3, fun hne => ⟨(h4 hne).1.trans hi, (h4 hne).2⟩⟩

/-- A call of `Initialize` that does not reach the library leaves the manager
uninitialized, without cached address and with the last error it had. -/
theorem Initialize_not_invoked (p : Platform) (s : RemixAPIManager) (e : Bool)
    (hi : s.m_initialized = false) (hp : s.m_pfnInitialize = 0)
    (h : ∀ pfn code, Call.InitializeLibrary pfn code ∉ (RemixAPIManager.Initialize p s e).calls) :
    (RemixAPIManager.Initialize p s e).state.m_initialized = false
    ∧ (RemixAPIManager.Initialize p s e).state.m_pfnInitialize = 0
    ∧ (RemixAPIManager.Initialize p s e).state.m_lastError = s.m_lastError := by
  rcases Initialize_cases p s e with hc | hc | hc | hc | ⟨_, _, hc⟩ | ⟨_, hp2, _⟩
  · rw [hc]; exact ⟨hi, hp, rfl⟩
  · rw [hc]; exact ⟨hi, hp, rfl⟩
  · rw [hc]; exact ⟨hi, hp, rfl⟩
  · rw [hc]; exact ⟨hi, rfl, rfl⟩
  · exfalso
    have h1 := (invoke_spec p { s with m_pfnInitialize := p.GetProcAddress p.GetModuleHandleA } e
      [Call.GetModuleHandleA, Call.GetProcAddress p.GetModuleHandleA]).1
    have hm : Call.InitializeLibrary (p.GetProcAddress p.GetModuleHandleA)
        (p.callInitializeLibrary (p.GetProcAddress p.GetModuleHandleA) s.m_interface).1
        ∈ (RemixAPIManager.Initialize p s e).calls := by
      rw [hc, h1]
      exact List.mem_append_right _ (List.mem_singleton_self _)
    exact h _ _ hm
  · exact absurd hp hp2

/-- As long as the library was never called, the manager is uninitialized, has
no cached address, and its last error is the one it started with. -/
theorem run_never_invoked (ops : List Op) :
    ∀ s : RemixAPIManager, s.m_initialized = false → s.m_pfnInitialize = 0 →
      (∀ pfn code, Call.InitializeLibrary pfn code ∉ runCalls s ops) →
      (run s ops).m_initialized = false ∧ (run s ops).m_pfnInitialize = 0
      ∧ (run s ops).m_lastError = s.m_lastError := by
  induction ops with
  | nil => intro s hi hp _; exact ⟨hi, hp, rfl⟩
  | cons op ops ih =>
    intro s hi hp h
    have hhead : ∀ pfn code, Call.InitializeLibrary pfn code ∉ stepCalls s op :=
      fun pfn code hm => h pfn code (List.mem_append_left _ hm)
    have htail : ∀ pfn code, Call.InitializeLibrary pfn code ∉ runCalls (step s op) ops :=
      fun pfn code hm => h pfn code (List.mem_append_right _ hm)
    have hstep : (step s op).m_initialized = false ∧ (step s op).m_pfnInitialize = 0
        ∧ (step s op).m_lastError = s.m_lastError := by
      cases op with
      | Initialize p e => exact Initialize_not_invoked p s e hi hp hhead
      | SetupCamera p info =>
        rw [step_of_table_call s (Op.SetupCamera p info) rfl]; exact ⟨hi, hp, rfl⟩
      | SetConfigVariable p var value =>
        rw [step_of_table_call s (Op.SetConfigVariable p var value) rfl]; exact ⟨hi, hp, rfl⟩
    obtain ⟨h1, h2, h3⟩ := ih (step s op) hstep.1 hstep.2.1 htail
    exact ⟨h1, h2, h3.trans hstep.2.2⟩

/-- A failed lookup in an uninitialized manager whose last error is
`REMIXAPI_ERROR_CODE_SUCCESS` leaves it attempted, with the same last error. -/
theorem Initialize_failed_lookup (p : Platform) (s : RemixAPIManager) (e : Bool)
    (hi : s.m_initialized = false) (he : s.m_lastError = REMIXAPI_ERROR_CODE_SUCCESS)
    (hfail : p.GetModuleHandleA = 0
      ∨ (s.m_pfnInitialize = 0 ∧ p.GetProcAddress p.GetModuleHandleA = 0)) :
    (RemixAPIManager.Initialize p s e).ret = false
    ∧ (∀ pfn code, Call.InitializeLibrary pfn code ∉ (RemixAPIManager.Initialize p s e).calls)
    ∧ (RemixAPIManager.Initialize p s e).state.m_initialized = false
    ∧ (RemixAPIManager.Initialize p s e).state.m_initAttempted = true
    ∧ (RemixAPIManager.Initialize p s e).state.m_lastError = REMIXAPI_ERROR_CODE_SUCCESS := by
  unfold RemixAPIManager.Initialize
  rw [if_neg (by rw [hi]; exact Bool.false_ne_true)]
  by_cases h2 : (s.m_initAttempted && s.m_lastError != REMIXAPI_ERROR_CODE_NOT_INITIALIZED) = true
  · rw [if_pos h2]
    have ha : s.m_initAttempted = true := by
      rw [Bool.and_eq_true] at h2; exact h2.1
    exact ⟨rfl, fun _ _ hm => by simp at hm, hi, ha, he⟩
  · rw [if_neg h2]
    dsimp only
    by_cases h3 : p.GetModuleHandleA = 0
    · rw [if_pos h3]
      exact ⟨rfl, fun _ _ hm => by simp at hm, hi, rfl, he⟩
    · rw [if_neg h3]
      rcases hfail with hf | ⟨hf1, hf2⟩
      · exact absurd hf h3
      · rw [if_pos hf1, if_pos hf2]
        exact ⟨rfl, fun _ _ hm => by simp at hm, hi, rfl, he⟩

/-- A manager whose last error is `REMIXAPI_ERROR_CODE_NOT_INITIALIZED` and
which holds the address of the initialize function calls it again when the
module is found. -/
theorem Initialize_retry (p : Platform) (s : RemixAPIManager) (e : Bool)
    (hi : s.m_initialized = false)
    (hle : s.m_lastError = REMIXAPI_ERROR_CODE_NOT_INITIALIZED)
    (hp : s.m_pfnInitialize ≠ 0) (hmod : p.GetModuleHandleA ≠ 0) :
    RemixAPIManager.Initialize p s e
      = RemixAPIManager.Initialize.invoke p s e [Call.GetModuleHandleA] := by
  unfold RemixAPIManager.Initialize
  rw [if_neg (by rw [hi]; exact Bool.false_ne_true)]
  have hg : ¬ (s.m_initAttempted && s.m_lastError != REMIXAPI_ERROR_CODE_NOT_INITIALIZED)
      = true := by
    rw [hle]; simp
  rw [if_neg hg]
  dsimp only
  rw [if_neg hmod, if_neg hp]

/-! ## Claims on the manager of the Remix API -/

/-- C25, as stated, fails on the code: the library's initialize function
returns `REMIXAPI_ERROR_CODE_NOT_INITIALIZED` at the first call of `Initialize`
of a fresh manager, `d3d9.dll` is no longer loaded at the next call, and that
call returns false after the module lookup without invoking the initialize
function. -/
theorem Initialize_retry_policy_counterexample :
    Call.InitializeLibrary 0x7000 REMIXAPI_ERROR_CODE_NOT_INITIALIZED
        ∈ (RemixAPIManager.Initialize (samplePlatform 11) RemixAPIManager.ctor false).calls
    ∧ (RemixAPIManager.Initialize samplePlatformNoModule
        (RemixAPIManager.Initialize (samplePlatform 11) RemixAPIManager.ctor false).state
        false).ret = false
    ∧ (RemixAPIManager.Initialize samplePlatformNoModule
        (RemixAPIManager.Initialize (samplePlatform 11) RemixAPIManager.ctor false).state
        false).calls = [Call.GetModuleHandleA] := by
  decide

/-- C25, amended: the retry policy of `RemixAPIManager::Initialize`. Once
`Initialize` has returned true, every later call returns true without any
outside call. After the initialize function returned
`REMIXAPI_ERROR_CODE_NOT_INITIALIZED`, the next call of `Initialize` invokes
the same function again provided `GetModuleHandleA("d3d9.dll")` still returns a
handle at that call. After it returned any other non-success code, every later
call of `Initialize` returns false without any outside call. -/
theorem Initialize_retry_policy (p0 : Platform) (s0 : RemixAPIManager) (e0 : Bool)
    (ops : List Op) (p : Platform) (e : Bool) (pfn code : Nat) :
    ((RemixAPIManager.Initialize p0 s0 e0).ret = true →
      RemixAPIManager.Initialize p (run (RemixAPIManager.Initialize p0 s0 e0).state ops) e
        = ⟨true, run (RemixAPIManager.Initialize p0 s0 e0).state ops, none, []⟩)
    ∧ (Call.InitializeLibrary pfn REMIXAPI_ERROR_CODE_NOT_INITIALIZED
          ∈ (RemixAPIManager.Initialize p0 s0 e0).calls →
        (∀ op, op ∈ ops → op.isInitialize = false) →
        p.GetModuleHandleA ≠ 0 →
        ∃ result,
          (RemixAPIManager.Initialize p (run (RemixAPIManager.Initialize p0 s0 e0).state ops)
            e).calls = [Call.GetModuleHandleA, Call.InitializeLibrary pfn result])
    ∧ (Call.InitializeLibrary pfn code ∈ (RemixAPIManager.Initialize p0 s0 e0).calls →
        code ≠ REMIXAPI_ERROR_CODE_SUCCESS → code ≠ REMIXAPI_ERROR_CODE_NOT_INITIALIZED →
        RemixAPIManager.Initialize p (run (RemixAPIManager.Initialize p0 s0 e0).state ops) e
          = ⟨false, run (RemixAPIManager.Initialize p0 s0 e0).state ops, none, []⟩) := by
  refine ⟨?_, ?_, ?_⟩
  · intro hret
    have hi : (RemixAPIManager.Initialize p0 s0 e0).state.m_initialized = true := by
      rw [← Initialize_ret_eq_initialized]; exact hret
    rw [run_of_initialized _ ops hi]
    exact Initialize_of_initialized p _ e hi
  · intro hm hops hmod
    obtain ⟨hpfn, hst, _, hfail⟩ := Initialize_invoked p0 s0 e0 pfn _ hm
    obtain ⟨hi, hle, _⟩ := hfail (by decide)
    rw [run_of_table_calls _ ops hops]
    rw [Initialize_retry p _ e hi hle (by rw [hst]; exact hpfn) hmod,
      (invoke_spec p _ e [Call.GetModuleHandleA]).1, hst]
    exact ⟨_, rfl⟩
  · intro hm h0 h11
    obtain ⟨_, _, _, hfail⟩ := Initialize_invoked p0 s0 e0 pfn code hm
    obtain ⟨hi, hle, hat⟩ := hfail h0
    have hne : (RemixAPIManager.Initialize p0 s0 e0).state.m_lastError
        ≠ REMIXAPI_ERROR_CODE_NOT_INITIALIZED := by rw [hle]; exact h11
    rw [run_of_permanent _ ops hi (hat h11) hne]
    exact Initialize_of_permanent p _ e hi (hat h11) hne

/-- The three parts of the policy on the sample platforms: after a success,
after `REMIXAPI_ERROR_CODE_NOT_INITIALIZED`, and after the code 1. -/
theorem Initialize_retry_policy_witness :
    RemixAPIManager.Initialize samplePlatformNoModule
        (run (RemixAPIManager.Initialize (samplePlatform 0) RemixAPIManager.ctor false).state
          [Op.SetupCamera (samplePlatform 0) 5]) true
      = ⟨true, run (RemixAPIManager.Initialize (samplePlatform 0) RemixAPIManager.ctor false).state
          [Op.SetupCamera (samplePlatform 0) 5], none, []⟩
    ∧ (∃ result,
        (RemixAPIManager.Initialize (samplePlatform 0)
          (run (RemixAPIManager.Initialize (samplePlatform 11) RemixAPIManager.ctor false).state
            [Op.SetupCamera (samplePlatform 0) 5]) false).calls
          = [Call.GetModuleHandleA, Call.InitializeLibrary 0x7000 result])
    ∧ RemixAPIManager.Initialize (samplePlatform 0)
        (run (RemixAPIManager.Initialize (samplePlatform 1) RemixAPIManager.ctor false).state
          [Op.Initialize (samplePlatform 0) false]) true
      = ⟨false, run (RemixAPIManager.Initialize (samplePlatform 1) RemixAPIManager.ctor false).state
          [Op.Initialize (samplePlatform 0) false], none, []⟩ :=
  ⟨(Initialize_retry_policy (samplePlatform 0) RemixAPIManager.ctor false
      [Op.SetupCamera (samplePlatform 0) 5] samplePlatformNoModule true 0 0).1 (by decide),
   (Initialize_retry_policy (samplePlatform 11) RemixAPIManager.ctor false
      [Op.SetupCamera (samplePlatform 0) 5] (samplePlatform 0) false 0x7000 0).2.1 (by decide)
      (fun op hop => by
        rw [List.mem_singleton] at hop
        rw [hop]
        rfl)
      (by decide),
   (Initialize_retry_policy (samplePlatform 1) RemixAPIManager.ctor false
      [Op.Initialize (samplePlatform 0) false] (samplePlatform 0) true 0x7000 1).2.2 (by decide)
      (by decide) (by decide)⟩

/-- C26: a failure of `RemixAPIManager::Initialize` before the library's
initialize function was ever called is permanent. In a manager on which the
library was never called, a call of `Initialize` at which `d3d9.dll` is not
loaded or `remixapi_InitializeLibrary` is not resolved returns false without
calling the library and leaves the attempted flag set with the last error
still `REMIXAPI_ERROR_CODE_SUCCESS`; after any later operations, every call of
`Initialize`, on any platform and with or without `outError`, returns false,
leaves the manager as it is, writes no error string and makes no outside call,
not even the module lookup. -/
theorem Initialize_early_failure_permanent (ops0 : List Op) (p0 : Platform) (e0 : Bool)
    (ops : List Op) (p : Platform) (e : Bool)
    (hnever : ∀ pfn code, Call.InitializeLibrary pfn code ∉ runCalls RemixAPIManager.ctor ops0)
    (hfail : p0.GetModuleHandleA = 0 ∨ p0.GetProcAddress p0.GetModuleHandleA = 0) :
    (RemixAPIManager.Initialize p0 (run RemixAPIManager.ctor ops0) e0).ret = false
    ∧ (∀ pfn code, Call.InitializeLibrary pfn code
        ∉ (RemixAPIManager.Initialize p0 (run RemixAPIManager.ctor ops0) e0).calls)
    ∧ (RemixAPIManager.Initialize p0 (run RemixAPIManager.ctor ops0) e0).state.m_initAttempted
        = true
    ∧ (RemixAPIManager.Initialize p0 (run RemixAPIManager.ctor ops0) e0).state.m_lastError
        = REMIXAPI_ERROR_CODE_SUCCESS
    ∧ RemixAPIManager.Initialize p
        (run (RemixAPIManager.Initialize p0 (run RemixAPIManager.ctor ops0) e0).state ops) e
      = ⟨false, run (RemixAPIManager.Initialize p0 (run RemixAPIManager.ctor ops0) e0).state ops,
          none, []⟩ := by
  obtain ⟨hi, hp, he⟩ := run_never_invoked ops0 RemixAPIManager.ctor rfl rfl hnever
  have he0 : (run RemixAPIManager.ctor ops0).m_lastError = REMIXAPI_ERROR_CODE_SUCCESS := he
  obtain ⟨h1, h2, h3, h4, h5⟩ := Initialize_failed_lookup p0 (run RemixAPIManager.ctor ops0) e0
    hi he0 (hfail.imp id (fun h => ⟨hp, h⟩))
  have hne : (RemixAPIManager.Initialize p0 (run RemixAPIManager.ctor ops0) e0).state.m_lastError
      ≠ REMIXAPI_ERROR_CODE_NOT_INITIALIZED := by
    rw [h5]; decide
  refine ⟨h1, h2, h4, h5, ?_⟩
  rw [run_of_permanent _ ops h3 h4 hne]
  exact Initialize_of_permanent p _ e h3 h4 hne

/-- The module is absent at the first call of a fresh manager and loaded at
every later one: the later calls still fail at once. -/
theorem Initialize_early_failure_permanent_witness :
    (RemixAPIManager.Initialize samplePlatformNoModule
        (run RemixAPIManager.ctor [Op.SetupCamera (samplePlatform 0) 5]) true).ret = false
    ∧ RemixAPIManager.Initialize (samplePlatform 0)
        (run (RemixAPIManager.Initialize samplePlatformNoModule
            (run RemixAPIManager.ctor [Op.SetupCamera (samplePlatform 0) 5]) true).state
          [Op.Initialize (samplePlatform 0) true]) true
      = ⟨false, run (RemixAPIManager.Initialize samplePlatformNoModule
            (run RemixAPIManager.ctor [Op.SetupCamera (samplePlatform 0) 5]) true).state
          [Op.Initialize (samplePlatform 0) true], none, []⟩ :=
  ⟨(Initialize_early_failure_permanent [Op.SetupCamera (samplePlatform 0) 5]
      samplePlatformNoModule true [Op.Initialize (samplePlatform 0) true] (samplePlatform 0) true
      (fun _ _ h => by cases h) (Or.inl rfl)).1,
   (Initialize_early_failure_permanent [Op.SetupCamera (samplePlatform 0) 5]
      samplePlatformNoModule true [Op.Initialize (samplePlatform 0) true] (samplePlatform 0) true
      (fun _ _ h => by cases h) (Or.inl rfl)).2.2.2.2⟩

/-- C27: in every state the manager reaches from its construction,
`SetupCamera` and `SetConfigVariable` return
`REMIXAPI_ERROR_CODE_NOT_INITIALIZED` without any outside call when no call of
`Initialize` has returned true or the slot of the table is null; otherwise they
call the function of the slot once and return exactly its code. Neither
changes the manager. -/
theorem table_calls_guarded (ops : List Op) (p : Platform) (info var value : Nat) :
    ((initializeSucceeded RemixAPIManager.ctor ops = false
        ∨ (run RemixAPIManager.ctor ops).m_interface.SetupCamera = 0) →
      RemixAPIManager.SetupCamera p (run RemixAPIManager.ctor ops) info
        = ⟨REMIXAPI_ERROR_CODE_NOT_INITIALIZED, run RemixAPIManager.ctor ops, []⟩)
    ∧ (initializeSucceeded RemixAPIManager.ctor ops = true →
        (run RemixAPIManager.ctor ops).m_interface.SetupCamera ≠ 0 →
        RemixAPIManager.SetupCamera p (run RemixAPIManager.ctor ops) info
          = ⟨p.callSetupCamera (run RemixAPIManager.ctor ops).m_interface.SetupCamera info,
              run RemixAPIManager.ctor ops,
              [Call.SetupCamera (run RemixAPIManager.ctor ops).m_interface.SetupCamera info
                (p.callSetupCamera (run RemixAPIManager.ctor ops).m_interface.SetupCamera info)]⟩)
    ∧ ((initializeSucceeded RemixAPIManager.ctor ops = false
        ∨ (run RemixAPIManager.ctor ops).m_interface.SetConfigVariable = 0) →
      RemixAPIManager.SetConfigVariable p (run RemixAPIManager.ctor ops) var value
        = ⟨REMIXAPI_ERROR_CODE_NOT_INITIALIZED, run RemixAPIManager.ctor ops, []⟩)
    ∧ (initializeSucceeded RemixAPIManager.ctor ops = true →
        (run RemixAPIManager.ctor ops).m_interface.SetConfigVariable ≠ 0 →
        RemixAPIManager.SetConfigVariable p (run RemixAPIManager.ctor ops) var value
          = ⟨p.callSetConfigVariable (run RemixAPIManager.ctor ops).m_interface.SetConfigVariable
                var value,
              run RemixAPIManager.ctor ops,
              [Call.SetConfigVariable (run RemixAPIManager.ctor ops).m_interface.SetConfigVariable
                var value
                (p.callSetConfigVariable
                  (run RemixAPIManager.ctor ops).m_interface.SetConfigVariable var value)]⟩)
    ∧ (RemixAPIManager.SetupCamera p (run RemixAPIManager.ctor ops) info).state
        = run RemixAPIManager.ctor ops
    ∧ (RemixAPIManager.SetConfigVariable p (run RemixAPIManager.ctor ops) var value).state
        = run RemixAPIManager.ctor ops := by
  have hs := initializeSucceeded_eq ops RemixAPIManager.ctor rfl
  refine ⟨?_, ?_, ?_, ?_, SetupCamera_state _ _ _, SetConfigVariable_state _ _ _ _⟩
  · intro h
    unfold RemixAPIManager.SetupCamera
    rw [if_pos]
    rcases h with h | h
    · rw [← hs, h]; rfl
    · rw [h]; simp
  · intro h1 h2
    unfold RemixAPIManager.SetupCamera
    rw [if_neg]
    rw [← hs, h1]
    simpa using h2
  · intro h
    unfold RemixAPIManager.SetConfigVariable
    rw [if_pos]
    rcases h with h | h
    · rw [← hs, h]; rfl
    · rw [h]; simp
  · intro h1 h2
    unfold RemixAPIManager.SetConfigVariable
    rw [if_neg]
    rw [← hs, h1]
    simpa using h2

/-- Before any call of `Initialize`, after a success that filled the table, and
after a success that left it zeroed. -/
theorem table_calls_guarded_witness :
    RemixAPIManager.SetupCamera (samplePlatform 0) (run RemixAPIManager.ctor []) 5
      = ⟨REMIXAPI_ERROR_CODE_NOT_INITIALIZED, run RemixAPIManager.ctor [], []⟩
    ∧ RemixAPIManager.SetConfigVariable (samplePlatform 0)
        (run RemixAPIManager.ctor [Op.Initialize (samplePlatform 0) false]) 8 9
      = ⟨3, run RemixAPIManager.ctor [Op.Initialize (samplePlatform 0) false],
          [Call.SetConfigVariable 0x7200 8 9 3]⟩
    ∧ RemixAPIManager.SetupCamera (samplePlatform 0)
        (run RemixAPIManager.ctor [Op.Initialize samplePlatformEmptyTable false]) 5
      = ⟨REMIXAPI_ERROR_CODE_NOT_INITIALIZED,
          run RemixAPIManager.ctor [Op.Initialize samplePlatformEmptyTable false], []⟩ :=
  ⟨(table_calls_guarded [] (samplePlatform 0) 5 0 0).1 (Or.inl rfl),
   (table_calls_guarded [Op.Initialize (samplePlatform 0) false] (samplePlatform 0) 0 8 9).2.2.2.1
      (by decide) (by decide),
   (table_calls_guarded [Op.Initialize samplePlatformEmptyTable false] (samplePlatform 0)
      5 0 0).1 (Or.inr (by decide))⟩

end Remix
